import Mathlib

/-!
# SRAL-SAO2 base firmware: LED animation engine, scheduler loop and serial queue

Shallow embedding of `fw/src/main.c`, `fw/src/uart.c`, `fw/src/cli.c`,
`fw/src/led.c` and the SRAL-SAO2 branch of `fw/src/timer.c`.

Conventions of the embedding.

* C integers are `Nat` with an explicit reduction where the width matters
  (`% 2 ^ 32` for `uint32_t`, `% 256` for `uint8_t`); `char` values are byte codes.
* Fixed-size C arrays are lists of the array's length, read with `getD` and
  written with `set`.
* Globals and the modelled hardware (LED pins, EEPROM cells, SysTick counter) are
  the fields of `State`; every function of the firmware becomes a `State → State`
  function that keeps the source's name.
* Asynchronous hardware events (button edge, received serial bytes) are delivered
  while the core busy-waits in `delay_us`: the field `env` lists, for each coming
  `delay_us` call, what the interrupt handlers see during it.
* `log` records, in program order, the calls that claims talk about
  (pin writes, delays, polls of the receive queue).
* A run goes from start-up to the next reset of the core. `NVIC_SystemReset` ends the
  run: it sets `halted`, and the instructions that follow it in the source are not
  executed, so a halted state is the board as the reset found it. The start-up that
  follows is `restart`: start-up values in RAM, the EEPROM as it was left.
* Text sent with `UART_SendString`/`UART_SendChar` is not part of the state.
-/

namespace SaoFw

/-! ## Part I: definitions -/

/-! ### config.h -/

/-- Size of the receive ring buffer (`UART_RX_BUFFER_SIZE`). -/
def UART_RX_BUFFER_SIZE : Nat := 128

/-- Size of the shell line buffer (`CLI_BUFFER_SIZE`). -/
def CLI_BUFFER_SIZE : Nat := 80

/-! ### uart.c: the interrupt-fed receive queue -/

/-- The three globals `uart_rx_buffer`, `uart_rx_head`, `uart_rx_tail`. -/
structure UartRx where
  uart_rx_buffer : List Nat
  uart_rx_head : Nat
  uart_rx_tail : Nat
  deriving DecidableEq, Repr

/-- Start-up value: zeroed buffer, `head = tail = 0`. -/
def UartRx.init : UartRx :=
  { uart_rx_buffer := List.replicate 128 0, uart_rx_head := 0, uart_rx_tail := 0 }

/-- `int UART_ReceiveChar(char *c)`: `none` stands for return value 0, `some b` for
return value 1 with `*c = b`. -/
def UART_ReceiveChar (u : UartRx) : Option Nat × UartRx :=
  if u.uart_rx_head = u.uart_rx_tail then (none, u)
  else
    (some (u.uart_rx_buffer.getD u.uart_rx_tail 0),
     { u with uart_rx_tail := (u.uart_rx_tail + 1) % UART_RX_BUFFER_SIZE })

/-- `uint32_t UART_Available(void)`, in 32-bit unsigned arithmetic. -/
def UART_Available (u : UartRx) : Nat :=
  ((u.uart_rx_head + 2 ^ 32 - u.uart_rx_tail % 2 ^ 32 + UART_RX_BUFFER_SIZE) % 2 ^ 32)
    % UART_RX_BUFFER_SIZE

/-- `void UART_IRQHandler(void)` entered with RXNE set and data register `d`. -/
def UART_IRQHandler (d : Nat) (u : UartRx) : UartRx :=
  let next := (u.uart_rx_head + 1) % UART_RX_BUFFER_SIZE
  if next ≠ u.uart_rx_tail then
    { u with uart_rx_buffer := u.uart_rx_buffer.set u.uart_rx_head (d % 256),
             uart_rx_head := next }
  else u

/-- The handler's guard `next != uart_rx_tail`: the arriving byte gets stored. -/
def irqStores (u : UartRx) : Bool :=
  decide ((u.uart_rx_head + 1) % UART_RX_BUFFER_SIZE ≠ u.uart_rx_tail)

/-- One operation on the queue: an interrupt with data byte `d`, or one call of
`UART_ReceiveChar` from the main loop. -/
inductive RxOp where
  | irq (d : Nat)
  | recv
  deriving DecidableEq, Repr

/-- Queue together with two ghost histories: the bytes the handler stored and the
bytes `UART_ReceiveChar` returned, both oldest first. -/
structure RxRun where
  q : UartRx
  accepted : List Nat
  delivered : List Nat
  deriving DecidableEq, Repr

/-- Apply one queue operation and extend the histories. -/
def rxStep (r : RxRun) : RxOp → RxRun
  | .irq d =>
    { q := UART_IRQHandler d r.q,
      accepted := if irqStores r.q then r.accepted ++ [d % 256] else r.accepted,
      delivered := r.delivered }
  | .recv =>
    match UART_ReceiveChar r.q with
    | (some b, q') => { q := q', accepted := r.accepted, delivered := r.delivered ++ [b] }
    | (none, q') => { q := q', accepted := r.accepted, delivered := r.delivered }

/-- Run a sequence of queue operations from the empty queue. -/
def rxRun (ops : List RxOp) : RxRun :=
  ops.foldl rxStep { q := UartRx.init, accepted := [], delivered := [] }

/-- Call `UART_ReceiveChar` up to `n` times, stopping at the first empty answer;
returns the bytes obtained and the queue left. -/
def recvMany : Nat → UartRx → List Nat × UartRx
  | 0, u => ([], u)
  | n + 1, u =>
    match UART_ReceiveChar u with
    | (some b, u') => let r := recvMany n u'; (b :: r.1, r.2)
    | (none, u') => ([], u')

/-- Representation invariant of the ring buffer: `pend` is the queue content,
oldest byte first. -/
def RxInv (u : UartRx) (pend : List Nat) : Prop :=
  u.uart_rx_buffer.length = 128 ∧ u.uart_rx_head < 128 ∧ u.uart_rx_tail < 128 ∧
  pend.length < 128 ∧ u.uart_rx_head = (u.uart_rx_tail + pend.length) % 128 ∧
  ∀ k, k < pend.length → u.uart_rx_buffer.getD ((u.uart_rx_tail + k) % 128) 0 = pend.getD k 0

/-! ### Modelled hardware, globals and the event log -/

/-- Calls recorded in `State.log`. The index `i` is the position 0..4 in
`led_ports[]`/`led_pins[]` (LED1..LED5). -/
inductive Act where
  | setPin (i : Nat)
  | clearPin (i : Nat)
  | togglePin (i : Nat)
  | delay (us : Nat)
  | poll
  | feed (c : Nat)
  deriving DecidableEq, Repr

/-- What the interrupt handlers see during one `delay_us` call: a falling edge on
the button line (EXTI2) and the bytes received on the serial line, in arrival order. -/
structure Irq where
  button : Bool
  bytes : List Nat
  deriving DecidableEq, Repr

/-- Globals of `main.c`, `uart.c`, `timer.c`, `led.c`, `cli.c` and the modelled hardware. -/
structure State where
  /-- output level of the pins LED1..LED5 -/
  leds : List Bool
  led_blinking : List Bool
  led_blink_times : List Nat
  debug_led_blinking : Bool
  debug_led_blink_time : Nat
  led_auto_mode : Nat
  lcg_state : Nat
  last_blink_idx : Int
  button_interrupt_flag : Nat
  /-- function-local statics of the ICIRCLE branch -/
  circle_step : Nat
  circle_forward : Bool
  direction_counter : Nat
  speed_step : Nat
  rx : UartRx
  systick_ms : Nat
  /-- output level of the debug LED pin (PA6) -/
  debug_led : Bool
  led_mode : Nat
  last_blink_time : Nat
  cli_buffer : List Nat
  cli_index : Nat
  boot_time_us : Nat
  awaiting_reset_confirmation : Bool
  suppress_prompt_after_command : Bool
  current_callsign : List Nat
  current_cw : List Nat
  /-- the 256 cells of the 24C02 -/
  eeprom : List Nat
  /-- the I2C transfers complete (no timeout, no NACK) -/
  i2c_ok : Bool
  halted : Bool
  env : List Irq
  log : List Act
  deriving DecidableEq, Repr

/-- Bytes of a string literal. -/
def str (x : String) : List Nat := x.toList.map Char.toNat

/-- Content of a NUL-terminated C string stored in an array. -/
def cstr (a : List Nat) : List Nat := a.takeWhile (fun b => b ≠ 0)

/-- `strncpy(dst, src, n)` for `n` at most the size of `dst`: the first `n` bytes of
`dst` become `src` cut or NUL-padded to `n` bytes. -/
def strncpy (dst src : List Nat) (n : Nat) : List Nat :=
  (src ++ List.replicate (n - src.length) 0).take n ++ dst.drop n

/-- `strcpy(dst, src)`: the bytes of `src` and a NUL. -/
def strcpy (dst src : List Nat) : List Nat :=
  src ++ [0] ++ dst.drop (src.length + 1)

/-- Values of the globals after the C start-up code, with the LED pins as the set-up
loop of `main` leaves them, on a board with the given EEPROM content. -/
def State.init (eeprom : List Nat) (i2c_ok : Bool) (env : List Irq) : State :=
  { leds := [false, false, false, false, false],
    led_blinking := [false, false, false, false, false],
    led_blink_times := [0, 0, 0, 0, 0],
    debug_led_blinking := false, debug_led_blink_time := 0,
    led_auto_mode := 1, lcg_state := 0xA5A5A5A5, last_blink_idx := -1,
    button_interrupt_flag := 0,
    circle_step := 0, circle_forward := true, direction_counter := 0, speed_step := 0,
    rx := UartRx.init, systick_ms := 0,
    debug_led := false, led_mode := 0, last_blink_time := 0,
    cli_buffer := List.replicate 80 0, cli_index := 0, boot_time_us := 0,
    awaiting_reset_confirmation := false, suppress_prompt_after_command := false,
    current_callsign := strncpy (List.replicate 14 0) (str "wheel") 14,
    current_cw := strncpy (List.replicate 21 0) (str "SRAL") 21,
    eeprom := eeprom, i2c_ok := i2c_ok, halted := false, env := env, log := [] }

/-- An instruction of the run: skipped once the core has been reset. -/
def live (f : State → State) (s : State) : State := if s.halted then s else f s

/-- `NVIC_SystemReset()`: the run ends here; see `restart` for the start-up that
follows. -/
def NVIC_SystemReset : State → State := live fun s => { s with halted := true }

/-! ### gpio.c, timer.c (SRAL-SAO2 branch), led.c -/

/-- `GPIO_SetPin(led_ports[i], led_pins[i])`. -/
def GPIO_SetPin (i : Nat) : State → State :=
  live fun s => { s with leds := s.leds.set i true, log := s.log ++ [Act.setPin i] }

/-- `GPIO_ClearPin(led_ports[i], led_pins[i])`. -/
def GPIO_ClearPin (i : Nat) : State → State :=
  live fun s => { s with leds := s.leds.set i false, log := s.log ++ [Act.clearPin i] }

/-- `GPIO_TogglePin(led_ports[i], led_pins[i])`. -/
def GPIO_TogglePin (i : Nat) : State → State :=
  live fun s => { s with leds := s.leds.set i (!(s.leds.getD i false)),
                         log := s.log ++ [Act.togglePin i] }

/-- `for (int i = 0; i < 5; i++) GPIO_ClearPin(led_ports[i], led_pins[i]);` -/
def clearAllLeds (s : State) : State :=
  GPIO_ClearPin 4 (GPIO_ClearPin 3 (GPIO_ClearPin 2 (GPIO_ClearPin 1 (GPIO_ClearPin 0 s))))

/-- `for (int i = 0; i < 5; i++) GPIO_SetPin(led_ports[i], led_pins[i]);` -/
def setAllLeds (s : State) : State :=
  GPIO_SetPin 4 (GPIO_SetPin 3 (GPIO_SetPin 2 (GPIO_SetPin 1 (GPIO_SetPin 0 s))))

/-- `EXTI2_3_IRQHandler` on a falling edge, and `UART_IRQHandler` once per received byte. -/
def deliver (e : Irq) (s : State) : State :=
  { s with button_interrupt_flag := if e.button then 1 else s.button_interrupt_flag,
           rx := e.bytes.foldl (fun u d => UART_IRQHandler d u) s.rx }

/-- `delay_us(us)`: SysTick advances by the whole milliseconds waited and the pending
interrupts of this wait are served. -/
def delay_us (us : Nat) : State → State :=
  live fun s =>
    let s1 := { s with systick_ms := (s.systick_ms + us / 1000) % 2 ^ 32,
                       log := s.log ++ [Act.delay us] }
    match s1.env with
    | [] => s1
    | e :: es => deliver e { s1 with env := es }

/-- `micros()`: `systick_ms * 1000U`. -/
def micros (s : State) : Nat := (s.systick_ms * 1000) % 2 ^ 32

/-- `PWM_SetDutyCycle(channel, duty_cycle)`: threshold on/off emulation on LED1..LED5. -/
def PWM_SetDutyCycle (channel duty_cycle : Nat) (s : State) : State :=
  if 1 ≤ channel ∧ channel ≤ 5 then
    if duty_cycle > 128 then GPIO_SetPin (channel - 1) s else GPIO_ClearPin (channel - 1) s
  else s

/-- `LED_Toggle()` on the debug LED. -/
def LED_Toggle : State → State :=
  live fun s => { s with debug_led := !s.debug_led }

/-- `LED_SetMode(mode)` with `LED_MODE_OFF = 0`, `LED_MODE_ON = 1`, `LED_MODE_BLINK = 2`. -/
def LED_SetMode (mode : Nat) : State → State :=
  live fun s =>
    let s1 := { s with led_mode := mode, last_blink_time := micros s }
    if mode = 0 then { s1 with debug_led := false, led_mode := 0 }
    else if mode = 1 then { s1 with debug_led := true, led_mode := 1 }
    else if mode = 2 then { s1 with debug_led := true, led_mode := 1 }
    else s1

/-! ### i2c_eeprom.c, reduced to the memory cells -/

/-- `eeprom_read_byte(mem_addr, &data)`: `none` is the error return. -/
def eeprom_read_byte (mem_addr : Nat) (s : State) : Option Nat :=
  if s.i2c_ok then some (s.eeprom.getD (mem_addr % 256) 0) else none

/-- `eeprom_write_byte(mem_addr, data)`: the flag tells whether it returned 0. -/
def eeprom_write_byte (mem_addr data : Nat) (s : State) : Bool × State :=
  if s.halted then (false, s)
  else if s.i2c_ok then (true, { s with eeprom := s.eeprom.set (mem_addr % 256) (data % 256) })
  else (false, s)

/-! ### libc helpers used by cli.c -/

/-- `isspace` in the C locale. -/
def isspaceC (c : Nat) : Bool := c = 32 || (9 ≤ c && c ≤ 13)

/-- `isdigit`. -/
def isdigitC (c : Nat) : Bool := 48 ≤ c && c ≤ 57

/-- `isalnum` in the C locale. -/
def isalnumC (c : Nat) : Bool :=
  isdigitC c || (65 ≤ c && c ≤ 90) || (97 ≤ c && c ≤ 122)

/-- Value of the leading decimal digits of a string, continuing from `acc`. -/
def atoiDigits : List Nat → Nat → Nat
  | [], acc => acc
  | c :: cs, acc => if isdigitC c then atoiDigits cs (acc * 10 + (c - 48)) else acc

/-- `atoi`: leading white space, an optional sign, decimal digits. The value is not
reduced to the range of `int`. -/
def atoi (p : List Nat) : Int :=
  match p.dropWhile isspaceC with
  | [] => 0
  | c :: cs =>
    if c = 45 then - (atoiDigits cs 0 : Int)
    else if c = 43 then (atoiDigits cs 0 : Int)
    else (atoiDigits (c :: cs) 0 : Int)

/-! ### cli.c -/

def MARKER_OFF : Nat := 0x36
def MARKER_LEN : Nat := 10
def FIRMWARE_AREA_START : Nat := 0x40
def CALLSIGN_OFFSET : Nat := FIRMWARE_AREA_START
def CALLSIGN_SLOT_LEN : Nat := 14
def CW_SLOT_OFFSET : Nat := CALLSIGN_OFFSET + CALLSIGN_SLOT_LEN
def CW_SLOT_LEN : Nat := 21

/-- The marker text kept at `MARKER_OFF` (the string literal of `cli.c`). -/
def markerText : List Nat := str "[[MARKER]]"

/-- `default_sao[54]`. -/
def default_sao : List Nat :=
  str "LIFE" ++ [9, 5, 32, 0] ++ str "SRAL-SAO2" ++ str "sral2" ++ List.range 32

/-- `for (...) { eeprom_write_byte(base + i, bytes[i]); delay_us(5000); }` with the
result of the write ignored. -/
def writeAll (base : Nat) : List Nat → State → State
  | [], s => s
  | b :: bs, s => writeAll (base + 1) bs (delay_us 5000 (eeprom_write_byte base b s).2)

/-- Slot loop of `EEPROM_InitializeDefaults`: write the string in `arr` and its NUL,
at most `n` more bytes from position `i`, ignoring write errors. -/
def initSlot (base : Nat) (arr : List Nat) : Nat → Nat → State → State
  | 0, _, s => s
  | n + 1, i, s =>
    let b := if i < (cstr arr).length then arr.getD i 0 else 0
    let s1 := delay_us 5000 (eeprom_write_byte (base + i) b s).2
    if b = 0 then s1 else initSlot base arr n (i + 1) s1

/-- `EEPROM_InitializeDefaults()`. -/
def EEPROM_InitializeDefaults (s : State) : State :=
  let s := writeAll 0 default_sao s
  let s := writeAll MARKER_OFF markerText s
  let s := writeAll FIRMWARE_AREA_START (List.replicate 192 0) s
  let s := live (fun s => { s with current_callsign :=
    (strncpy s.current_callsign (str "wheel") CALLSIGN_SLOT_LEN).set (CALLSIGN_SLOT_LEN - 1) 0 }) s
  let s := initSlot CALLSIGN_OFFSET s.current_callsign CALLSIGN_SLOT_LEN 0 s
  let s := live (fun s => { s with current_cw :=
    (strncpy s.current_cw (str "SRAL") CW_SLOT_LEN).set (CW_SLOT_LEN - 1) 0 }) s
  initSlot CW_SLOT_OFFSET s.current_cw CW_SLOT_LEN 0 s

/-- Read `n` consecutive cells; `none` as soon as one read fails. -/
def readBytes (base : Nat) : Nat → State → Option (List Nat)
  | 0, _ => some []
  | n + 1, s =>
    match eeprom_read_byte base s with
    | none => none
    | some b =>
      match readBytes (base + 1) n s with
      | none => none
      | some bs => some (b :: bs)

/-- Slot loop of `CLI_SaveConfig`: as `initSlot`, but a failed write ends the save
(`false` in the result). -/
def saveSlot (base : Nat) (arr : List Nat) : Nat → Nat → State → Bool × State
  | 0, _, s => (true, s)
  | n + 1, i, s =>
    let b := if i < (cstr arr).length then arr.getD i 0 else 0
    let r := eeprom_write_byte (base + i) b s
    if r.1 = false then (false, r.2)
    else
      let s2 := delay_us 5000 r.2
      if b = 0 then (true, s2) else saveSlot base arr n (i + 1) s2

/-- `CLI_SaveConfig()`. -/
def CLI_SaveConfig (s : State) : State :=
  match readBytes MARKER_OFF MARKER_LEN s with
  | none => s
  | some otp =>
    if otp ≠ markerText then s
    else
      let r := saveSlot CALLSIGN_OFFSET s.current_callsign CALLSIGN_SLOT_LEN 0 s
      if r.1 = false then r.2
      else (saveSlot CW_SLOT_OFFSET r.2.current_cw CW_SLOT_LEN 0 r.2).2

/-- `CLI_ValidateCallsign(callsign)`. -/
def CLI_ValidateCallsign (callsign : List Nat) : Bool :=
  if callsign.length = 0 ∨ callsign.length > 12 then false
  else callsign.all (fun c => isalnumC c || c = 45 || c = 47)

/-- `CLI_ValidateCW(msg)`. -/
def CLI_ValidateCW (msg : List Nat) : Bool :=
  if msg.length = 0 ∨ msg.length > CW_SLOT_LEN - 1 then false
  else msg.all (fun c =>
    c = 32 || ((65 ≤ c && c ≤ 90) || (97 ≤ c && c ≤ 122)) || (48 ≤ c && c ≤ 57))

/-- `CLI_StartLedBlink(led_num)`. -/
def CLI_StartLedBlink (led_num : Nat) (s : State) : State :=
  if 1 ≤ led_num ∧ led_num ≤ 5 then
    live (fun s => { s with led_blinking := s.led_blinking.set (led_num - 1) true,
                            led_blink_times := s.led_blink_times.set (led_num - 1) (micros s) }) s
  else s

/-- The `bm <n>` / `blinkmode <n>` / `automode <n>` branch of `CLI_ParseCommand`. -/
def cmdBlinkMode (param : List Nat) (s : State) : State :=
  let mode := atoi param
  if 0 ≤ mode ∧ mode ≤ 6 then
    let s := live (fun s => { s with led_auto_mode := mode.toNat }) s
    let s := PWM_SetDutyCycle 5 0 (PWM_SetDutyCycle 4 0 (PWM_SetDutyCycle 3 0
      (PWM_SetDutyCycle 2 0 (PWM_SetDutyCycle 1 0 s))))
    if s.led_auto_mode = 0 then
      live (fun s => { s with led_blinking := [false, false, false, false, false] }) s
    else s
  else s

/-- One round of the `bled off` loop: `led_blinking[i] = false; PWM_SetDutyCycle(i + 1, 0);` -/
def bledOffOne (i : Nat) (s : State) : State :=
  PWM_SetDutyCycle (i + 1) 0 (live (fun s => { s with led_blinking := s.led_blinking.set i false }) s)

/-- The `bled ...` branch of `CLI_ParseCommand`. -/
def cmdBled (param : List Nat) (s : State) : State :=
  if param = str "off" ∨ param = str "stop" then
    bledOffOne 4 (bledOffOne 3 (bledOffOne 2 (bledOffOne 1 (bledOffOne 0 s))))
  else if 49 ≤ param.getD 0 0 ∧ param.getD 0 0 ≤ 53 ∧ param.getD 1 0 = 0 then
    CLI_StartLedBlink (param.getD 0 0 - 48) s
  else s

/-- The `cw <msg>` branch of `CLI_ParseCommand`. -/
def cmdCw (arg : List Nat) (s : State) : State :=
  let msg := arg.dropWhile (fun c => c = 32)
  if CLI_ValidateCW msg then
    CLI_SaveConfig (live (fun s => { s with current_cw :=
      (strncpy s.current_cw msg CW_SLOT_LEN).set (CW_SLOT_LEN - 1) 0 }) s)
  else s

/-- The `eewrite <addr> <d>` branch of `CLI_ParseCommand`. -/
def cmdEewrite (args : List Nat) (s : State) : State :=
  if 32 ∈ args then
    let addr := ((atoi args) % 65536).toNat
    let data := ((atoi ((args.dropWhile (fun c => c ≠ 32)).drop 1)) % 256).toNat
    let r := eeprom_write_byte addr data s
    if r.1 then delay_us 5000 r.2 else r.2
  else s

/-- `CLI_ParseCommand(cmd)`; `cmd` is the content of the NUL-terminated line. Branches
that only print are the identity. -/
def CLI_ParseCommand (cmd : List Nat) (s : State) : State :=
  if s.awaiting_reset_confirmation then
    live (fun s => { s with awaiting_reset_confirmation := false })
      (if cmd = str "y" ∨ cmd = str "Y" then EEPROM_InitializeDefaults s else s)
  else if cmd = str "help" then s
  else if cmd = str "ver" ∨ cmd = str "version" then s
  else if cmd = str "pwr" then s
  else if cmd = str "reset" then
    { s with awaiting_reset_confirmation := true, suppress_prompt_after_command := true }
  else if cmd = str "reboot" ∨ cmd = str "restart" then NVIC_SystemReset s
  else if cmd.take 8 = str "setcall " ∨ cmd.take 8 = str "setnick " then
    if CLI_ValidateCallsign (cmd.drop 8) then
      CLI_SaveConfig { s with current_callsign := strcpy s.current_callsign (cmd.drop 8) }
    else s
  else if cmd = str "callsign" ∨ cmd = str "whoami" then s
  else if cmd = str "who" then s
  else if cmd = str "dmesg" then s
  else if cmd = str "led on" then LED_SetMode 1 { s with debug_led_blinking := false }
  else if cmd = str "led off" then LED_SetMode 0 { s with debug_led_blinking := false }
  else if cmd = str "led blink" then
    LED_SetMode 1 { s with debug_led_blinking := true, debug_led_blink_time := micros s }
  else if cmd = str "blinkmode" ∨ cmd = str "automode" ∨ cmd = str "bm" then s
  else if cmd.take 10 = str "blinkmode " then cmdBlinkMode (cmd.drop 10) s
  else if cmd.take 3 = str "bm " then cmdBlinkMode (cmd.drop 3) s
  else if cmd.take 9 = str "automode " then cmdBlinkMode (cmd.drop 9) s
  else if cmd.take 5 = str "bled " then cmdBled (cmd.drop 5) s
  else if cmd = str "status" then s
  else if cmd = str "uptime" then s
  else if cmd = str "exit" ∨ cmd = str "logout" then s
  else if cmd = str "ls" ∨ cmd.take 3 = str "ls " then s
  else if cmd = str "hostname" then s
  else if cmd.take 4 = str "cat " then s
  else if cmd = str "cat" then s
  else if cmd.take 3 = str "cw " then cmdCw (cmd.drop 3) s
  else if cmd = str "cw" then s
  else if cmd.take 7 = str "eeread " then s
  else if cmd.take 8 = str "eewrite " then cmdEewrite (cmd.drop 8) s
  else s

/-- The trimming loop of `CLI_ProcessChar`: `e` is the offset of `end` from
`cli_buffer`, plus one. -/
def trimLoop : Nat → List Nat → List Nat
  | 0, buf => buf
  | e + 1, buf =>
    let c := buf.getD e 0
    if c = 32 ∨ c = 9 ∨ c = 13 ∨ c = 10 then trimLoop e (buf.set e 0) else buf

/-- `CLI_ProcessChar(c)`. -/
def CLI_ProcessChar (c : Nat) : State → State :=
  live fun s =>
    let s := { s with log := s.log ++ [Act.feed c] }
    if c = 13 ∨ c = 10 then
      let s := { s with cli_buffer := s.cli_buffer.set s.cli_index 0 }
      let s :=
        if s.cli_index > 0 then
          let s := { s with cli_buffer := trimLoop (cstr s.cli_buffer).length s.cli_buffer }
          CLI_ParseCommand (cstr s.cli_buffer) s
        else s
      live (fun s => { s with cli_index := 0, suppress_prompt_after_command := false }) s
    else if c = 8 ∨ c = 127 then
      if s.cli_index > 0 then { s with cli_index := s.cli_index - 1 } else s
    else if 32 ≤ c ∧ c < 127 then
      if s.cli_index < CLI_BUFFER_SIZE - 1 then
        { s with cli_buffer := s.cli_buffer.set s.cli_index c, cli_index := s.cli_index + 1 }
      else s
    else s

/-! ### main.c -/

/-- The LCG recurrence of `lcg_rand` on a 32-bit state. -/
def lcgNext (x : Nat) : Nat := (x * 1664525 + 1013904223) % 2 ^ 32

/-- `lcg_rand()`; the value returned is the new `lcg_state`. -/
def lcg_rand : State → State :=
  live fun s => { s with lcg_state := lcgNext s.lcg_state }

/-- One poll of the receive queue as written in every wait loop:
`if (UART_ReceiveChar(&c)) CLI_ProcessChar(c);` -/
def pollShell : State → State :=
  live fun s =>
    let s1 := { s with log := s.log ++ [Act.poll] }
    match UART_ReceiveChar s1.rx with
    | (some c, rx') => CLI_ProcessChar c { s1 with rx := rx' }
    | (none, _) => s1

/-- The loop shape shared by all waits of `main`:
`for (t = 0; t < n; ++t) { poll; if (cancel) break; delay_us(q); }` -/
def waitLoop (cancel : State → Bool) (q : Nat) : Nat → State → State
  | 0, s => s
  | n + 1, s =>
    let s1 := pollShell s
    if cancel s1 then s1 else waitLoop cancel q n (delay_us q s1)

/-- `button_interrupt_flag` read as a condition. -/
def btn (s : State) : Bool := decide (s.button_interrupt_flag ≠ 0)

/-- `button_interrupt_flag || led_auto_mode != m`. -/
def btnOrMode (m : Nat) (s : State) : Bool := btn s || decide (s.led_auto_mode ≠ m)

/-- The button block at the head of the main loop. -/
def serviceButton (s : State) : State :=
  if s.button_interrupt_flag ≠ 0 then
    let s := live (fun s => { s with button_interrupt_flag := 0 }) s
    let s := delay_us 50000 s
    let s := live (fun s => { s with button_interrupt_flag := 0 }) s
    let s := live (fun s => { s with led_auto_mode := ((s.led_auto_mode + 1) % 7) % 256 }) s
    let s := live (fun s => if s.led_auto_mode ≥ 7 then { s with led_auto_mode := 0 } else s) s
    if s.led_auto_mode = 0 then clearAllLeds s else s
  else s

/-- `EXTI2_3_IRQHandler` with the falling-edge pending bit set. -/
def EXTI2_3_IRQHandler (s : State) : State := { s with button_interrupt_flag := 1 }

/-- The choice of the LED in BLINK and FADE from the draw `r` and `last_blink_idx`. -/
def pickLed (r : Nat) (last : Int) : Nat :=
  let idx := r % 5
  if (idx : Int) = last then (idx + 1) % 5 else idx

/-- The first five statements of the BLINK and FADE branches: draw, choose the LED,
store it in `last_blink_idx`. Returns the local `idx` with the state. -/
def pickStep (s : State) : Nat × State :=
  let s1 := lcg_rand s
  let idx := pickLed s1.lcg_state s1.last_blink_idx
  (idx, live (fun s => { s with last_blink_idx := (idx : Int) }) s1)

/-- BLINK branch. The flag in the result is `true` when the branch ends in `continue`. -/
def blinkStep (s : State) : State × Bool :=
  let idx := (pickStep s).1
  let s := (pickStep s).2
  let s := GPIO_SetPin idx s
  let s := lcg_rand s
  let on_ms := 10 + s.lcg_state % 71
  let s := waitLoop btn 10000 (on_ms / 10) s
  if btn s then (s, true)
  else
    let s := GPIO_ClearPin idx s
    let s := lcg_rand s
    let gap_ms := 50 + s.lcg_state % 1001
    let s := waitLoop btn 25000 (gap_ms / 25) s
    (s, btn s)

/-- One round of the inner PWM loop of FADE; the flag is `true` on `break`. -/
def fadeCycle (idx on_time_us off_time_us cycle : Nat) (s : State) : State × Bool :=
  let s := GPIO_SetPin idx s
  let s := delay_us on_time_us s
  let s := GPIO_ClearPin idx s
  let s := if off_time_us > 0 then delay_us off_time_us s else s
  if cycle % 3 = 0 then
    let s := pollShell s
    (s, btn s)
  else (s, false)

/-- `for (cycle = c; cycle < c + n; ++cycle)` of FADE. -/
def fadeCycles (idx on_time_us off_time_us : Nat) : Nat → Nat → State → State
  | 0, _, s => s
  | n + 1, c, s =>
    let r := fadeCycle idx on_time_us off_time_us c s
    if r.2 then r.1 else fadeCycles idx on_time_us off_time_us n (c + 1) r.1

/-- `for (fade_step = k; fade_step > 0; --fade_step)` of FADE. -/
def fadeSteps (idx : Nat) : Nat → State → State
  | 0, s => s
  | k + 1, s =>
    let on_time_us := (k + 1) * 50
    let off_time_us := 1000 - on_time_us
    let s := fadeCycles idx on_time_us off_time_us 15 0 s
    if btn s then s else fadeSteps idx k s

/-- FADE branch. -/
def fadeStep (s : State) : State × Bool :=
  let idx := (pickStep s).1
  let s := (pickStep s).2
  let s := GPIO_SetPin idx s
  let s := waitLoop btn 10000 10 s
  if btn s then (GPIO_ClearPin idx s, true)
  else
    let s := fadeSteps idx 20 s
    let s := GPIO_ClearPin idx s
    if btn s then (s, true)
    else
      let s := lcg_rand s
      let gap_ms := 200 + s.lcg_state % 1001
      let s := waitLoop btn 25000 (gap_ms / 25) s
      (s, btn s)

/-- The `switch` of the CW branch: Morse pattern of the upper-cased character,
`none` for `morse = NULL`. -/
def morse (upper : Nat) : Option String :=
  match upper with
  | 65 => some ".-"      -- 'A'
  | 66 => some "-..."    -- 'B'
  | 67 => some "-.-."    -- 'C'
  | 68 => some "-.."     -- 'D'
  | 69 => some "."       -- 'E'
  | 70 => some "..-."    -- 'F'
  | 71 => some "--."     -- 'G'
  | 72 => some "...."    -- 'H'
  | 73 => some ".."      -- 'I'
  | 74 => some ".---"    -- 'J'
  | 75 => some "-.-"     -- 'K'
  | 76 => some ".-.."    -- 'L'
  | 77 => some "--"      -- 'M'
  | 78 => some "-."      -- 'N'
  | 79 => some "---"     -- 'O'
  | 80 => some ".--."    -- 'P'
  | 81 => some "--.-"    -- 'Q'
  | 82 => some ".-."     -- 'R'
  | 83 => some "..."     -- 'S'
  | 84 => some "-"       -- 'T'
  | 85 => some "..-"     -- 'U'
  | 86 => some "...-"    -- 'V'
  | 87 => some ".--"     -- 'W'
  | 88 => some "-..-"    -- 'X'
  | 89 => some "-.--"    -- 'Y'
  | 90 => some "--.."    -- 'Z'
  | 48 => some "-----"   -- '0'
  | 49 => some ".----"   -- '1'
  | 50 => some "..---"   -- '2'
  | 51 => some "...--"   -- '3'
  | 52 => some "....-"   -- '4'
  | 53 => some "....."   -- '5'
  | 54 => some "-...."   -- '6'
  | 55 => some "--..."   -- '7'
  | 56 => some "---.."   -- '8'
  | 57 => some "----."   -- '9'
  | _ => none

/-- `(ch >= 'a' && ch <= 'z') ? (ch - 32) : ch`. -/
def toUpperCw (ch : Nat) : Nat := if 97 ≤ ch ∧ ch ≤ 122 then ch - 32 else ch

/-- The lookup made for a message character: upper-casing followed by the `switch`. -/
def morseOf (ch : Nat) : Option String := morse (toUpperCw ch)

/-- Body of the symbol loop after its first cancellation test: the element (dit for
'.', dash for '-') and the inter-element gap. -/
def cwElement (p : Char) (s : State) : State :=
  let s :=
    if p = '.' then
      let s := GPIO_SetPin 0 (GPIO_SetPin 4 s)
      let s := waitLoop (btnOrMode 3) 25000 (100 / 25) s
      GPIO_ClearPin 0 (GPIO_ClearPin 4 s)
    else if p = '-' then
      let s := GPIO_SetPin 1 (GPIO_SetPin 2 (GPIO_SetPin 3 s))
      let s := waitLoop (btnOrMode 3) 25000 (3 * 100 / 25) s
      GPIO_ClearPin 1 (GPIO_ClearPin 2 (GPIO_ClearPin 3 s))
    else s
  waitLoop (btnOrMode 3) 25000 (100 / 25) s

/-- `for (p = morse; *p != '\0'; ++p)` of the CW branch. -/
def cwSymbols : List Char → State → State
  | [], s => s
  | p :: ps, s =>
    if btnOrMode 3 s then s
    else
      let s := cwElement p s
      if btnOrMode 3 s then s else cwSymbols ps s

/-- Body of the character loop of the CW branch for the character `ch`; the flag is
`true` when the body leaves the loop with `break`. -/
def cwChar (ch : Nat) (s : State) : State × Bool :=
  if ch = 32 then
    let s := waitLoop (btnOrMode 3) 10000 (9 * 100 / 10) s
    (s, btnOrMode 3 s)
  else
    match morseOf ch with
    | none => (s, false)
    | some m =>
      let s := cwSymbols m.toList s
      if btnOrMode 3 s then (s, true)
      else
        let s := waitLoop (btnOrMode 3) 25000 (4 * 100 / 25) s
        (s, btnOrMode 3 s)

/-- `for (ci = ...; current_cw[ci] != '\0'; ++ci)`; the first argument bounds the
number of rounds. -/
def cwChars : Nat → Nat → State → State
  | 0, _, s => s
  | fuel + 1, ci, s =>
    let ch := s.current_cw.getD ci 0
    if ch = 0 then s
    else
      let r := cwChar ch s
      if r.2 then r.1 else cwChars fuel (ci + 1) r.1

/-- CW branch. The character loop ends at the first NUL of `current_cw`, at the latest
at the end of the array, so `length + 1` rounds are enough. -/
def cwStep (s : State) : State × Bool :=
  if s.current_cw.getD 0 0 = 0 then
    (waitLoop btn (100 * 1000 / 10) 10 s, true)
  else
    let s := cwChars (s.current_cw.length + 1) 0 s
    let s := waitLoop (btnOrMode 3) 25000 (9 * 100 / 25) s
    (s, btn s)

/-- `for (i = 0; i < n; i++) { idx = lcg_rand() % 5; led_active[idx] = true; }` -/
def strobePick : Nat → List Bool → State → List Bool × State
  | 0, active, s => (active, s)
  | n + 1, active, s =>
    let s := lcg_rand s
    strobePick n (active.set (s.lcg_state % 5) true) s

/-- `for (i = 0; i < 5; i++) if (led_active[i]) GPIO_SetPin(...)`, from index `i`. -/
def setActive : List Bool → Nat → State → State
  | [], _, s => s
  | a :: as, i, s => setActive as (i + 1) (if a then GPIO_SetPin i s else s)

/-- `for (i = 0; i < 5; i++) if (led_active[i]) GPIO_ClearPin(...)`, from index `i`. -/
def clearActive : List Bool → Nat → State → State
  | [], _, s => s
  | a :: as, i, s => clearActive as (i + 1) (if a then GPIO_ClearPin i s else s)

/-- The flash loop of STROBO, `n` rounds left. -/
def strobeFlashes (active : List Bool) : Nat → State → State
  | 0, s => s
  | n + 1, s =>
    let s := setActive active 0 s
    let s := lcg_rand s
    let on_ms := 30 + s.lcg_state % 41
    let s := waitLoop btn 10000 (on_ms / 10) s
    if btn s then s
    else
      let s := clearActive active 0 s
      let s := lcg_rand s
      let gap_ms := 40 + s.lcg_state % 51
      let s := waitLoop btn 10000 (gap_ms / 10) s
      if btn s then s else strobeFlashes active n s

/-- STROBO branch. -/
def strobeStep (s : State) : State × Bool :=
  let s := lcg_rand s
  let num_leds := 2 + s.lcg_state % 3
  let r := strobePick num_leds [false, false, false, false, false] s
  let s := lcg_rand r.2
  let flashes := 3 + s.lcg_state % 4
  let s := strobeFlashes r.1 flashes s
  if btn s then (s, true)
  else
    let s := lcg_rand s
    let pause_ms := 100 + s.lcg_state % 201
    let s := waitLoop btn 25000 (pause_ms / 25) s
    (s, btn s)

/-- The double-blink loop of ICIRCLE, `n` rounds left. Its `continue` goes to the next
round of this loop. -/
def icircleBlinks (blink_led : Nat) : Nat → State → State
  | 0, s => s
  | n + 1, s =>
    let s := GPIO_SetPin blink_led s
    let s := waitLoop btn 10000 5 s
    let s := GPIO_ClearPin blink_led s
    if btn s then icircleBlinks blink_led n s
    else
      let s := waitLoop btn 10000 3 s
      if btn s then s else icircleBlinks blink_led n s

/-- ICIRCLE branch from "Turn off all LEDs first" to its end, with the delay computed
at the head of the branch. -/
def icircleMove (base_delay : Nat) (s : State) : State × Bool :=
  let s := clearAllLeds s
  let led_idx := if s.circle_forward then s.circle_step else (4 - s.circle_step)
  let s := GPIO_SetPin led_idx s
  let s := waitLoop btn 10000 (base_delay / 10) s
  if btn s then (s, true)
  else
    let s := live (fun s => { s with circle_step := (s.circle_step + 1) % 5 }) s
    if s.circle_step = 0 then
      let s := live (fun s => { s with direction_counter := (s.direction_counter + 1) % 256 }) s
      if s.direction_counter ≥ 10 then
        let s := live (fun s => { s with circle_forward := !s.circle_forward,
                                          direction_counter := 0, speed_step := 0 }) s
        let s := setAllLeds s
        let s := waitLoop btn 10000 8 s
        let s := clearAllLeds s
        let s := waitLoop btn 10000 20 s
        (s, btn s)
      else (s, false)
    else (s, false)

/-- ICIRCLE branch. -/
def icircleStep (s : State) : State × Bool :=
  let base_delay := if s.speed_step < 25 then 100 - ((s.speed_step + 1) % 256) * 3 else 25
  let s := if s.speed_step < 25 then
      live (fun s => { s with speed_step := (s.speed_step + 1) % 256 }) s else s
  let s := lcg_rand s
  let add_blink := decide (s.lcg_state % 8 = 0)
  if add_blink then
    let s := lcg_rand s
    let blink_led := (s.lcg_state % 5) % 256
    let s := icircleBlinks blink_led 2 s
    if btn s then (s, true) else icircleMove base_delay s
  else icircleMove base_delay s

/-- One position of the DISCO chase; the flag is `true` on `break`. -/
def discoChasePos (idx : Nat) (s : State) : State × Bool :=
  let s := clearAllLeds s
  let s := GPIO_SetPin idx s
  let s := waitLoop (btnOrMode 6) 20000 4 s
  (s, btnOrMode 6 s)

/-- `for (s = ...; s < 5; s++)` of the DISCO chase over the listed positions. -/
def discoChaseRun : List Nat → State → State
  | [], s => s
  | idx :: rest, s =>
    let r := discoChasePos idx s
    if r.2 then r.1 else discoChaseRun rest r.1

/-- DISCO sub-pattern 0: forward then backward chase. -/
def discoChase (s : State) : State :=
  if btnOrMode 6 s then s
  else
    let s := discoChaseRun [0, 1, 2, 3, 4] s
    if btnOrMode 6 s then s else discoChaseRun [4, 3, 2, 1, 0] s

/-- `for (i = ...; i < 5; ++i) if ((lcg_rand() & 1) == 0) set else clear`, `n` LEDs left. -/
def discoRandomLeds : Nat → Nat → State → State
  | 0, _, s => s
  | n + 1, i, s =>
    let s := lcg_rand s
    let s := if s.lcg_state % 2 = 0 then GPIO_SetPin i s else GPIO_ClearPin i s
    discoRandomLeds n (i + 1) s

/-- DISCO sub-pattern 1, `n` bursts left. -/
def discoBursts : Nat → State → State
  | 0, s => s
  | n + 1, s =>
    if btnOrMode 6 s then s
    else
      let s := discoRandomLeds 5 0 s
      let s := lcg_rand s
      let on_ms := 30 + s.lcg_state % 121
      let s := waitLoop (btnOrMode 6) 25000 (on_ms / 25) s
      discoBursts n (clearAllLeds s)

/-- DISCO sub-pattern 2, `n` repetitions left. -/
def discoPulse : Nat → State → State
  | 0, s => s
  | n + 1, s =>
    if btnOrMode 6 s then s
    else
      let s := setAllLeds s
      let s := waitLoop (btnOrMode 6) 25000 6 s
      let s := clearAllLeds s
      let s := waitLoop (btnOrMode 6) 25000 3 s
      discoPulse n s

/-- DISCO sub-pattern 3, `n` repetitions left. -/
def discoPairs : Nat → State → State
  | 0, s => s
  | n + 1, s =>
    if btnOrMode 6 s then s
    else
      let s := clearAllLeds s
      let s := GPIO_SetPin 2 (GPIO_SetPin 0 s)
      let s := waitLoop (btnOrMode 6) 20000 3 s
      let s := GPIO_ClearPin 2 (GPIO_ClearPin 0 s)
      let s := GPIO_SetPin 3 (GPIO_SetPin 1 s)
      let s := waitLoop (btnOrMode 6) 20000 3 s
      let s := GPIO_ClearPin 3 (GPIO_ClearPin 1 s)
      let s := GPIO_SetPin 4 s
      let s := waitLoop (btnOrMode 6) 20000 2 s
      let s := GPIO_ClearPin 4 s
      discoPairs n s

/-- DISCO branch. -/
def discoStep (s : State) : State × Bool :=
  let s := lcg_rand s
  let ptype := s.lcg_state % 4
  let s :=
    if ptype = 0 then discoChase s
    else if ptype = 1 then
      let s := lcg_rand s
      discoBursts (2 + s.lcg_state % 4) s
    else if ptype = 2 then discoPulse 3 s
    else discoPairs 6 s
  (s, btn s)

/-- OFF branch (the final `else`). -/
def offStep (s : State) : State × Bool :=
  (delay_us 50000 (pollShell s), false)

/-- `current_time - t >= 500000` in 32-bit unsigned arithmetic. -/
def blinkDue (current_time t : Nat) : Bool :=
  decide ((current_time + 2 ^ 32 - t % 2 ^ 32) % 2 ^ 32 ≥ 500000)

/-- One round of the manual-blink loop at the end of the main loop. -/
def manualBlinkOne (current_time i : Nat) (s : State) : State :=
  if s.led_blinking.getD i false && blinkDue current_time (s.led_blink_times.getD i 0) then
    live (fun s => { s with led_blink_times := s.led_blink_times.set i current_time })
      (GPIO_TogglePin i s)
  else s

/-- The two services at the end of the main loop: manual per-LED blinking and the
debug LED. -/
def secondaryService (s : State) : State :=
  let current_time := micros s
  let s := manualBlinkOne current_time 4 (manualBlinkOne current_time 3
    (manualBlinkOne current_time 2 (manualBlinkOne current_time 1
      (manualBlinkOne current_time 0 s))))
  if s.debug_led_blinking && blinkDue current_time s.debug_led_blink_time then
    live (fun s => { s with debug_led_blink_time := current_time }) (LED_Toggle s)
  else s

/-- The `if / else if` chain on `led_auto_mode`. -/
def modeStep (s : State) : State × Bool :=
  if s.led_auto_mode = 1 then blinkStep s
  else if s.led_auto_mode = 2 then fadeStep s
  else if s.led_auto_mode = 3 then cwStep s
  else if s.led_auto_mode = 4 then strobeStep s
  else if s.led_auto_mode = 5 then icircleStep s
  else if s.led_auto_mode = 6 then discoStep s
  else offStep s

/-- One pass through the body of `while (1)` in `main`. -/
def mainIteration (s : State) : State :=
  let s := serviceButton s
  let r := modeStep s
  if r.2 then r.1 else secondaryService r.1

/-- A button press followed by the pass of the main loop that services it: the EXTI
handler sets the flag, the button block consumes it. -/
def buttonEvent (s : State) : State := serviceButton (EXTI2_3_IRQHandler s)

/-! ### Auxiliary definitions used to state the properties -/

/-- The LEDs chosen by consecutive picks whose draws are `rs`, the pick before the
first of them being `last`. -/
def pickSeq (last : Int) : List Nat → List Nat
  | [] => []
  | r :: rs => pickLed r last :: pickSeq (pickLed r last) rs

/-- Logged calls that can switch an LED on. -/
def isLight : Act → Bool
  | .setPin _ => true
  | .togglePin _ => true
  | _ => false

/-- `s'` comes after `s` in a run in which no call switched an LED on, no LED that was
off is on, and neither the generator state nor the remembered pick changed. -/
def Dark (s s' : State) : Prop :=
  (∃ l, s'.log = s.log ++ l ∧ ∀ a ∈ l, isLight a = false) ∧
  (∀ i, s'.leds.getD i false = true → s.leds.getD i false = true) ∧
  s'.lcg_state = s.lcg_state ∧ s'.last_blink_idx = s.last_blink_idx

/-- `s'` comes after `s` in a run that left the remembered pick `last_blink_idx` alone:
the log of `s'` extends the log of `s`. -/
def Keeps (s s' : State) : Prop :=
  (∃ l, s'.log = s.log ++ l) ∧ s'.last_blink_idx = s.last_blink_idx

/-- Example state: CW mode with an empty message, while a byte and a carriage return
arrive and the button is pressed during the first sleep. -/
def cwIdleExample : State :=
  { State.init [] true [⟨true, [66, 13]⟩] with
    led_auto_mode := 3, current_cw := List.replicate 21 0 }

/-- Effect of a logged call on the five LED outputs. -/
def applyAct (leds : List Bool) : Act → List Bool
  | .setPin i => leds.set i true
  | .clearPin i => leds.set i false
  | .togglePin i => leds.set i (!(leds.getD i false))
  | _ => leds

/-- LED outputs after a sequence of logged calls. -/
def ledsAfter (leds : List Bool) (acts : List Act) : List Bool := acts.foldl applyAct leds

/-- The state without the LED outputs, the clock, the coming events and the log. -/
def frame (s : State) : State :=
  { s with leds := [], systick_ms := 0, env := [], log := [] }

/-- The event of a wait during which nothing happens. -/
def quietIrq : Irq := { button := false, bytes := [] }

/-- The core runs, no button press is pending, the receive queue is empty, and nothing
happens during the coming waits. -/
def Quiet (s : State) : Prop :=
  s.halted = false ∧ s.button_interrupt_flag = 0 ∧
  s.rx.uart_rx_head = s.rx.uart_rx_tail ∧ ∀ e ∈ s.env, e = quietIrq

/-- `s'` is reached from the quiet state `s` by a run that stayed quiet, logged exactly
`acts`, and changed nothing but the LED outputs (as `acts` says), the clock, the
pending events and the log. -/
def Runs (s s' : State) (acts : List Act) : Prop :=
  Quiet s' ∧ s'.log = s.log ++ acts ∧ s'.leds = ledsAfter s.leds acts ∧ frame s' = frame s

/-- What a wait loop of `n` rounds with quantum `q` logs when it is not cancelled. -/
def waitActs (q : Nat) : Nat → List Act
  | 0 => []
  | n + 1 => Act.poll :: Act.delay q :: waitActs q n

/-- Number of polls of the receive queue in a list of logged calls. -/
def pollCount (l : List Act) : Nat := l.count Act.poll

/-- Example state: start-up state (BLINK mode), the button being pressed during the
first sleep that follows. -/
def blinkCancelExample : State := State.init [] true [{ button := true, bytes := [] }]

/-- Example state: DISCO mode with a button press pending, LED1 flagged for manual
blinking (as after `bled 1`) one second ago. -/
def offSwitchExample : State :=
  { State.init [] true [] with
    led_auto_mode := 6, button_interrupt_flag := 1,
    led_blinking := [true, false, false, false, false], systick_ms := 1000 }

/-- Output trace of a list of logged calls started with the LED outputs `leds`: for
each `delay_us`, the LED outputs during it and its length in microseconds. -/
def ledTrace (leds : List Bool) : List Act → List (List Bool × Nat)
  | [] => []
  | Act.delay us :: rest => (leds, us) :: ledTrace leds rest
  | a :: rest => ledTrace (applyAct leds a) rest

/-- An output trace read millisecond by millisecond. -/
def timeline : List (List Bool × Nat) → List (List Bool)
  | [] => []
  | (leds, us) :: rest => List.replicate (us / 1000) leds ++ timeline rest

/-- What the symbol loop of the CW branch logs for one Morse symbol when it is not
cancelled. -/
def elementActs (p : Char) : List Act :=
  (if p = '.' then
      [Act.setPin 4, Act.setPin 0] ++ waitActs 25000 4 ++ [Act.clearPin 4, Act.clearPin 0]
    else if p = '-' then
      [Act.setPin 3, Act.setPin 2, Act.setPin 1] ++ waitActs 25000 12
        ++ [Act.clearPin 3, Act.clearPin 2, Act.clearPin 1]
    else []) ++ waitActs 25000 4

/-- What the symbol loop logs for a list of symbols. -/
def symbolsActs : List Char → List Act
  | [] => []
  | p :: ps => elementActs p ++ symbolsActs ps

/-- What the character loop of the CW branch logs for one character. -/
def charActs (ch : Nat) : List Act :=
  if ch = 32 then waitActs 10000 90
  else
    match morseOf ch with
    | none => []
    | some m => symbolsActs m.toList ++ waitActs 25000 16

/-- What the character loop logs for a message. -/
def messageActs : List Nat → List Act
  | [] => []
  | ch :: rest => charActs ch ++ messageActs rest

/-- What an uncancelled pass of the CW branch logs for a non-empty message. -/
def passActs (msg : List Nat) : List Act := messageActs msg ++ waitActs 25000 36

/-- `on_time_us` of the fade step `fade_step`: `fade_step * 50`. -/
def fadeOnTime (fade_step : Nat) : Nat := fade_step * 50

/-- `off_time_us` of the fade step `fade_step`: `1000 - on_time_us`. -/
def fadeOffTime (fade_step : Nat) : Nat := 1000 - fadeOnTime fade_step

/-- Duty of a fade step in percent: on-time over carrier period (on-time + off-time). -/
def fadeDuty (fade_step : Nat) : Nat :=
  fadeOnTime fade_step * 100 / (fadeOnTime fade_step + fadeOffTime fade_step)

/-- What one round of the PWM loop of FADE logs when it is not cancelled. -/
def fadeCycleActs (idx on_time_us off_time_us cycle : Nat) : List Act :=
  [Act.setPin idx, Act.delay on_time_us, Act.clearPin idx]
    ++ (if off_time_us > 0 then [Act.delay off_time_us] else [])
    ++ (if cycle % 3 = 0 then [Act.poll] else [])

/-- What `n` rounds of the PWM loop log, from round number `c`. -/
def fadeCyclesActs (idx on_time_us off_time_us : Nat) : Nat → Nat → List Act
  | 0, _ => []
  | n + 1, c =>
    fadeCycleActs idx on_time_us off_time_us c
      ++ fadeCyclesActs idx on_time_us off_time_us n (c + 1)

/-- What the fade loop logs from `fade_step = k` down to 1 when it is not cancelled:
15 PWM rounds per fade step. -/
def fadeStepsActs (idx : Nat) : Nat → List Act
  | 0 => []
  | k + 1 =>
    fadeCyclesActs idx (fadeOnTime (k + 1)) (fadeOffTime (k + 1)) 15 0 ++ fadeStepsActs idx k

/-- What one position of the DISCO chase logs when it is not cancelled. -/
def chasePosActs (idx : Nat) : List Act :=
  [Act.clearPin 0, Act.clearPin 1, Act.clearPin 2, Act.clearPin 3, Act.clearPin 4,
   Act.setPin idx] ++ waitActs 20000 4

/-- What the DISCO chase logs over a list of positions. -/
def chaseRunActs : List Nat → List Act
  | [] => []
  | idx :: rest => chasePosActs idx ++ chaseRunActs rest

/-- What the whole DISCO chase logs when it is not cancelled. -/
def chaseActs : List Act := chaseRunActs [0, 1, 2, 3, 4] ++ chaseRunActs [4, 3, 2, 1, 0]

/-! ### Reference definitions that follow the specification's words -/

/-- Reference table: International Morse code of the letters A to Z, in alphabetical
order. -/
def intlMorseLetters : List String :=
  [".-", "-...", "-.-.", "-..", ".", "..-.", "--.", "....", "..", ".---", "-.-", ".-..",
   "--", "-.", "---", ".--.", "--.-", ".-.", "...", "-", "..-", "...-", ".--", "-..-",
   "-.--", "--.."]

/-- Reference rule: International Morse code of the digit `d`: for `d ≤ 5`, `d` dots
followed by dashes, otherwise `d - 5` dashes followed by dots, five elements in all. -/
def intlMorseDigit (d : Nat) : String :=
  if d ≤ 5 then String.mk (List.replicate d '.' ++ List.replicate (5 - d) '-')
  else String.mk (List.replicate (d - 5) '-' ++ List.replicate (10 - d) '.')

/-- Reference lookup: the International Morse code of a digit or of a letter of either
case, nothing for any other character. -/
def intlMorse (c : Nat) : Option String :=
  if 48 ≤ c ∧ c ≤ 57 then some (intlMorseDigit (c - 48))
  else if 65 ≤ c ∧ c ≤ 90 then intlMorseLetters[c - 65]?
  else if 97 ≤ c ∧ c ≤ 122 then intlMorseLetters[c - 97]?
  else none

/-- The characters the CW lookup knows: digits and letters of either case. -/
def isMorseChar (c : Nat) : Bool :=
  (48 ≤ c && c ≤ 57) || (65 ≤ c && c ≤ 90) || (97 ≤ c && c ≤ 122)

/-- All five LEDs off. -/
def allOff : List Bool := [false, false, false, false, false]

/-- Reference: the LEDs of a dit, LED1 and LED5 (indices 0 and 4). -/
def ditLeds : List Bool := [true, false, false, false, true]

/-- Reference: the LEDs of a dash, LED2, LED3 and LED4 (indices 1, 2, 3). -/
def dashLeds : List Bool := [false, true, true, true, false]

/-- Reference: one Morse element as (LED outputs, units): a dit is on for 1 unit, a
dash for 3 units, each followed by 1 unit all off. -/
def refElement (p : Char) : List (List Bool × Nat) :=
  [if p = '.' then (ditLeds, 1) else (dashLeds, 3), (allOff, 1)]

/-- Reference: the elements of a code, one after the other. -/
def refElements : List Char → List (List Bool × Nat)
  | [] => []
  | p :: ps => refElement p ++ refElements ps

/-- Reference: one message character. A space is a 9-unit gap; a letter or digit is
its International Morse code followed by 4 further units all off; any other character
contributes nothing. -/
def refChar (ch : Nat) : List (List Bool × Nat) :=
  if ch = 32 then [(allOff, 9)]
  else
    match intlMorse ch with
    | none => []
    | some m => refElements m.toList ++ [(allOff, 4)]

/-- Reference: the characters of a message, one after the other. -/
def refMessage : List Nat → List (List Bool × Nat)
  | [] => []
  | ch :: rest => refChar ch ++ refMessage rest

/-- Reference: one pass over the message, closed by a 9-unit gap. -/
def refPass (msg : List Nat) : List (List Bool × Nat) := refMessage msg ++ [(allOff, 9)]

/-- A reference sequence read millisecond by millisecond, the unit being 100 ms. -/
def refTimeline : List (List Bool × Nat) → List (List Bool)
  | [] => []
  | (leds, units) :: rest => List.replicate (units * 100) leds ++ refTimeline rest

/-- Example state: CW mode with the message "SOS", nothing pending or arriving. -/
def sosExample : State :=
  { State.init [] true [] with
    led_auto_mode := 3, current_cw := strncpy (List.replicate 21 0) (str "SOS") 21 }

/-- Reference: the pass for "SOS" written out: dit dit dit, dash dash dash, dit dit
dit, each element followed by 1 unit off, each character by 4 more, and the closing
9-unit gap. -/
def sosReference : List (List Bool × Nat) :=
  [(ditLeds, 1), (allOff, 1), (ditLeds, 1), (allOff, 1), (ditLeds, 1), (allOff, 1), (allOff, 4),
   (dashLeds, 3), (allOff, 1), (dashLeds, 3), (allOff, 1), (dashLeds, 3), (allOff, 1), (allOff, 4),
   (ditLeds, 1), (allOff, 1), (ditLeds, 1), (allOff, 1), (ditLeds, 1), (allOff, 1), (allOff, 4),
   (allOff, 9)]

/-- Example state: as `sosExample`, with the message "S#OS". -/
def sosHashExample : State :=
  { State.init [] true [] with
    led_auto_mode := 3, current_cw := strncpy (List.replicate 21 0) (str "S#OS") 21 }

/-- Reference: LED outputs with exactly the LED `idx` on. -/
def oneHot (idx : Nat) : List Bool := allOff.set idx true

/-- Reference: the order of the chase, forward then backward. -/
def chaseOrder : List Nat := [0, 1, 2, 3, 4, 4, 3, 2, 1, 0]

/-- Reference: a chase that holds each position of `chaseOrder` for `ms` milliseconds
with exactly that LED on, read millisecond by millisecond. -/
def chaseTimeline (ms : Nat) : List Nat → List (List Bool)
  | [] => []
  | idx :: rest => List.replicate ms (oneHot idx) ++ chaseTimeline ms rest

/-- Example state: DISCO mode, generator state whose next draw selects the chase,
nothing pending or arriving. -/
def discoExample : State :=
  { State.init [] true [] with led_auto_mode := 6, lcg_state := 1 }

/-- The mode branch of ICIRCLE run `n` times in succession. -/
def icircleRun : Nat → State → State
  | 0, s => s
  | n + 1, s => (icircleStep (icircleRun n s)).1

/-- The value of `base_delay` (ms) that the ICIRCLE branch computes at its head from the
value of `speed_step` on entry. -/
def icircleBaseDelay (speed_step : Nat) : Nat :=
  if speed_step < 25 then 100 - ((speed_step + 1) % 256) * 3 else 25

/-- What `for (i = 0; i < 5; i++) GPIO_ClearPin(..)` logs. -/
def clearAllActs : List Act :=
  [Act.clearPin 0, Act.clearPin 1, Act.clearPin 2, Act.clearPin 3, Act.clearPin 4]

/-- What `for (i = 0; i < 5; i++) GPIO_SetPin(..)` logs. -/
def setAllActs : List Act :=
  [Act.setPin 0, Act.setPin 1, Act.setPin 2, Act.setPin 3, Act.setPin 4]

/-- What `n` rounds of the ICIRCLE double blink log when nothing cancels them. -/
def icircleBlinksActs (blink_led : Nat) : Nat → List Act
  | 0 => []
  | n + 1 => [Act.setPin blink_led] ++ waitActs 10000 5 ++ [Act.clearPin blink_led]
      ++ waitActs 10000 3 ++ icircleBlinksActs blink_led n

/-- What the optional double blink at the head of an ICIRCLE pass logs, from the value
of `lcg_state` on entry. -/
def icircleBlinkPart (lcg : Nat) : List Act :=
  if lcgNext lcg % 8 = 0 then icircleBlinksActs ((lcgNext (lcgNext lcg) % 5) % 256) 2 else []

/-- What the lit part of an ICIRCLE pass logs: all LEDs cleared, LED `idx` set, and the
wait of `base_delay / 10` quanta of 10 ms. -/
def icircleLitActs (idx base_delay : Nat) : List Act :=
  clearAllActs ++ [Act.setPin idx] ++ waitActs 10000 (base_delay / 10)

/-- What the flash at a change of direction logs. -/
def icircleFlashActs : List Act :=
  setAllActs ++ waitActs 10000 8 ++ clearAllActs ++ waitActs 10000 20

/-- Total of the sleeps (microseconds) in a list of logged calls. -/
def delayTotal : List Act → Nat
  | [] => 0
  | Act.delay us :: l => us + delayTotal l
  | _ :: l => delayTotal l

/-- ICIRCLE selected on the start-up state, nothing arriving. -/
def icircleExample : State :=
  { State.init [] true [] with led_auto_mode := 5 }

/-- The bounds the firmware relies on: the mode indexes the 7-entry name table, the CW
buffer has its 21 bytes with a NUL in the last one, the line index is inside the 80-byte
line buffer. -/
def Safe (s : State) : Prop :=
  s.led_auto_mode ≤ 6 ∧ s.current_cw.length = 21 ∧ s.current_cw.getD 20 0 = 0 ∧
  s.cli_index ≤ 79 ∧ s.cli_buffer.length = 80

/-- `s'` comes after `s` in a run whose sleeps are each at most `b` microseconds: the
log of `s'` extends the log of `s` by calls among which every `delay_us` has an argument
of at most `b`. With `kc` the run left the statics of the ICIRCLE branch alone, with `kl`
it left the remembered pick `last_blink_idx` alone. A CW message that `CLI_ValidateCW`
accepts before the run is one that it accepts after the run, and the bounds `Safe` that
hold before the run hold after it. -/
def Tame (b : Nat) (kc kl : Bool) (s s' : State) : Prop :=
  (∃ l, s'.log = s.log ++ l ∧ ∀ us, Act.delay us ∈ l → us ≤ b) ∧
  (kc = true → s'.circle_step = s.circle_step ∧ s'.circle_forward = s.circle_forward ∧
    s'.direction_counter = s.direction_counter ∧ s'.speed_step = s.speed_step) ∧
  (kl = true → s'.last_blink_idx = s.last_blink_idx) ∧
  (CLI_ValidateCW (cstr s.current_cw) = true → CLI_ValidateCW (cstr s'.current_cw) = true) ∧
  (Safe s → Safe s')

/-- Slot loop of `CLI_LoadConfig`: copy the cells of the slot into `arr` up to and
including the first NUL, at most `n` more bytes from position `i`; `false` in the result
is the `return` on a read error. -/
def loadSlot (base : Nat) : Nat → Nat → List Nat → State → List Nat × Bool
  | 0, _, arr, _ => (arr, true)
  | n + 1, i, arr, s =>
    match eeprom_read_byte (base + i) s with
    | none => (arr, false)
    | some b =>
      let arr := arr.set i b
      if b = 0 then (arr, true) else loadSlot base n (i + 1) arr s

/-- The word `magic` that `CLI_LoadConfig` assembles from the first four cells,
least significant byte first. -/
def magicOf (bytes : List Nat) : Nat :=
  (List.range 4).foldl (fun m i => m ||| (bytes.getD i 0 <<< (i * 8))) 0

/-- `SAO_MAGIC_LIFE`. -/
def SAO_MAGIC_LIFE : Nat := 0x4546494C

/-- `CLI_LoadConfig()`: nothing is loaded on a read error of the magic; defaults are
written when the magic or the marker is missing; then both slots are read as stored. -/
def CLI_LoadConfig (s : State) : State :=
  match readBytes 0 4 s with
  | none => s
  | some bytes =>
    let life_ok := decide (magicOf bytes = SAO_MAGIC_LIFE)
    let otp_ok := decide (readBytes MARKER_OFF MARKER_LEN s = some markerText)
    let s := if !life_ok || !otp_ok then EEPROM_InitializeDefaults s else s
    let r := loadSlot CALLSIGN_OFFSET CALLSIGN_SLOT_LEN 0 s.current_callsign s
    let s := live (fun s => { s with current_callsign := r.1 }) s
    if r.2 = false then s
    else
      let s := live (fun s => { s with current_callsign :=
        (s.current_callsign.set (CALLSIGN_SLOT_LEN - 1) 0) }) s
      let r := loadSlot CW_SLOT_OFFSET CW_SLOT_LEN 0 s.current_cw s
      let s := live (fun s => { s with current_cw := r.1 }) s
      if r.2 = false then s
      else live (fun s => { s with current_cw := s.current_cw.set (CW_SLOT_LEN - 1) 0 }) s

/-- An EEPROM image with the magic and the marker in place and both slots blank. -/
def eepromBlankCw : List Nat :=
  str "LIFE" ++ List.replicate 50 0 ++ markerText ++ List.replicate 192 0

/-- An EEPROM image with the magic and the marker in place, a blank callsign slot and
the bytes `#1` in the CW slot. -/
def eepromHashCw : List Nat :=
  str "LIFE" ++ List.replicate 50 0 ++ markerText ++ List.replicate 14 0 ++ str "#1"
    ++ List.replicate 176 0

/-- Reference: a message of 1 to 20 characters, each a letter, a digit or a space. -/
def cwWellFormed (msg : List Nat) : Prop :=
  1 ≤ msg.length ∧ msg.length ≤ 20 ∧
  ∀ c ∈ msg, (65 ≤ c ∧ c ≤ 90) ∨ (97 ≤ c ∧ c ≤ 122) ∨ (48 ≤ c ∧ c ≤ 57) ∨ c = 32

/-- The bytes received when `cw AB` and a carriage return are typed. -/
def cwCommandExample : List Nat := str "cw AB" ++ [13]

/-- `s'` is reached from the quiet state `s` by a run that stayed quiet, logged exactly
`acts` (the LED outputs follow them), left the mode alone and drew exactly `k` numbers
from the generator. -/
def Draws (s s' : State) (acts : List Act) (k : Nat) : Prop :=
  Quiet s' ∧ s'.log = s.log ++ acts ∧ s'.leds = ledsAfter s.leds acts ∧
  s'.led_auto_mode = s.led_auto_mode ∧ s'.lcg_state = lcgNext^[k] s.lcg_state

/-- What the random set/clear loop of the DISCO bursts logs for `n` LEDs from index `i`,
from the value `x` of `lcg_state` on entry. -/
def randomLedsActs : Nat → Nat → Nat → List Act
  | 0, _, _ => []
  | n + 1, i, x =>
    (if lcgNext x % 2 = 0 then Act.setPin i else Act.clearPin i)
      :: randomLedsActs n (i + 1) (lcgNext x)

/-- What `n` uncancelled DISCO bursts log, from the value `x` of `lcg_state` on entry. -/
def burstsActs : Nat → Nat → List Act
  | 0, _ => []
  | n + 1, x =>
    randomLedsActs 5 0 x ++ waitActs 25000 ((30 + lcgNext^[6] x % 121) / 25) ++ clearAllActs
      ++ burstsActs n (lcgNext^[6] x)

/-- What `n` uncancelled repetitions of the DISCO pulse log. -/
def pulseActs : Nat → List Act
  | 0 => []
  | n + 1 => setAllActs ++ waitActs 25000 6 ++ clearAllActs ++ waitActs 25000 3 ++ pulseActs n

/-- What `n` uncancelled repetitions of the DISCO alternating pairs log. -/
def pairsActs : Nat → List Act
  | 0 => []
  | n + 1 =>
    clearAllActs ++ [Act.setPin 0, Act.setPin 2] ++ waitActs 20000 3
      ++ [Act.clearPin 0, Act.clearPin 2, Act.setPin 1, Act.setPin 3] ++ waitActs 20000 3
      ++ [Act.clearPin 1, Act.clearPin 3, Act.setPin 4] ++ waitActs 20000 2
      ++ [Act.clearPin 4] ++ pairsActs n

/-- What an uncancelled DISCO pass logs, from the value `x` of `lcg_state` on entry. -/
def discoStepActs (x : Nat) : List Act :=
  if lcgNext x % 4 = 0 then chaseActs
  else if lcgNext x % 4 = 1 then
    burstsActs (2 + lcgNext (lcgNext x) % 4) (lcgNext (lcgNext x))
  else if lcgNext x % 4 = 2 then pulseActs 3
  else pairsActs 6

/-- Number of draws of an uncancelled DISCO pass, from the value `x` of `lcg_state` on
entry. -/
def discoStepDraws (x : Nat) : Nat :=
  if lcgNext x % 4 = 1 then 2 + 6 * (2 + lcgNext (lcgNext x) % 4) else 1

/-- The logged calls of one burst in which LED2 and LED4 (indices 1 and 3) are switched
on and the others off, with a wait of `w` quanta of 25 ms. -/
def burstActs (w : Nat) : List Act :=
  [Act.clearPin 0, Act.setPin 1, Act.clearPin 2, Act.setPin 3, Act.clearPin 4]
    ++ waitActs 25000 w ++ clearAllActs

/-- The mode branch of DISCO run `n` times in succession. -/
def discoRun : Nat → State → State
  | 0, s => s
  | n + 1, s => (discoStep (discoRun n s)).1

/-- DISCO selected on the start-up state with a generator state whose next draw selects
the bursts, nothing arriving. -/
def burstExample : State :=
  { State.init [] true [] with led_auto_mode := 6, lcg_state := 2 }

/-- Residue mod 8 of `lcg_state` after an uncancelled ICIRCLE pass, from the residue `r`
before it: one draw, and a second one when the first is 0 mod 8. -/
def icircleResidue (r : Nat) : Nat :=
  if (5 * r + 7) % 8 = 0 then (5 * ((5 * r + 7) % 8) + 7) % 8 else (5 * r + 7) % 8

/-- `CLI_Init()`: `cli_index = 0; memset(cli_buffer, 0, sizeof(cli_buffer)); CLI_LoadConfig();` -/
def CLI_Init (s : State) : State :=
  CLI_LoadConfig { s with cli_index := 0, cli_buffer := List.replicate CLI_BUFFER_SIZE 0 }

/-- What the running firmware meets between two observations: a button press that the
main loop services, a character fed to the shell, or one pass of the main loop (with the
interrupts and the shell input that the pass itself takes from `env`). -/
inductive Stim where
  | press
  | key (c : Nat)
  | pass
  deriving DecidableEq, Repr

/-- The state after one stimulus. -/
def react (s : State) : Stim → State
  | .press => buttonEvent s
  | .key c => CLI_ProcessChar c s
  | .pass => mainIteration s

/-- Indices of `current_cw` that the character loop of the CW branch reads, in order. -/
def cwReads : Nat → Nat → State → List Nat
  | 0, _, _ => []
  | fuel + 1, ci, s =>
    let ch := s.current_cw.getD ci 0
    ci :: (if ch = 0 then []
      else
        let r := cwChar ch s
        if r.2 then [] else cwReads fuel (ci + 1) r.1)

/-- Offsets that the trimming loop of `CLI_ProcessChar` writes, in order. -/
def trimWrites : Nat → List Nat → List Nat
  | 0, _ => []
  | e + 1, buf =>
    let c := buf.getD e 0
    if c = 32 ∨ c = 9 ∨ c = 13 ∨ c = 10 then e :: trimWrites e (buf.set e 0) else []

/-- Offsets into `cli_buffer` that `CLI_ProcessChar(c)` writes, in order: the terminating
NUL and the trimmed bytes at the end of a line, or the stored character. -/
def lineWrites (c : Nat) (s : State) : List Nat :=
  if s.halted then []
  else if c = 13 ∨ c = 10 then
    s.cli_index :: (if s.cli_index > 0 then
      trimWrites (cstr (s.cli_buffer.set s.cli_index 0)).length (s.cli_buffer.set s.cli_index 0)
      else [])
  else if c = 8 ∨ c = 127 then []
  else if 32 ≤ c ∧ c < 127 then (if s.cli_index < CLI_BUFFER_SIZE - 1 then [s.cli_index] else [])
  else []

/-- CW selected with the 20-character message `AAAAAAAAAAAAAAAAAAAA`, while the line
`cw B` and a carriage return arrive during the first wait. -/
def cwReplaceExample : State :=
  { State.init [] true [{ button := false, bytes := str "cw B" ++ [13] }] with
    led_auto_mode := 3,
    current_cw := List.replicate 20 65 ++ [0] }

/-- The table `led_blink_mode_names[7]` of led.c. -/
def led_blink_mode_names : List String :=
  ["OFF", "BLINK", "FADE", "CW", "STROBO", "ICIRCLE", "DISCO"]

/-- Example input: two button events, the line `bm 6`, and a main-loop iteration. -/
def modeStims : List Stim :=
  [Stim.press, Stim.press] ++ (str "bm 6" ++ [13]).map Stim.key ++ [Stim.pass]

/-- Example state: a board whose EEPROM holds the magic and the marker, with the
callsign `OH2ABC` and the CW message `CQ TEST` in RAM. -/
def saveExample : State :=
  { State.init eepromBlankCw true [] with
    current_callsign := strncpy (List.replicate 14 0) (str "OH2ABC") 14,
    current_cw := strncpy (List.replicate 21 0) (str "CQ TEST") 21 }

/-- Example state: CW mode with an empty message, all LEDs off, nothing pending or
arriving. -/
def cwEmptyExample : State :=
  { State.init [] true [] with led_auto_mode := 3, current_cw := List.replicate 21 0 }

/-- Example state: as `sosExample`, with LED4 (index 3) lit when the pass starts. -/
def sosLitExample : State :=
  { State.init [] true [] with
    led_auto_mode := 3, current_cw := strncpy (List.replicate 21 0) (str "SOS") 21,
    leds := [false, false, false, true, false] }

/-- Example state: as `sosExample`, with the one-character message "#". -/
def cwHashExample : State :=
  { State.init [] true [] with
    led_auto_mode := 3, current_cw := strncpy (List.replicate 21 0) (str "#") 21 }

/-- A sleep during which the button is pressed. -/
def pressIrq : Irq := { button := true, bytes := [] }

/-- Example state: ICIRCLE selected on the start-up state, the button being pressed
during every sleep that follows. -/
def icirclePressExample : State :=
  { State.init [] true (List.replicate 40 pressIrq) with led_auto_mode := 5 }

/-- Example state: start-up state (BLINK mode), the button being pressed during every
sleep that follows. -/
def blinkPressExample : State := State.init [] true (List.replicate 40 pressIrq)

/-- The modes whose branch runs in the next `n` passes of the main loop: the value of
`led_auto_mode` after the button block of each pass. -/
def branchModes : Nat → State → List Nat
  | 0, _ => []
  | n + 1, s => (serviceButton s).led_auto_mode :: branchModes n (mainIteration s)

/-- What the reset vector and `main` up to `CLI_Init()` make of the board that a reset
run left behind: the globals take their start-up values, the EEPROM keeps its content,
and `CLI_Init` loads the configuration from it. -/
def restart (s : State) : State := CLI_Init (State.init s.eeprom s.i2c_ok s.env)

/-- An EEPROM image with the magic and the marker in place, `wheel` in the callsign slot
and `SRAL` in the CW slot (cells 78..81). -/
def eepromSralCw : List Nat :=
  str "LIFE" ++ List.replicate 50 0 ++ markerText ++ str "wheel" ++ List.replicate 9 0
    ++ str "SRAL" ++ List.replicate 174 0

/-- The bytes received when the lines `eewrite 78 35` and `reboot` are typed. -/
def rebootLines : List Nat := str "eewrite 78 35" ++ [13] ++ str "reboot" ++ [13]

/-! ## Part II: lemmas and theorems -/

theorem RxInv_init : RxInv UartRx.init [] := by
  simp [RxInv, UartRx.init]

theorem RxInv_irq_store {u : UartRx} {pend : List Nat} (d : Nat) (h : RxInv u pend)
    (hs : irqStores u = true) : RxInv (UART_IRQHandler d u) (pend ++ [d % 256]) := by
  obtain ⟨hl, hh, ht, hp, hhd, hb⟩ := h
  simp only [irqStores, UART_RX_BUFFER_SIZE, decide_eq_true_eq] at hs
  have hp' : pend.length + 1 < 128 := by omega
  simp only [UART_IRQHandler, UART_RX_BUFFER_SIZE, ne_eq, hs, not_false_eq_true, if_true]
  refine ⟨by simp [hl], Nat.mod_lt _ (by norm_num), ht, by simpa using hp', ?_, ?_⟩
  · simp only [List.length_append, List.length_singleton]; omega
  · intro k hk
    simp only [List.length_append, List.length_singleton] at hk
    by_cases hkl : k = pend.length
    · subst hkl
      rw [← hhd]
      simp [List.getD_eq_getElem?_getD, List.getElem?_set, hl, hh]
    · have hk' : k < pend.length := by omega
      have hne : u.uart_rx_head ≠ (u.uart_rx_tail + k) % 128 := by omega
      have := hb k hk'
      simp only [List.getD_eq_getElem?_getD] at this ⊢
      rw [List.getElem?_set_ne hne, this, List.getElem?_append_left hk']

theorem RxInv_irq_drop {u : UartRx} (d : Nat) (hs : irqStores u = false) :
    UART_IRQHandler d u = u := by
  simp only [irqStores, UART_RX_BUFFER_SIZE, decide_eq_false_iff_not, not_not] at hs
  simp [UART_IRQHandler, UART_RX_BUFFER_SIZE, hs]

theorem RxInv_recv_none {u : UartRx} {pend : List Nat} (h : RxInv u pend)
    (he : u.uart_rx_head = u.uart_rx_tail) :
    UART_ReceiveChar u = (none, u) ∧ pend = [] := by
  obtain ⟨hl, hh, ht, hp, hhd, hb⟩ := h
  refine ⟨by simp [UART_ReceiveChar, he], ?_⟩
  have : pend.length = 0 := by omega
  exact List.length_eq_zero.mp this

theorem RxInv_recv_some {u : UartRx} {pend : List Nat} (h : RxInv u pend)
    (he : u.uart_rx_head ≠ u.uart_rx_tail) :
    ∃ b rest, pend = b :: rest ∧ (UART_ReceiveChar u).1 = some b ∧
      RxInv (UART_ReceiveChar u).2 rest := by
  obtain ⟨hl, hh, ht, hp, hhd, hb⟩ := h
  cases pend with
  | nil => simp at hhd; omega
  | cons b rest =>
    refine ⟨b, rest, rfl, ?_, ?_⟩
    · have := hb 0 (by simp)
      simp only [Nat.add_zero, Nat.mod_eq_of_lt ht, List.getD_cons_zero] at this
      simp only [UART_ReceiveChar, he, if_false, this]
    · simp only [List.length_cons] at hp hhd hb
      simp only [UART_ReceiveChar, he, if_false, UART_RX_BUFFER_SIZE]
      refine ⟨hl, hh, Nat.mod_lt _ (by norm_num), by omega, ?_, ?_⟩
      · show u.uart_rx_head = ((u.uart_rx_tail + 1) % 128 + rest.length) % 128
        omega
      intro k hk
      show u.uart_rx_buffer.getD (((u.uart_rx_tail + 1) % 128 + k) % 128) 0 = rest.getD k 0
      have := hb (k + 1) (by omega)
      have hidx : ((u.uart_rx_tail + 1) % 128 + k) % 128 = (u.uart_rx_tail + (k + 1)) % 128 := by
        omega
      simp only [hidx, this, List.getD_cons_succ]

theorem RxInv_available {u : UartRx} {pend : List Nat} (h : RxInv u pend) :
    UART_Available u = pend.length := by
  obtain ⟨hl, hh, ht, hp, hhd, hb⟩ := h
  simp only [UART_Available, UART_RX_BUFFER_SIZE]
  omega

/-- Ghost invariant of a run: the stored bytes are the returned ones followed by the
queue content. -/
theorem rxRun_inv (ops : List RxOp) :
    ∃ pend, RxInv (rxRun ops).q pend ∧
      (rxRun ops).accepted = (rxRun ops).delivered ++ pend := by
  induction ops using List.reverseRecOn with
  | nil => exact ⟨[], RxInv_init, rfl⟩
  | append_singleton ops op ih =>
    obtain ⟨pend, hinv, hacc⟩ := ih
    have hrun : rxRun (ops ++ [op]) = rxStep (rxRun ops) op := by
      simp [rxRun, List.foldl_append]
    rw [hrun]
    cases op with
    | irq d =>
      cases hs : irqStores (rxRun ops).q with
      | true =>
        refine ⟨pend ++ [d % 256], ?_, ?_⟩
        · simpa [rxStep] using RxInv_irq_store d hinv hs
        · simp [rxStep, hs, hacc]
      | false =>
        refine ⟨pend, ?_, ?_⟩
        · simpa [rxStep, RxInv_irq_drop d hs] using hinv
        · simp [rxStep, hs, hacc]
    | recv =>
      by_cases he : (rxRun ops).q.uart_rx_head = (rxRun ops).q.uart_rx_tail
      · obtain ⟨h1, h2⟩ := RxInv_recv_none hinv he
        refine ⟨pend, ?_, ?_⟩
        · simpa [rxStep, h1] using hinv
        · simp [rxStep, h1, hacc]
      · obtain ⟨b, rest, hp, h1, h2⟩ := RxInv_recv_some hinv he
        refine ⟨rest, ?_, ?_⟩
        · have : UART_ReceiveChar (rxRun ops).q = (some b, (UART_ReceiveChar (rxRun ops).q).2) := by
            rw [← h1]
          rw [rxStep]; rw [this]; simpa using h2
        · have : UART_ReceiveChar (rxRun ops).q = (some b, (UART_ReceiveChar (rxRun ops).q).2) := by
            rw [← h1]
          rw [rxStep]; rw [this]; simp [hacc, hp]

theorem recvMany_all {u : UartRx} {pend : List Nat} (h : RxInv u pend) (n : Nat)
    (hn : pend.length ≤ n) : (recvMany n u).1 = pend := by
  induction n generalizing u pend with
  | zero =>
    have : pend = [] := List.length_eq_zero.mp (by omega)
    simp [recvMany, this]
  | succ n ih =>
    by_cases he : u.uart_rx_head = u.uart_rx_tail
    · obtain ⟨h1, h2⟩ := RxInv_recv_none h he
      simp [recvMany, h1, h2]
    · obtain ⟨b, rest, hp, h1, h2⟩ := RxInv_recv_some h he
      have : UART_ReceiveChar u = (some b, (UART_ReceiveChar u).2) := by rw [← h1]
      rw [recvMany, this]
      subst hp
      simp only [List.length_cons] at hn
      simp [ih h2 (by omega)]

/-- C6: the serial input queue is first-in first-out. For every sequence of interrupts
(`UART_IRQHandler`) and polls (`UART_ReceiveChar`) run from the empty queue, the bytes
returned by the successful polls are, in order, a prefix of the bytes the handler
stored, the bytes stored and not yet returned are exactly those `UART_Available`
counts, and one more poll either finds the queue empty and leaves it as it is, or
returns the oldest stored byte not yet returned and removes exactly that one. -/
theorem C6_rx_queue_fifo (ops : List RxOp) :
    (rxRun ops).delivered <+: (rxRun ops).accepted ∧
    (rxRun ops).accepted.length
      = (rxRun ops).delivered.length + UART_Available (rxRun ops).q ∧
    ((UART_ReceiveChar (rxRun ops).q = (none, (rxRun ops).q) ∧
        (rxRun ops).accepted = (rxRun ops).delivered) ∨
      (∃ b, (UART_ReceiveChar (rxRun ops).q).1 = some b ∧
        (rxRun ops).accepted[(rxRun ops).delivered.length]? = some b ∧
        UART_Available (UART_ReceiveChar (rxRun ops).q).2 + 1
          = UART_Available (rxRun ops).q)) := by
  obtain ⟨pend, hinv, hacc⟩ := rxRun_inv ops
  refine ⟨⟨pend, hacc.symm⟩, ?_, ?_⟩
  · rw [hacc, RxInv_available hinv, List.length_append]
  · by_cases he : (rxRun ops).q.uart_rx_head = (rxRun ops).q.uart_rx_tail
    · obtain ⟨h1, h2⟩ := RxInv_recv_none hinv he
      left
      exact ⟨h1, by rw [hacc, h2, List.append_nil]⟩
    · obtain ⟨b, rest, hp, h1, h2⟩ := RxInv_recv_some hinv he
      right
      refine ⟨b, h1, ?_, ?_⟩
      · rw [hacc, hp, List.getElem?_append_right (le_refl _)]; simp
      · rw [RxInv_available h2, RxInv_available hinv, hp]; simp

/-- C7: overflow of the input queue. In every state reached from the empty queue in
which the queue is full (the handler's guard `next != uart_rx_tail` fails), the
handler returns the queue unchanged (head, tail and every buffer cell), the queue
holds 127 bytes, and the polls that follow return exactly the bytes stored before the
overflow and not yet returned, oldest first. -/
theorem C7_rx_overflow_drops_newest (ops : List RxOp) (d : Nat)
    (hfull : irqStores (rxRun ops).q = false) :
    UART_IRQHandler d (rxRun ops).q = (rxRun ops).q ∧
    UART_Available (rxRun ops).q = 127 ∧
    (recvMany 127 (UART_IRQHandler d (rxRun ops).q)).1
      = (rxRun ops).accepted.drop (rxRun ops).delivered.length := by
  obtain ⟨pend, hinv, hacc⟩ := rxRun_inv ops
  have hdrop := RxInv_irq_drop d hfull
  have hav := RxInv_available hinv
  have h127 : pend.length = 127 := by
    obtain ⟨hl, hh, ht, hp, hhd, hb⟩ := hinv
    simp only [irqStores, UART_RX_BUFFER_SIZE, decide_eq_false_iff_not, not_not] at hfull
    omega
  refine ⟨hdrop, by rw [hav, h127], ?_⟩
  rw [hdrop, recvMany_all hinv 127 (by omega), hacc]
  simp

set_option maxRecDepth 100000 in
theorem C7_rx_overflow_drops_newest_witness :
    irqStores (rxRun ((List.range 127).map RxOp.irq ++ [RxOp.recv, RxOp.irq 200])).q = false ∧
    (recvMany 127 (UART_IRQHandler 201
        (rxRun ((List.range 127).map RxOp.irq ++ [RxOp.recv, RxOp.irq 200])).q)).1
      = (List.range 127).drop 1 ++ [200] :=
  ⟨by decide,
   (C7_rx_overflow_drops_newest ((List.range 127).map RxOp.irq ++ [RxOp.recv, RxOp.irq 200]) 201
      (by decide)).2.2.trans (by decide)⟩

/-! ### Basic facts about `live` and the primitives -/

theorem live_halted (f : State → State) (s : State) (h : s.halted = true) :
    live f s = s := by simp [live, h]

theorem live_running (f : State → State) (s : State) (h : s.halted = false) :
    live f s = f s := by simp [live, h]

theorem delay_us_running (us : Nat) (s : State) (h : s.halted = false) :
    (delay_us us s).halted = false ∧ (delay_us us s).led_auto_mode = s.led_auto_mode ∧
    (delay_us us s).leds = s.leds := by
  unfold delay_us
  rw [live_running _ _ h]
  cases he : s.env <;> simp [he, deliver, h]

theorem serviceButton_mode (s : State) (hh : s.halted = false)
    (hf : s.button_interrupt_flag ≠ 0) :
    (serviceButton s).led_auto_mode = (s.led_auto_mode + 1) % 7 ∧
    (serviceButton s).halted = false := by
  obtain ⟨h1, h2, h3⟩ := delay_us_running 50000 { s with button_interrupt_flag := 0 } hh
  have hlt : (s.led_auto_mode + 1) % 7 % 256 = (s.led_auto_mode + 1) % 7 := by omega
  have hlt' : ¬ (s.led_auto_mode + 1) % 7 ≥ 7 := by omega
  simp only [serviceButton, hf, ne_eq, not_false_eq_true, if_true]
  rw [live_running _ _ hh]
  rw [live_running _ _ h1]
  simp [live, h1, h2, hlt, hlt', clearAllLeds, GPIO_ClearPin]
  split <;> simp [h1, h2, hlt]

theorem buttonEvent_mode (s : State) (hh : s.halted = false) :
    (buttonEvent s).led_auto_mode = (s.led_auto_mode + 1) % 7 ∧
    (buttonEvent s).halted = false :=
  serviceButton_mode (EXTI2_3_IRQHandler s) hh (by simp [EXTI2_3_IRQHandler])

/-- C1: button-triggered mode cycling. For every mode `m` in 0..6, a button press
serviced by the main loop sets the active mode to `(m + 1) mod 7`, and seven button
presses serviced in succession bring the mode back to `m`. -/
theorem C1_button_mode_cycle (s : State) (hh : s.halted = false)
    (hm : s.led_auto_mode ≤ 6) :
    (buttonEvent s).led_auto_mode = (s.led_auto_mode + 1) % 7 ∧
    (buttonEvent^[7] s).led_auto_mode = s.led_auto_mode := by
  refine ⟨(buttonEvent_mode s hh).1, ?_⟩
  have step : ∀ n (t : State), t.halted = false →
      (buttonEvent^[n] t).led_auto_mode = (if n = 0 then t.led_auto_mode
        else (t.led_auto_mode + n) % 7) := by
    intro n
    induction n with
    | zero => intro t _; simp
    | succ n ih =>
      intro t ht
      obtain ⟨h1, h2⟩ := buttonEvent_mode t ht
      rw [Function.iterate_succ_apply, ih _ h2, h1]
      by_cases hn : n = 0
      · simp [hn]
      · simp only [hn, if_false, Nat.succ_ne_zero]
        omega
  rw [step 7 s hh]
  simp only [OfNat.ofNat_ne_zero, if_false]
  omega

theorem C1_button_mode_cycle_witness :
    (State.init [] true []).halted = false ∧ (State.init [] true []).led_auto_mode ≤ 6 ∧
    (buttonEvent (State.init [] true [])).led_auto_mode
      = ((State.init [] true []).led_auto_mode + 1) % 7 ∧
    (buttonEvent^[7] (State.init [] true [])).led_auto_mode
      = (State.init [] true []).led_auto_mode :=
  ⟨by decide, by decide, C1_button_mode_cycle (State.init [] true []) (by decide) (by decide)⟩

/-! ### Code that never switches an LED on: the shell and the waits -/

theorem Dark.refl (s : State) : Dark s s :=
  ⟨⟨[], by simp, by simp⟩, fun _ h => h, rfl, rfl⟩

theorem Dark.trans {a b c : State} (h1 : Dark a b) (h2 : Dark b c) : Dark a c := by
  obtain ⟨⟨l1, e1, n1⟩, m1, g1, p1⟩ := h1
  obtain ⟨⟨l2, e2, n2⟩, m2, g2, p2⟩ := h2
  refine ⟨⟨l1 ++ l2, by rw [e2, e1, List.append_assoc], ?_⟩, fun i h => m1 i (m2 i h),
    g2.trans g1, p2.trans p1⟩
  intro x hx
  rcases List.mem_append.mp hx with h | h
  · exact n1 x h
  · exact n2 x h

theorem Dark.of_fields {s s' : State} (hlog : s'.log = s.log) (hleds : s'.leds = s.leds)
    (hlcg : s'.lcg_state = s.lcg_state) (hlast : s'.last_blink_idx = s.last_blink_idx) :
    Dark s s' :=
  ⟨⟨[], by simp [hlog], by simp⟩, fun i h => by rw [← hleds]; exact h, hlcg, hlast⟩

theorem Dark_live {f : State → State} (h : ∀ s, Dark s (f s)) (s : State) :
    Dark s (live f s) := by
  unfold live
  split
  · exact Dark.refl s
  · exact h s

theorem Dark_GPIO_ClearPin (i : Nat) (s : State) : Dark s (GPIO_ClearPin i s) := by
  unfold GPIO_ClearPin
  apply Dark_live
  intro s
  refine ⟨⟨[Act.clearPin i], rfl, by simp [isLight]⟩, ?_, rfl, rfl⟩
  intro j hj
  simp only [List.getD_eq_getElem?_getD, List.getElem?_set] at hj ⊢
  split at hj
  · split at hj <;> simp at hj
  · exact hj

theorem Dark_delay_us (us : Nat) (s : State) : Dark s (delay_us us s) := by
  unfold delay_us
  apply Dark_live
  intro s
  refine ⟨⟨[Act.delay us], ?_, by simp [isLight]⟩, ?_, ?_, ?_⟩ <;>
    cases s.env <;> simp [deliver]

theorem Dark_clearAllLeds (s : State) : Dark s (clearAllLeds s) :=
  (((((Dark_GPIO_ClearPin 0 s).trans (Dark_GPIO_ClearPin 1 _)).trans
    (Dark_GPIO_ClearPin 2 _)).trans (Dark_GPIO_ClearPin 3 _)).trans (Dark_GPIO_ClearPin 4 _))

theorem Dark_eeprom_write_byte (a d : Nat) (s : State) :
    Dark s (eeprom_write_byte a d s).2 := by
  unfold eeprom_write_byte
  split
  · exact Dark.refl s
  · split
    · exact Dark.of_fields rfl rfl rfl rfl
    · exact Dark.refl s

theorem Dark_writeAll (base : Nat) (bs : List Nat) (s : State) :
    Dark s (writeAll base bs s) := by
  induction bs generalizing base s with
  | nil => exact Dark.refl s
  | cons b bs ih =>
    exact ((Dark_eeprom_write_byte base b s).trans (Dark_delay_us _ _)).trans (ih _ _)

theorem Dark_live_step {f : State → State} {a t : State} (h : ∀ s, Dark s (f s))
    (h0 : Dark a t) : Dark a (live f t) :=
  h0.trans (Dark_live h t)

theorem Dark_initSlot (base : Nat) (arr : List Nat) (n i : Nat) (s : State) :
    Dark s (initSlot base arr n i s) := by
  induction n generalizing i s with
  | zero => exact Dark.refl s
  | succ n ih =>
    unfold initSlot
    dsimp only
    generalize (if i < (cstr arr).length then arr.getD i 0 else 0) = b
    have h1 := (Dark_eeprom_write_byte (base + i) b s).trans (Dark_delay_us 5000 _)
    by_cases hb : b = 0
    · simp only [hb, if_true] at h1 ⊢; exact h1
    · simp only [hb, if_false]; exact h1.trans (ih _ _)

theorem Dark_saveSlot (base : Nat) (arr : List Nat) (n i : Nat) (s : State) :
    Dark s (saveSlot base arr n i s).2 := by
  induction n generalizing i s with
  | zero => exact Dark.refl s
  | succ n ih =>
    unfold saveSlot
    dsimp only
    generalize (if i < (cstr arr).length then arr.getD i 0 else 0) = b
    have h0 := Dark_eeprom_write_byte (base + i) b s
    by_cases hr : (eeprom_write_byte (base + i) b s).1 = false
    · simp only [hr, if_true]; exact h0
    · simp only [hr, if_false]
      by_cases hb : b = 0
      · simp only [hb, if_true] at h0 ⊢; exact h0.trans (Dark_delay_us 5000 _)
      · simp only [hb, if_false]
        exact (h0.trans (Dark_delay_us 5000 _)).trans (ih _ _)

theorem Dark_EEPROM_InitializeDefaults (s : State) :
    Dark s (EEPROM_InitializeDefaults s) := by
  unfold EEPROM_InitializeDefaults
  refine Dark.trans ?_ (Dark_initSlot _ _ _ _ _)
  refine Dark_live_step (fun t => Dark.of_fields rfl rfl rfl rfl) ?_
  refine Dark.trans ?_ (Dark_initSlot _ _ _ _ _)
  refine Dark_live_step (fun t => Dark.of_fields rfl rfl rfl rfl) ?_
  exact ((Dark_writeAll _ _ _).trans (Dark_writeAll _ _ _)).trans (Dark_writeAll _ _ _)

theorem Dark_CLI_SaveConfig (s : State) : Dark s (CLI_SaveConfig s) := by
  unfold CLI_SaveConfig
  split
  · exact Dark.refl s
  · split
    · exact Dark.refl s
    · dsimp only
      split
      · exact Dark_saveSlot _ _ _ _ _
      · exact (Dark_saveSlot _ _ _ _ _).trans (Dark_saveSlot _ _ _ _ _)

theorem Dark_PWM_zero (channel : Nat) (s : State) : Dark s (PWM_SetDutyCycle channel 0 s) := by
  unfold PWM_SetDutyCycle
  split
  · simp only [gt_iff_lt, Nat.not_lt_zero, if_false]
    exact Dark_GPIO_ClearPin _ _
  · exact Dark.refl s

theorem Dark_cmdBlinkMode (param : List Nat) (s : State) : Dark s (cmdBlinkMode param s) := by
  unfold cmdBlinkMode
  dsimp only
  split
  · have h1 : Dark s (live (fun s => { s with led_auto_mode := (atoi param).toNat }) s) := by
      apply Dark_live; intro s; exact Dark.of_fields rfl rfl rfl rfl
    have h2 := ((((h1.trans (Dark_PWM_zero 1 _)).trans (Dark_PWM_zero 2 _)).trans
      (Dark_PWM_zero 3 _)).trans (Dark_PWM_zero 4 _)).trans (Dark_PWM_zero 5 _)
    split
    · refine h2.trans ?_
      apply Dark_live; intro s; exact Dark.of_fields rfl rfl rfl rfl
    · exact h2
  · exact Dark.refl s

theorem Dark_bledOffOne (i : Nat) (s : State) : Dark s (bledOffOne i s) := by
  unfold bledOffOne
  refine Dark.trans ?_ (Dark_PWM_zero _ _)
  apply Dark_live; intro s; exact Dark.of_fields rfl rfl rfl rfl

theorem Dark_cmdBled (param : List Nat) (s : State) : Dark s (cmdBled param s) := by
  unfold cmdBled
  split
  · exact ((((Dark_bledOffOne 0 s).trans (Dark_bledOffOne 1 _)).trans
      (Dark_bledOffOne 2 _)).trans (Dark_bledOffOne 3 _)).trans (Dark_bledOffOne 4 _)
  · split
    · unfold CLI_StartLedBlink
      split
      · apply Dark_live; intro s; exact Dark.of_fields rfl rfl rfl rfl
      · exact Dark.refl s
    · exact Dark.refl s

theorem Dark_cmdCw (arg : List Nat) (s : State) : Dark s (cmdCw arg s) := by
  unfold cmdCw
  dsimp only
  split
  · refine Dark.trans ?_ (Dark_CLI_SaveConfig _)
    apply Dark_live; intro s; exact Dark.of_fields rfl rfl rfl rfl
  · exact Dark.refl s

theorem Dark_cmdEewrite (args : List Nat) (s : State) : Dark s (cmdEewrite args s) := by
  unfold cmdEewrite
  split
  · dsimp only
    split
    · exact (Dark_eeprom_write_byte _ _ _).trans (Dark_delay_us _ _)
    · exact Dark_eeprom_write_byte _ _ _
  · exact Dark.refl s

theorem Dark_LED_SetMode (mode : Nat) (s : State) : Dark s (LED_SetMode mode s) := by
  unfold LED_SetMode
  apply Dark_live
  intro s
  dsimp only
  split_ifs <;> exact Dark.of_fields rfl rfl rfl rfl

theorem Dark_NVIC_SystemReset (s : State) : Dark s (NVIC_SystemReset s) := by
  unfold NVIC_SystemReset
  apply Dark_live; intro s; exact Dark.of_fields rfl rfl rfl rfl

theorem Dark_ite {c : Prop} [Decidable c] {s a b : State} (ha : Dark s a) (hb : Dark s b) :
    Dark s (if c then a else b) := by
  split
  · exact ha
  · exact hb

theorem Dark_CLI_ParseCommand (cmd : List Nat) (s : State) :
    Dark s (CLI_ParseCommand cmd s) := by
  unfold CLI_ParseCommand
  repeat' (with_reducible apply Dark_ite)
  all_goals first
    | exact Dark.refl s
    | exact Dark.of_fields rfl rfl rfl rfl
    | exact Dark_NVIC_SystemReset s
    | exact Dark_cmdBlinkMode _ s
    | exact Dark_cmdBled _ s
    | exact Dark_cmdCw _ s
    | exact Dark_cmdEewrite _ s
    | exact Dark.trans (Dark.of_fields rfl rfl rfl rfl) (Dark_LED_SetMode _ _)
    | exact Dark.trans (Dark.of_fields rfl rfl rfl rfl) (Dark_CLI_SaveConfig _)
    | (refine Dark_live_step ?_ ?_
       · intro t; exact Dark.of_fields rfl rfl rfl rfl
       · exact Dark_ite (Dark_EEPROM_InitializeDefaults s) (Dark.refl s))

theorem Dark_log_append (a : Act) (ha : isLight a = false) (s : State) :
    Dark s { s with log := s.log ++ [a] } :=
  ⟨⟨[a], rfl, by simpa using ha⟩, fun _ h => h, rfl, rfl⟩

theorem Dark_CLI_ProcessChar (c : Nat) (s : State) : Dark s (CLI_ProcessChar c s) := by
  unfold CLI_ProcessChar
  apply Dark_live
  intro s
  refine (Dark_log_append (Act.feed c) rfl s).trans ?_
  refine Dark_ite ?_ (Dark_ite ?_ (Dark_ite ?_ (Dark.refl _)))
  · refine Dark_live_step (fun t => Dark.of_fields rfl rfl rfl rfl) ?_
    refine Dark.trans (Dark.of_fields rfl rfl rfl rfl) ?_
    refine Dark_ite ?_ (Dark.refl _)
    refine Dark.trans ?_ (Dark_CLI_ParseCommand _ _)
    exact Dark.of_fields rfl rfl rfl rfl
  · exact Dark_ite (Dark.of_fields rfl rfl rfl rfl) (Dark.refl _)
  · exact Dark_ite (Dark.of_fields rfl rfl rfl rfl) (Dark.refl _)

theorem Dark_pollShell (s : State) : Dark s (pollShell s) := by
  unfold pollShell
  apply Dark_live
  intro s
  refine (Dark_log_append Act.poll rfl s).trans ?_
  dsimp only
  split
  · refine Dark.trans ?_ (Dark_CLI_ProcessChar _ _)
    exact Dark.of_fields rfl rfl rfl rfl
  · exact Dark.refl _

theorem Dark_waitLoop (cancel : State → Bool) (q n : Nat) (s : State) :
    Dark s (waitLoop cancel q n s) := by
  induction n generalizing s with
  | zero => exact Dark.refl s
  | succ n ih =>
    unfold waitLoop
    dsimp only
    split
    · exact Dark_pollShell s
    · exact ((Dark_pollShell s).trans (Dark_delay_us q _)).trans (ih _)

/-- C10: empty CW message. With CW as active mode, an empty stored message and no
button press pending, one pass of the main loop is exactly the idle wait of the CW
branch (ten rounds of: poll the receive queue, test the button flag, sleep 10 ms);
whatever the generator state and the bytes queued or arriving, it logs no
`GPIO_SetPin` and no `GPIO_TogglePin` on LED1..LED5, switches no LED on and makes no
pseudo-random draw. -/
theorem C10_empty_cw_message_idles (s : State) (hmode : s.led_auto_mode = 3)
    (hempty : s.current_cw.getD 0 0 = 0) (hbtn : s.button_interrupt_flag = 0) :
    mainIteration s = waitLoop btn 10000 10 s ∧
    (∃ l, (mainIteration s).log = s.log ++ l ∧
      ∀ a ∈ l, ∀ i, a ≠ Act.setPin i ∧ a ≠ Act.togglePin i) ∧
    (∀ i, (mainIteration s).leds.getD i false = true → s.leds.getD i false = true) ∧
    (mainIteration s).lcg_state = s.lcg_state := by
  have hcw : cwStep s = (waitLoop btn 10000 10 s, true) := by
    unfold cwStep
    rw [if_pos hempty]
  have hstep : modeStep s = cwStep s := by
    unfold modeStep
    rw [hmode]
    rfl
  have hsb : serviceButton s = s := by
    unfold serviceButton
    rw [if_neg (by simp [hbtn])]
  have hmain : mainIteration s = waitLoop btn 10000 10 s := by
    unfold mainIteration
    simp only [hsb, hstep, hcw, if_true]
  obtain ⟨⟨l, hl, hn⟩, hleds, hlcg, -⟩ := Dark_waitLoop btn 10000 10 s
  rw [hmain]
  refine ⟨rfl, ⟨l, hl, ?_⟩, hleds, hlcg⟩
  intro a ha i
  have := hn a ha
  constructor <;> (intro h; subst h; simp [isLight] at this)

theorem C10_empty_cw_message_idles_witness :
    cwIdleExample.led_auto_mode = 3 ∧ cwIdleExample.current_cw.getD 0 0 = 0 ∧
    cwIdleExample.button_interrupt_flag = 0 ∧
    mainIteration cwIdleExample = waitLoop btn 10000 10 cwIdleExample ∧
    (mainIteration cwIdleExample).lcg_state = cwIdleExample.lcg_state :=
  ⟨rfl, rfl, rfl, (C10_empty_cw_message_idles cwIdleExample rfl rfl rfl).1,
    (C10_empty_cw_message_idles cwIdleExample rfl rfl rfl).2.2.2⟩

/-! ### The remembered pick is only written by the pick itself -/

theorem Keeps.krefl (s : State) : Keeps s s := ⟨⟨[], by simp⟩, rfl⟩

theorem Keeps.ktrans {a b c : State} (h1 : Keeps a b) (h2 : Keeps b c) : Keeps a c := by
  obtain ⟨⟨l1, e1⟩, p1⟩ := h1
  obtain ⟨⟨l2, e2⟩, p2⟩ := h2
  exact ⟨⟨l1 ++ l2, by rw [e2, e1, List.append_assoc]⟩, Eq.trans p2 p1⟩

theorem Dark.keeps {a b : State} (h : Dark a b) : Keeps a b := by
  obtain ⟨⟨l, e, -⟩, -, -, p⟩ := h
  exact ⟨⟨l, e⟩, p⟩

theorem Keeps_live {f : State → State} (h : ∀ s, Keeps s (f s)) (s : State) :
    Keeps s (live f s) := by
  unfold live
  split
  · exact Keeps.krefl s
  · exact h s

theorem Keeps_GPIO_SetPin (i : Nat) (s : State) : Keeps s (GPIO_SetPin i s) := by
  unfold GPIO_SetPin
  apply Keeps_live
  intro s
  exact ⟨⟨[Act.setPin i], rfl⟩, rfl⟩

theorem Keeps_lcg_rand (s : State) : Keeps s (lcg_rand s) := by
  unfold lcg_rand
  apply Keeps_live
  intro s
  exact ⟨⟨[], by simp⟩, rfl⟩

theorem Keeps_waitLoop (cancel : State → Bool) (q n : Nat) (s : State) :
    Keeps s (waitLoop cancel q n s) := (Dark_waitLoop cancel q n s).keeps

theorem Keeps_GPIO_ClearPin (i : Nat) (s : State) : Keeps s (GPIO_ClearPin i s) :=
  (Dark_GPIO_ClearPin i s).keeps

theorem Keeps_ite {c : Prop} [Decidable c] {s a b : State} (ha : Keeps s a) (hb : Keeps s b) :
    Keeps s (if c then a else b) := by
  split
  · exact ha
  · exact hb

theorem Keeps_fadeCycle (idx ton toff c : Nat) (s : State) :
    Keeps s (fadeCycle idx ton toff c s).1 := by
  unfold fadeCycle
  dsimp only
  have h1 : Keeps s (if toff > 0 then
        delay_us toff (GPIO_ClearPin idx (delay_us ton (GPIO_SetPin idx s)))
      else GPIO_ClearPin idx (delay_us ton (GPIO_SetPin idx s))) := by
    have h0 := ((Keeps_GPIO_SetPin idx s).ktrans (Dark_delay_us ton _).keeps).ktrans
      (Keeps_GPIO_ClearPin idx _)
    exact Keeps_ite (h0.ktrans (Dark_delay_us toff _).keeps) h0
  split
  · exact h1.ktrans (Dark_pollShell _).keeps
  · exact h1

theorem Keeps_fadeCycles (idx ton toff n c : Nat) (s : State) :
    Keeps s (fadeCycles idx ton toff n c s) := by
  induction n generalizing c s with
  | zero => exact Keeps.krefl s
  | succ n ih =>
    unfold fadeCycles
    dsimp only
    split
    · exact Keeps_fadeCycle _ _ _ _ _
    · exact (Keeps_fadeCycle _ _ _ _ _).ktrans (ih _ _)

theorem Keeps_fadeSteps (idx k : Nat) (s : State) : Keeps s (fadeSteps idx k s) := by
  induction k generalizing s with
  | zero => exact Keeps.krefl s
  | succ k ih =>
    unfold fadeSteps
    dsimp only
    split
    · exact Keeps_fadeCycles _ _ _ _ _ _
    · exact (Keeps_fadeCycles _ _ _ _ _ _).ktrans (ih _)

theorem blinkStep_keeps (s : State) :
    Keeps (GPIO_SetPin (pickStep s).1 (pickStep s).2) (blinkStep s).1 := by
  unfold blinkStep
  dsimp only
  have h1 := (Keeps_lcg_rand (GPIO_SetPin (pickStep s).1 (pickStep s).2)).ktrans
    (Keeps_waitLoop btn 10000
      ((10 + (lcg_rand (GPIO_SetPin (pickStep s).1 (pickStep s).2)).lcg_state % 71) / 10) _)
  split
  · exact h1
  · exact ((h1.ktrans (Keeps_GPIO_ClearPin _ _)).ktrans (Keeps_lcg_rand _)).ktrans
      (Keeps_waitLoop _ _ _ _)

theorem fadeStep_keeps (s : State) :
    Keeps (GPIO_SetPin (pickStep s).1 (pickStep s).2) (fadeStep s).1 := by
  unfold fadeStep
  dsimp only
  have h1 := Keeps_waitLoop btn 10000 10 (GPIO_SetPin (pickStep s).1 (pickStep s).2)
  split
  · exact h1.ktrans (Keeps_GPIO_ClearPin _ _)
  · have h2 := (h1.ktrans (Keeps_fadeSteps (pickStep s).1 20 _)).ktrans
      (Keeps_GPIO_ClearPin (pickStep s).1 _)
    split
    · exact h2
    · exact (h2.ktrans (Keeps_lcg_rand _)).ktrans (Keeps_waitLoop _ _ _ _)

theorem pickLed_lt (r : Nat) (last : Int) : pickLed r last < 5 := by
  simp only [pickLed]
  split <;> omega

theorem pickLed_ne (r : Nat) (last : Int) : (pickLed r last : Int) ≠ last := by
  simp only [pickLed]
  split <;> omega

theorem GPIO_SetPin_log (i : Nat) (s : State) (hh : s.halted = false) :
    (GPIO_SetPin i s).log = s.log ++ [Act.setPin i] := by
  simp [GPIO_SetPin, live, hh]

theorem lcg_rand_running (s : State) (hh : s.halted = false) :
    lcg_rand s = { s with lcg_state := lcgNext s.lcg_state } := by
  unfold lcg_rand
  rw [live_running _ _ hh]

theorem pickStep_running (s : State) (hh : s.halted = false) :
    (pickStep s).1 = pickLed (lcgNext s.lcg_state) s.last_blink_idx ∧
    (pickStep s).2.last_blink_idx = ((pickStep s).1 : Int) ∧
    (pickStep s).2.log = s.log ∧ (pickStep s).2.halted = false := by
  unfold pickStep
  rw [lcg_rand_running s hh]
  simp only [live, hh, Bool.false_eq_true, if_false, and_self]

theorem pickSeq_lt (last : Int) (rs : List Nat) : ∀ i ∈ pickSeq last rs, i < 5 := by
  induction rs generalizing last with
  | nil => simp [pickSeq]
  | cons r rs ih =>
    intro i hi
    simp only [pickSeq, List.mem_cons] at hi
    rcases hi with h | h
    · rw [h]; exact pickLed_lt r last
    · exact ih _ i h

theorem pickSeq_chain (last : Int) (rs : List Nat) :
    List.Chain (fun a b => a ≠ b) last ((pickSeq last rs).map (fun i => (i : Int))) := by
  induction rs generalizing last with
  | nil => exact List.Chain.nil
  | cons r rs ih =>
    show List.Chain (fun a b => a ≠ b) last
      ((pickLed r last : Int) :: (pickSeq (pickLed r last) rs).map (fun i => (i : Int)))
    exact List.Chain.cons (pickLed_ne r last).symm (ih _)

/-- C4: LED pick without immediate repeat. For every generator state and every
previous pick (the start value -1 included), the LED chosen by a BLINK or FADE step
lies in 0..4 and differs from the previous pick; it is the LED the step switches on
first, and at the end of the step (completed or cancelled) it is the remembered pick
the next step compares with. Hence in every run of consecutive picks, whatever the
draws, the first differs from the pick before the run and each later one from its
predecessor. -/
theorem C4_pick_no_immediate_repeat (s : State) (hh : s.halted = false) (rs : List Nat) :
    (pickStep s).1 < 5 ∧ ((pickStep s).1 : Int) ≠ s.last_blink_idx ∧
    (∃ rest, (blinkStep s).1.log = s.log ++ Act.setPin (pickStep s).1 :: rest) ∧
    (blinkStep s).1.last_blink_idx = ((pickStep s).1 : Int) ∧
    (∃ rest, (fadeStep s).1.log = s.log ++ Act.setPin (pickStep s).1 :: rest) ∧
    (fadeStep s).1.last_blink_idx = ((pickStep s).1 : Int) ∧
    (∀ i ∈ pickSeq s.last_blink_idx rs, i < 5) ∧
    List.Chain (fun a b => a ≠ b) s.last_blink_idx
      ((pickSeq s.last_blink_idx rs).map (fun i => (i : Int))) := by
  obtain ⟨hp, hlast, hlog, hh'⟩ := pickStep_running s hh
  have hset := GPIO_SetPin_log (pickStep s).1 (pickStep s).2 hh'
  have hsetk := (Keeps_GPIO_SetPin (pickStep s).1 (pickStep s).2).2
  obtain ⟨⟨lb, hlb⟩, hkb⟩ := blinkStep_keeps s
  obtain ⟨⟨lf, hlf⟩, hkf⟩ := fadeStep_keeps s
  refine ⟨by rw [hp]; exact pickLed_lt _ _, by rw [hp]; exact pickLed_ne _ _, ⟨lb, ?_⟩, ?_,
    ⟨lf, ?_⟩, ?_, pickSeq_lt _ _, pickSeq_chain _ _⟩
  · rw [hlb, hset, hlog, List.append_assoc, List.singleton_append]
  · rw [hkb, hsetk, hlast]
  · rw [hlf, hset, hlog, List.append_assoc, List.singleton_append]
  · rw [hkf, hsetk, hlast]

theorem C4_pick_no_immediate_repeat_witness :
    (State.init [] true []).halted = false ∧
    (pickStep (State.init [] true [])).1 < 5 ∧
    ((pickStep (State.init [] true [])).1 : Int) ≠ (State.init [] true []).last_blink_idx ∧
    List.Chain (fun a b => a ≠ b) (State.init [] true []).last_blink_idx
      ((pickSeq (State.init [] true []).last_blink_idx [0, 5, 10, 1, 6]).map
        (fun i => (i : Int))) :=
  ⟨rfl, (C4_pick_no_immediate_repeat (State.init [] true []) rfl [0, 5, 10, 1, 6]).1,
    (C4_pick_no_immediate_repeat (State.init [] true []) rfl [0, 5, 10, 1, 6]).2.1,
    (C4_pick_no_immediate_repeat (State.init [] true []) rfl [0, 5, 10, 1, 6]).2.2.2.2.2.2.2⟩

set_option maxRecDepth 1000000 in
/-- C2, evaluated at a failing input: BLINK is cancelled by a button press during its
on-phase. The pass ends with LED4 lit and the press pending; after the button block of
the next pass has serviced the switch (mode FADE), LED4 is still lit, and it is still
lit at the end of that pass. -/
theorem C2_blink_cancel_leaves_led_lit :
    (mainIteration blinkCancelExample).log
      = [Act.setPin 3, Act.poll, Act.delay 10000, Act.poll] ∧
    (mainIteration blinkCancelExample).button_interrupt_flag = 1 ∧
    (serviceButton (mainIteration blinkCancelExample)).led_auto_mode = 2 ∧
    (serviceButton (mainIteration blinkCancelExample)).button_interrupt_flag = 0 ∧
    (serviceButton (mainIteration blinkCancelExample)).leds
      = [false, false, false, true, false] ∧
    (mainIteration (mainIteration blinkCancelExample)).leds
      = [false, false, false, true, false] := by
  decide

/-- C3, evaluated at a failing input: the button wrap-around 6 -> 0 with LED1 flagged
for manual blinking. The button block clears the five LEDs, but not the blink flags
(as `bm 0` does), and the manual-blink service of the same pass switches LED1 on. -/
theorem C3_button_off_switch_leaves_led_lit :
    (serviceButton offSwitchExample).led_auto_mode = 0 ∧
    (serviceButton offSwitchExample).leds = [false, false, false, false, false] ∧
    (mainIteration offSwitchExample).led_auto_mode = 0 ∧
    (mainIteration offSwitchExample).leds = [true, false, false, false, false] ∧
    (cmdBlinkMode (str "0") offSwitchExample).led_blinking
      = [false, false, false, false, false] := by
  decide

/-! ### Quiet runs: nothing pending, nothing arriving -/

theorem pollShell_idle (s : State) (hh : s.halted = false)
    (hrx : s.rx.uart_rx_head = s.rx.uart_rx_tail) :
    pollShell s = { s with log := s.log ++ [Act.poll] } := by
  unfold pollShell
  rw [live_running _ _ hh]
  simp only [UART_ReceiveChar, hrx, if_true]

theorem delay_us_nil (q : Nat) (s : State) (hh : s.halted = false) (he : s.env = []) :
    delay_us q s = { s with systick_ms := (s.systick_ms + q / 1000) % 2 ^ 32,
                            log := s.log ++ [Act.delay q] } := by
  unfold delay_us
  rw [live_running _ _ hh]
  simp only [he]

theorem delay_us_cons (q : Nat) (s : State) (hh : s.halted = false) (e : Irq) (es : List Irq)
    (he : s.env = e :: es) :
    delay_us q s = deliver e { s with systick_ms := (s.systick_ms + q / 1000) % 2 ^ 32,
                                      log := s.log ++ [Act.delay q], env := es } := by
  unfold delay_us
  rw [live_running _ _ hh]
  simp only [he]

theorem ledsAfter_append (leds : List Bool) (a b : List Act) :
    ledsAfter leds (a ++ b) = ledsAfter (ledsAfter leds a) b := by
  simp only [ledsAfter, List.foldl_append]

theorem Runs_refl {s : State} (h : Quiet s) : Runs s s [] :=
  ⟨h, by simp, rfl, rfl⟩

theorem Runs_trans {a b c : State} {l1 l2 : List Act} (h1 : Runs a b l1) (h2 : Runs b c l2) :
    Runs a c (l1 ++ l2) := by
  obtain ⟨-, e1, d1, f1⟩ := h1
  obtain ⟨q2, e2, d2, f2⟩ := h2
  exact ⟨q2, by rw [e2, e1, List.append_assoc], by rw [d2, d1, ledsAfter_append],
    f2.trans f1⟩

theorem Runs_pollShell {s : State} (h : Quiet s) : Runs s (pollShell s) [Act.poll] := by
  rw [pollShell_idle s h.1 h.2.2.1]
  exact ⟨h, rfl, rfl, rfl⟩

theorem Runs_delay_us (q : Nat) {s : State} (h : Quiet s) :
    Runs s (delay_us q s) [Act.delay q] := by
  obtain ⟨hh, hb, hrx, henv⟩ := h
  cases he : s.env with
  | nil =>
    rw [delay_us_nil q s hh he]
    exact ⟨⟨hh, hb, hrx, by simp [he]⟩, rfl, rfl, rfl⟩
  | cons e es =>
    rw [delay_us_cons q s hh e es he]
    have hq : e = quietIrq := henv e (by simp [he])
    subst hq
    refine ⟨⟨hh, hb, hrx, ?_⟩, rfl, rfl, ?_⟩
    · intro e' he'
      exact henv e' (by rw [he]; exact List.mem_cons_of_mem _ he')
    · simp only [deliver, quietIrq, frame, Bool.false_eq_true, if_false, List.foldl_nil]

theorem Runs_GPIO_SetPin (i : Nat) {s : State} (h : Quiet s) :
    Runs s (GPIO_SetPin i s) [Act.setPin i] := by
  unfold GPIO_SetPin
  rw [live_running _ _ h.1]
  exact ⟨h, rfl, rfl, rfl⟩

theorem Runs_GPIO_ClearPin (i : Nat) {s : State} (h : Quiet s) :
    Runs s (GPIO_ClearPin i s) [Act.clearPin i] := by
  unfold GPIO_ClearPin
  rw [live_running _ _ h.1]
  exact ⟨h, rfl, rfl, rfl⟩

theorem frame_mode {s t : State} (h : frame t = frame s) :
    t.led_auto_mode = s.led_auto_mode :=
  show (frame t).led_auto_mode = (frame s).led_auto_mode from congrArg State.led_auto_mode h

theorem btn_quiet {s : State} (h : Quiet s) : btn s = false := by
  simp only [btn, h.2.1, ne_eq, not_true_eq_false, decide_False]

theorem btnOrMode_quiet {s : State} (m : Nat) (h : Quiet s) (hm : s.led_auto_mode = m) :
    btnOrMode m s = false := by
  simp only [btnOrMode, btn_quiet h, hm, ne_eq, not_true_eq_false, decide_False,
    Bool.or_self]

theorem Runs_waitLoop (cancel : State → Bool) (q n : Nat) {s : State} (h : Quiet s)
    (hc : ∀ t, Quiet t → frame t = frame s → cancel t = false) :
    Runs s (waitLoop cancel q n s) (waitActs q n) := by
  induction n generalizing s with
  | zero => exact Runs_refl h
  | succ n ih =>
    have h1 := Runs_pollShell h
    have hc1 : cancel (pollShell s) = false := hc _ h1.1 h1.2.2.2
    have h2 := Runs_delay_us q h1.1
    have h12 := Runs_trans h1 h2
    have h3 := ih h2.1 (fun t ht hf => hc t ht (hf.trans h12.2.2.2))
    have := Runs_trans h12 h3
    unfold waitLoop
    simp only [hc1, Bool.false_eq_true, if_false]
    simpa [waitActs] using this

/-! ### A wait that is cancelled by the button -/

theorem pollShell_idle_facts (s : State) (hh : s.halted = false)
    (hrx : s.rx.uart_rx_head = s.rx.uart_rx_tail) :
    (pollShell s).halted = false ∧
    (pollShell s).button_interrupt_flag = s.button_interrupt_flag ∧
    (pollShell s).rx = s.rx ∧ (pollShell s).led_auto_mode = s.led_auto_mode ∧
    (pollShell s).env = s.env ∧ (pollShell s).log = s.log ++ [Act.poll] := by
  rw [pollShell_idle s hh hrx]
  exact ⟨hh, rfl, rfl, rfl, rfl, rfl⟩

theorem delay_us_facts (q : Nat) (s : State) (hh : s.halted = false) (e : Irq) (es : List Irq)
    (he : s.env = e :: es) (hbytes : e.bytes = []) :
    (delay_us q s).halted = false ∧
    (delay_us q s).button_interrupt_flag = (if e.button then 1 else s.button_interrupt_flag) ∧
    (delay_us q s).rx = s.rx ∧ (delay_us q s).led_auto_mode = s.led_auto_mode ∧
    (delay_us q s).env = es ∧ (delay_us q s).log = s.log ++ [Act.delay q] := by
  rw [delay_us_cons q s hh e es he]
  refine ⟨hh, rfl, ?_, rfl, rfl, rfl⟩
  simp only [deliver, hbytes, List.foldl_nil]

theorem waitLoop_cancelled (cancel : State → Bool) (q : Nat) (mode : Nat)
    (hc : ∀ t : State, t.led_auto_mode = mode → cancel t = btn t) :
    ∀ (k m : Nat) (s : State) (rest : List Irq), s.halted = false →
      s.button_interrupt_flag = 0 → s.rx.uart_rx_head = s.rx.uart_rx_tail →
      s.led_auto_mode = mode →
      s.env = List.replicate k quietIrq ++ { button := true, bytes := [] } :: rest →
      (waitLoop cancel q (k + 1 + m) s).log
          = s.log ++ (waitActs q (k + 1) ++ (if m = 0 then [] else [Act.poll])) ∧
        (waitLoop cancel q (k + 1 + m) s).button_interrupt_flag = 1 ∧
        (waitLoop cancel q (k + 1 + m) s).led_auto_mode = mode := by
  intro k
  induction k with
  | zero =>
    intro m s rest hh hb hrx hm henv
    simp only [List.replicate, List.nil_append] at henv
    have e1 : 0 + 1 + m = m + 1 := by omega
    rw [e1]
    obtain ⟨p1, p2, p3, p4, p5, p6⟩ := pollShell_idle_facts s hh hrx
    obtain ⟨d1, d2, d3, d4, d5, d6⟩ :=
      delay_us_facts q (pollShell s) p1 _ rest (p5.trans henv) rfl
    have hc1 : cancel (pollShell s) = false := by
      rw [hc (pollShell s) (p4.trans hm)]
      simp only [btn, p2, hb, ne_eq, not_true_eq_false, decide_False]
    simp only [if_true] at d2
    unfold waitLoop
    simp only [hc1, Bool.false_eq_true, if_false]
    cases m with
    | zero =>
      refine ⟨?_, d2, d4.trans (p4.trans hm)⟩
      simp only [waitLoop, d6, p6, waitActs, if_true, List.append_nil, List.append_assoc,
        List.singleton_append]
    | succ m =>
      have hrx2 : (delay_us q (pollShell s)).rx.uart_rx_head
          = (delay_us q (pollShell s)).rx.uart_rx_tail := by rw [d3, p3]; exact hrx
      obtain ⟨r1, r2, r3, r4, r5, r6⟩ := pollShell_idle_facts (delay_us q (pollShell s)) d1 hrx2
      have hc2 : cancel (pollShell (delay_us q (pollShell s))) = true := by
        rw [hc _ (r4.trans (d4.trans (p4.trans hm)))]
        simp only [btn, r2, d2, ne_eq, one_ne_zero, not_false_eq_true, decide_True]
      unfold waitLoop
      simp only [hc2, if_true]
      refine ⟨?_, r2.trans d2, r4.trans (d4.trans (p4.trans hm))⟩
      simp only [r6, d6, p6, waitActs, Nat.succ_ne_zero, if_false, List.append_assoc,
        List.singleton_append, List.cons_append, List.nil_append]
  | succ k ih =>
    intro m s rest hh hb hrx hm henv
    simp only [List.replicate, List.cons_append] at henv
    have e1 : k + 1 + 1 + m = (k + 1 + m) + 1 := by omega
    rw [e1]
    obtain ⟨p1, p2, p3, p4, p5, p6⟩ := pollShell_idle_facts s hh hrx
    obtain ⟨d1, d2, d3, d4, d5, d6⟩ :=
      delay_us_facts q (pollShell s) p1 _ _ (p5.trans henv) rfl
    have hc1 : cancel (pollShell s) = false := by
      rw [hc (pollShell s) (p4.trans hm)]
      simp only [btn, p2, hb, ne_eq, not_true_eq_false, decide_False]
    simp only [quietIrq, Bool.false_eq_true, if_false] at d2
    obtain ⟨h1, h2, h3⟩ := ih m (delay_us q (pollShell s)) rest d1 (d2.trans (p2.trans hb))
      (by rw [d3, p3]; exact hrx) (d4.trans (p4.trans hm)) d5
    unfold waitLoop
    simp only [hc1, Bool.false_eq_true, if_false]
    refine ⟨?_, h2, h3⟩
    rw [h1, d6, p6]
    simp only [waitActs, List.append_assoc, List.singleton_append, List.cons_append,
      List.nil_append]

theorem pollCount_waitActs (q n : Nat) : pollCount (waitActs q n) = n := by
  induction n with
  | zero => rfl
  | succ n ih =>
    simp only [pollCount] at ih
    simp only [pollCount, waitActs, List.count_cons, ih, beq_self_eq_true, if_true]
    simp

/-- C5 as stated fails: in the BLINK gap loop (25 ms quanta, three rounds) with the
button flag becoming true during the first quantum (N = 1), the wait ends cancelled
after two polls of the receive queue, not one. -/
theorem C5_counterexample_one_quantum_two_polls :
    btn blinkCancelExample = false ∧
    btn (pollShell blinkCancelExample) = false ∧
    btn (delay_us 25000 (pollShell blinkCancelExample)) = true ∧
    btn (waitLoop btn 25000 3 blinkCancelExample) = true ∧
    (waitLoop btn 25000 3 blinkCancelExample).log
      = [Act.poll, Act.delay 25000, Act.poll] ∧
    pollCount (waitLoop btn 25000 3 blinkCancelExample).log = 2 ∧
    ¬ pollCount (waitLoop btn 25000 3 blinkCancelExample).log = 1 := by
  decide

/-- C5, amended: cooperative delay-with-drain. Take any wait loop of the animation
engine (cancelled by the button flag alone, or by the flag or a change of the active
mode), of `n` rounds with quantum `q`, started with no press pending and no serial
traffic, and let the button flag become true during the `N`-th quantum, `1 ≤ N ≤ n`.
Then the wait ends cancelled after exactly `N` quanta, and the drain step
(one `UART_ReceiveChar` poll) has run `N + 1` times when `N < n` (the loop polls once
more before it tests the flag) and `N` times when `N = n`. -/
theorem C5_wait_cancelled_drain_count (cancel : State → Bool) (q n N : Nat) (s : State)
    (rest : List Irq) (hcancel : cancel = btn ∨ cancel = btnOrMode s.led_auto_mode)
    (hN : 1 ≤ N) (hNn : N ≤ n) (hh : s.halted = false) (hb : s.button_interrupt_flag = 0)
    (hrx : s.rx.uart_rx_head = s.rx.uart_rx_tail)
    (henv : s.env = List.replicate (N - 1) quietIrq ++ { button := true, bytes := [] } :: rest) :
    cancel (waitLoop cancel q n s) = true ∧
    (waitLoop cancel q n s).log
      = s.log ++ (waitActs q N ++ (if N < n then [Act.poll] else [])) ∧
    pollCount ((waitLoop cancel q n s).log.drop s.log.length)
      = (if N < n then N + 1 else N) := by
  have hc : ∀ t : State, t.led_auto_mode = s.led_auto_mode → cancel t = btn t := by
    intro t ht
    rcases hcancel with h | h
    · rw [h]
    · rw [h]
      simp only [btnOrMode, ht, ne_eq, not_true_eq_false, decide_False, Bool.or_false]
  obtain ⟨m, hm⟩ : ∃ m, n = (N - 1) + 1 + m := ⟨n - N, by omega⟩
  obtain ⟨h1, h2, h3⟩ := waitLoop_cancelled cancel q s.led_auto_mode hc (N - 1) m s rest hh hb
    hrx rfl henv
  have hN1 : N - 1 + 1 = N := by omega
  rw [← hm] at h1 h2 h3
  rw [hN1] at h1
  have hif : (if m = 0 then ([] : List Act) else [Act.poll])
      = (if N < n then [Act.poll] else []) := by
    by_cases h0 : m = 0
    · have : ¬ N < n := by omega
      simp only [h0, this, if_true, if_false]
    · have : N < n := by omega
      simp only [h0, this, if_true, if_false]
  rw [hif] at h1
  refine ⟨?_, h1, ?_⟩
  · rw [hc _ h3]
    simp only [btn, h2, ne_eq, one_ne_zero, not_false_eq_true, decide_True]
  · rw [h1, List.drop_left]
    have hw := pollCount_waitActs q N
    simp only [pollCount] at hw ⊢
    by_cases hlt : N < n
    · simp only [hlt, if_true, List.count_append, hw, List.count_singleton, beq_self_eq_true]
    · simp only [hlt, if_false, List.append_nil, hw]

theorem C5_wait_cancelled_drain_count_witness :
    btn (waitLoop btn 25000 3 blinkCancelExample) = true ∧
    (waitLoop btn 25000 3 blinkCancelExample).log
      = blinkCancelExample.log ++ (waitActs 25000 1 ++ (if 1 < 3 then [Act.poll] else [])) ∧
    pollCount ((waitLoop btn 25000 3 blinkCancelExample).log.drop blinkCancelExample.log.length)
      = (if 1 < 3 then 1 + 1 else 1) :=
  C5_wait_cancelled_drain_count btn 25000 3 1 blinkCancelExample [] (Or.inl rfl)
    (by decide) (by decide) rfl rfl rfl rfl

/-! ### The Morse table -/

theorem morseOf_large (c : Nat) (h : 123 ≤ c) : morseOf c = none := by
  have hu : toUpperCw c = c := by
    unfold toUpperCw
    rw [if_neg (by omega)]
  unfold morseOf
  rw [hu]
  unfold morse
  split <;> first | rfl | omega

set_option maxRecDepth 100000 in
theorem morseOf_small : ∀ c, c < 123 → morseOf c = intlMorse c := by
  decide

theorem morseOf_eq_intlMorse (c : Nat) : morseOf c = intlMorse c := by
  by_cases h : c < 123
  · exact morseOf_small c h
  · rw [morseOf_large c (by omega)]
    unfold intlMorse
    rw [if_neg (by omega), if_neg (by omega), if_neg (by omega)]

set_option maxRecDepth 100000 in
theorem morseOf_shape_small : ∀ c, c < 123 → ∀ m, morseOf c = some m →
    isMorseChar c = true ∧ 1 ≤ m.length ∧ m.length ≤ 5 ∧
      ∀ p ∈ m.toList, p = '.' ∨ p = '-' := by
  decide

theorem morseOf_shape (c : Nat) (m : String) (h : morseOf c = some m) :
    isMorseChar c = true ∧ 1 ≤ m.length ∧ m.length ≤ 5 ∧
      ∀ p ∈ m.toList, p = '.' ∨ p = '-' := by
  by_cases hc : c < 123
  · exact morseOf_shape_small c hc m h
  · rw [morseOf_large c (by omega)] at h
    cases h

set_option maxRecDepth 100000 in
theorem morseOf_known_small : ∀ c, c < 123 → isMorseChar c = true →
    (morseOf c).isSome = true ∧ morseOf c = morseOf (toUpperCw c) := by
  decide

theorem isMorseChar_lt (c : Nat) (h : isMorseChar c = true) : c < 123 := by
  simp only [isMorseChar, Bool.or_eq_true, Bool.and_eq_true, decide_eq_true_eq] at h
  omega

/-- C9: the Morse table of the CW mode. The lookup made for a message character
(upper-casing, then the `switch`) agrees with the International Morse code on every
character: each letter A-Z and digit 0-9 gets its code (S "...", O "---", 0 "-----",
9 "----."), a lower-case letter gets the code of its upper-case form, every code is a
non-empty string of at most five '.' and '-', and every other character gets no
code. -/
theorem C9_morse_table :
    (∀ c, morseOf c = intlMorse c) ∧
    (∀ c, 97 ≤ c ∧ c ≤ 122 → morseOf c = morseOf (c - 32)) ∧
    (∀ c, isMorseChar c = true → (morseOf c).isSome = true) ∧
    (∀ c m, morseOf c = some m →
      isMorseChar c = true ∧ 1 ≤ m.length ∧ m.length ≤ 5 ∧
        ∀ p ∈ m.toList, p = '.' ∨ p = '-') ∧
    (∀ c, isMorseChar c = false → morseOf c = none) ∧
    morseOf 83 = some "..." ∧ morseOf 79 = some "---" ∧
    morseOf 48 = some "-----" ∧ morseOf 57 = some "----." := by
  refine ⟨morseOf_eq_intlMorse, ?_, ?_, morseOf_shape, ?_, by decide, by decide, by decide,
    by decide⟩
  · intro c hc
    have h1 : isMorseChar c = true := by
      simp only [isMorseChar, Bool.or_eq_true, Bool.and_eq_true, decide_eq_true_eq]
      omega
    have h2 := (morseOf_known_small c (by omega) h1).2
    have h3 : toUpperCw c = c - 32 := by
      unfold toUpperCw
      rw [if_pos hc]
    rw [h2, h3]
  · intro c hc
    exact (morseOf_known_small c (isMorseChar_lt c hc) hc).1
  · intro c hc
    cases hm : morseOf c with
    | none => rfl
    | some m =>
      have := (morseOf_shape c m hm).1
      rw [hc] at this
      cases this

/-! ### The CW pass: from the code to its log -/

theorem Runs_cwWait (q n : Nat) {s : State} (h : Quiet s) (hm : s.led_auto_mode = 3) :
    Runs s (waitLoop (btnOrMode 3) q n s) (waitActs q n) :=
  Runs_waitLoop _ q n h (fun _ ht hf => btnOrMode_quiet 3 ht ((frame_mode hf).trans hm))

theorem Runs_mode {a b : State} {l : List Act} (h : Runs a b l) :
    b.led_auto_mode = a.led_auto_mode := frame_mode h.2.2.2

theorem Runs_cwElement (p : Char) {s : State} (h : Quiet s) (hm : s.led_auto_mode = 3) :
    Runs s (cwElement p s) (elementActs p) := by
  unfold cwElement elementActs
  by_cases hdit : p = '.'
  · simp only [hdit, if_true]
    have h1 := Runs_GPIO_SetPin 4 h
    have h2 := Runs_trans h1 (Runs_GPIO_SetPin 0 h1.1)
    have h3 := Runs_trans h2 (Runs_cwWait 25000 (100 / 25) h2.1 ((Runs_mode h2).trans hm))
    have h4 := Runs_trans h3 (Runs_GPIO_ClearPin 4 h3.1)
    have h5 := Runs_trans h4 (Runs_GPIO_ClearPin 0 h4.1)
    have h6 := Runs_trans h5 (Runs_cwWait 25000 (100 / 25) h5.1 ((Runs_mode h5).trans hm))
    exact h6
  · by_cases hdash : p = '-'
    · simp only [hdash, if_true, if_false, show ¬ ('-' = '.') by decide]
      have h1 := Runs_GPIO_SetPin 3 h
      have h2 := Runs_trans h1 (Runs_GPIO_SetPin 2 h1.1)
      have h2' := Runs_trans h2 (Runs_GPIO_SetPin 1 h2.1)
      have h3 := Runs_trans h2' (Runs_cwWait 25000 (3 * 100 / 25) h2'.1
        ((Runs_mode h2').trans hm))
      have h4 := Runs_trans h3 (Runs_GPIO_ClearPin 3 h3.1)
      have h5 := Runs_trans h4 (Runs_GPIO_ClearPin 2 h4.1)
      have h5' := Runs_trans h5 (Runs_GPIO_ClearPin 1 h5.1)
      have h6 := Runs_trans h5' (Runs_cwWait 25000 (100 / 25) h5'.1
        ((Runs_mode h5').trans hm))
      exact h6
    · simp only [hdit, hdash, if_false]
      exact Runs_cwWait 25000 (100 / 25) h hm

theorem Runs_cwSymbols (ps : List Char) {s : State} (h : Quiet s) (hm : s.led_auto_mode = 3) :
    Runs s (cwSymbols ps s) (symbolsActs ps) := by
  induction ps generalizing s with
  | nil => exact Runs_refl h
  | cons p ps ih =>
    have h1 := Runs_cwElement p h hm
    have hm1 := (Runs_mode h1).trans hm
    have h2 := Runs_trans h1 (ih h1.1 hm1)
    unfold cwSymbols
    simp only [btnOrMode_quiet 3 h hm, btnOrMode_quiet 3 h1.1 hm1, Bool.false_eq_true,
      if_false]
    exact h2

theorem Runs_cwChar (ch : Nat) {s : State} (h : Quiet s) (hm : s.led_auto_mode = 3) :
    Runs s (cwChar ch s).1 (charActs ch) ∧ (cwChar ch s).2 = false := by
  unfold cwChar charActs
  by_cases hsp : ch = 32
  · simp only [hsp, if_true]
    have h1 := Runs_cwWait 10000 (9 * 100 / 10) h hm
    exact ⟨h1, btnOrMode_quiet 3 h1.1 ((Runs_mode h1).trans hm)⟩
  · simp only [hsp, if_false]
    cases hmo : morseOf ch with
    | none => exact ⟨Runs_refl h, rfl⟩
    | some m =>
      have h1 := Runs_cwSymbols m.toList h hm
      have hm1 := (Runs_mode h1).trans hm
      have h2 := Runs_trans h1 (Runs_cwWait 25000 (4 * 100 / 25) h1.1 hm1)
      simp only [btnOrMode_quiet 3 h1.1 hm1, Bool.false_eq_true, if_false]
      exact ⟨h2, btnOrMode_quiet 3 h2.1 ((Runs_mode h2).trans hm)⟩

theorem cstr_drop_of_nul (arr : List Nat) (ci : Nat) (h : arr.getD ci 0 = 0) :
    cstr (arr.drop ci) = [] := by
  induction arr generalizing ci with
  | nil => simp [cstr]
  | cons a as ih =>
    cases ci with
    | zero =>
      simp only [List.getD_cons_zero] at h
      simp [cstr, h]
    | succ ci =>
      simp only [List.getD_cons_succ] at h
      simpa using ih ci h

theorem cstr_drop_of_char (arr : List Nat) (ci : Nat) (h : arr.getD ci 0 ≠ 0) :
    cstr (arr.drop ci) = arr.getD ci 0 :: cstr (arr.drop (ci + 1)) := by
  induction arr generalizing ci with
  | nil => simp at h
  | cons a as ih =>
    cases ci with
    | zero =>
      simp only [List.getD_cons_zero] at h
      simp [cstr, List.takeWhile_cons, h]
    | succ ci =>
      simp only [List.getD_cons_succ] at h
      simpa using ih ci h

theorem Runs_cw {a b : State} {l : List Act} (h : Runs a b l) :
    b.current_cw = a.current_cw :=
  show (frame b).current_cw = (frame a).current_cw from congrArg State.current_cw h.2.2.2

theorem Runs_cwChars (fuel : Nat) : ∀ (ci : Nat) {s : State}, Quiet s → s.led_auto_mode = 3 →
    s.current_cw.length < fuel + ci →
    Runs s (cwChars fuel ci s) (messageActs (cstr (s.current_cw.drop ci))) := by
  induction fuel with
  | zero =>
    intro ci s h hm hf
    have : s.current_cw.drop ci = [] := List.drop_eq_nil_of_le (by omega)
    rw [this]
    exact Runs_refl h
  | succ fuel ih =>
    intro ci s h hm hf
    unfold cwChars
    by_cases hz : s.current_cw.getD ci 0 = 0
    · simp only [hz, if_true]
      rw [cstr_drop_of_nul _ _ hz]
      exact Runs_refl h
    · simp only [hz, if_false]
      obtain ⟨h1, h2⟩ := Runs_cwChar (s.current_cw.getD ci 0) h hm
      simp only [h2, Bool.false_eq_true, if_false]
      rw [cstr_drop_of_char _ _ hz]
      have hcw := Runs_cw h1
      have h3 := ih (ci + 1) h1.1 ((Runs_mode h1).trans hm) (by rw [hcw]; omega)
      rw [hcw] at h3
      exact Runs_trans h1 h3

theorem Runs_cwStep {s : State} (h : Quiet s) (hm : s.led_auto_mode = 3)
    (hne : s.current_cw.getD 0 0 ≠ 0) :
    Runs s (cwStep s).1 (passActs (cstr s.current_cw)) ∧ (cwStep s).2 = false := by
  unfold cwStep passActs
  simp only [hne, if_false]
  have h1 := Runs_cwChars (s.current_cw.length + 1) 0 h hm (by omega)
  rw [List.drop_zero] at h1
  have h2 := Runs_trans h1 (Runs_cwWait 25000 (9 * 100 / 25) h1.1 ((Runs_mode h1).trans hm))
  exact ⟨h2, btn_quiet h2.1⟩

/-! ### The CW pass: from its log to the reference sequence -/

theorem ledTrace_append (leds : List Bool) (a b : List Act) :
    ledTrace leds (a ++ b) = ledTrace leds a ++ ledTrace (ledsAfter leds a) b := by
  induction a generalizing leds with
  | nil => rfl
  | cons x xs ih =>
    cases x <;> simp [ledTrace, ledsAfter, applyAct, ih]

theorem timeline_append (a b : List (List Bool × Nat)) :
    timeline (a ++ b) = timeline a ++ timeline b := by
  induction a with
  | nil => rfl
  | cons x xs ih =>
    obtain ⟨l, u⟩ := x
    simp [timeline, ih]

theorem refTimeline_append (a b : List (List Bool × Nat)) :
    refTimeline (a ++ b) = refTimeline a ++ refTimeline b := by
  induction a with
  | nil => rfl
  | cons x xs ih =>
    obtain ⟨l, u⟩ := x
    simp [refTimeline, ih]

/-- A list of logged calls that starts and ends with all LEDs off and shows the
reference sequence `r` in between. -/
theorem shows_append {a b : List Act} {ra rb : List (List Bool × Nat)}
    (ha : ledsAfter allOff a = allOff ∧ timeline (ledTrace allOff a) = refTimeline ra)
    (hb : ledsAfter allOff b = allOff ∧ timeline (ledTrace allOff b) = refTimeline rb) :
    ledsAfter allOff (a ++ b) = allOff ∧
      timeline (ledTrace allOff (a ++ b)) = refTimeline (ra ++ rb) := by
  refine ⟨by rw [ledsAfter_append, ha.1, hb.1], ?_⟩
  rw [ledTrace_append, timeline_append, refTimeline_append, ha.1, ha.2, hb.2]

set_option maxRecDepth 1000000 in
theorem shows_element (p : Char) (hp : p = '.' ∨ p = '-') :
    ledsAfter allOff (elementActs p) = allOff ∧
      timeline (ledTrace allOff (elementActs p)) = refTimeline (refElement p) := by
  rcases hp with rfl | rfl <;> decide

theorem shows_symbols (ps : List Char) (hp : ∀ p ∈ ps, p = '.' ∨ p = '-') :
    ledsAfter allOff (symbolsActs ps) = allOff ∧
      timeline (ledTrace allOff (symbolsActs ps)) = refTimeline (refElements ps) := by
  induction ps with
  | nil => exact ⟨rfl, rfl⟩
  | cons p ps ih =>
    exact shows_append (shows_element p (hp p (List.mem_cons_self _ _)))
      (ih (fun x hx => hp x (List.mem_cons_of_mem _ hx)))

set_option maxRecDepth 1000000 in
theorem shows_gaps :
    (ledsAfter allOff (waitActs 10000 90) = allOff ∧
      timeline (ledTrace allOff (waitActs 10000 90)) = refTimeline [(allOff, 9)]) ∧
    (ledsAfter allOff (waitActs 25000 16) = allOff ∧
      timeline (ledTrace allOff (waitActs 25000 16)) = refTimeline [(allOff, 4)]) ∧
    (ledsAfter allOff (waitActs 25000 36) = allOff ∧
      timeline (ledTrace allOff (waitActs 25000 36)) = refTimeline [(allOff, 9)]) := by
  decide

theorem shows_char (ch : Nat) :
    ledsAfter allOff (charActs ch) = allOff ∧
      timeline (ledTrace allOff (charActs ch)) = refTimeline (refChar ch) := by
  unfold charActs refChar
  by_cases hsp : ch = 32
  · simp only [hsp, if_true]
    exact shows_gaps.1
  · simp only [hsp, if_false]
    rw [← morseOf_eq_intlMorse]
    cases hmo : morseOf ch with
    | none => exact ⟨rfl, rfl⟩
    | some m =>
      exact shows_append (shows_symbols m.toList (morseOf_shape ch m hmo).2.2.2)
        shows_gaps.2.1

theorem shows_message (msg : List Nat) :
    ledsAfter allOff (messageActs msg) = allOff ∧
      timeline (ledTrace allOff (messageActs msg)) = refTimeline (refMessage msg) := by
  induction msg with
  | nil => exact ⟨rfl, rfl⟩
  | cons ch rest ih => exact shows_append (shows_char ch) ih

theorem shows_pass (msg : List Nat) :
    ledsAfter allOff (passActs msg) = allOff ∧
      timeline (ledTrace allOff (passActs msg)) = refTimeline (refPass msg) :=
  shows_append (shows_message msg) shows_gaps.2.2

theorem Runs_lcg {a b : State} {l : List Act} (h : Runs a b l) :
    b.lcg_state = a.lcg_state :=
  show (frame b).lcg_state = (frame a).lcg_state from congrArg State.lcg_state h.2.2.2

theorem modeStep_cw (s : State) (hm : s.led_auto_mode = 3) : modeStep s = cwStep s := by
  unfold modeStep
  rw [hm]
  rfl

theorem sosExample_quiet : Quiet sosExample :=
  ⟨rfl, rfl, rfl, fun _ h => by cases h⟩

theorem messageActs_append (a b : List Nat) :
    messageActs (a ++ b) = messageActs a ++ messageActs b := by
  induction a with
  | nil => rfl
  | cons x xs ih => simp [messageActs, ih]

theorem charActs_unsupported (c : Nat) (hc : isMorseChar c = false) (hsp : c ≠ 32) :
    charActs c = [] := by
  have hnone : morseOf c = none := by
    cases hm : morseOf c with
    | none => rfl
    | some m =>
      have := (morseOf_shape c m hm).1
      rw [hc] at this
      cases this
  unfold charActs
  rw [if_neg hsp, hnone]

theorem cstr_head_ne (arr : List Nat) (h : cstr arr ≠ []) : arr.getD 0 0 ≠ 0 := by
  intro h0
  have := cstr_drop_of_nul arr 0 h0
  rw [List.drop_zero] at this
  exact h this

theorem sosHashExample_quiet : Quiet sosHashExample :=
  ⟨rfl, rfl, rfl, fun _ h => by cases h⟩

/-- C19: wraparound-safe timer comparison. For every 32-bit last-toggle timestamp `t`
and every elapsed time `d` below 2^32 microseconds, with `now = (t + d) mod 2^32`, the
toggle condition of the manual-blink and debug-LED services (`now - t >= 500000` in
unsigned 32-bit arithmetic) holds exactly when `d >= 500000`, wrapped clock or not;
and `micros()` advances by 1000 per SysTick millisecond modulo 2^32, also across a
wrap of the counter. -/
theorem C19_wraparound_safe_compare (t d : Nat) (ht : t < 2 ^ 32) (hd : d < 2 ^ 32) :
    (blinkDue ((t + d) % 2 ^ 32) t = true ↔ 500000 ≤ d) ∧
    (∀ (s s' : State) (e : Nat), s'.systick_ms = (s.systick_ms + e) % 2 ^ 32 →
      micros s' = (micros s + e * 1000) % 2 ^ 32) := by
  constructor
  · simp only [blinkDue, ge_iff_le, decide_eq_true_eq]
    norm_num at ht hd ⊢
    omega
  · intro s s' e he
    simp only [micros, he]
    norm_num
    omega

theorem C19_wraparound_safe_compare_witness :
    (4294867296 : Nat) < 2 ^ 32 ∧ (600000 : Nat) < 2 ^ 32 ∧
    (blinkDue ((4294867296 + 600000) % 2 ^ 32) 4294867296 = true ↔ 500000 ≤ 600000) :=
  ⟨by norm_num, by norm_num,
    (C19_wraparound_safe_compare 4294867296 600000 (by norm_num) (by norm_num)).1⟩

/-! ### The fade loop of FADE -/

theorem Runs_fadeCycle (idx ton toff c : Nat) {s : State} (h : Quiet s) :
    Runs s (fadeCycle idx ton toff c s).1 (fadeCycleActs idx ton toff c) ∧
      (fadeCycle idx ton toff c s).2 = false := by
  unfold fadeCycle fadeCycleActs
  have h1 := Runs_GPIO_SetPin idx h
  have h2 := Runs_trans h1 (Runs_delay_us ton h1.1)
  have h3 := Runs_trans h2 (Runs_GPIO_ClearPin idx h2.1)
  by_cases hoff : toff > 0
  · have h4 := Runs_trans h3 (Runs_delay_us toff h3.1)
    by_cases hc : c % 3 = 0
    · have h5 := Runs_trans h4 (Runs_pollShell h4.1)
      simp only [hoff, hc, if_true]
      exact ⟨h5, btn_quiet h5.1⟩
    · simp only [hoff, hc, if_true, if_false, List.append_nil]
      exact ⟨h4, trivial⟩
  · by_cases hc : c % 3 = 0
    · have h5 := Runs_trans h3 (Runs_pollShell h3.1)
      simp only [hoff, hc, if_true, if_false, List.append_nil]
      exact ⟨h5, btn_quiet h5.1⟩
    · simp only [hoff, hc, if_false, List.append_nil]
      exact ⟨h3, trivial⟩

theorem Runs_fadeCycles (idx ton toff n : Nat) : ∀ (c : Nat) {s : State}, Quiet s →
    Runs s (fadeCycles idx ton toff n c s) (fadeCyclesActs idx ton toff n c) := by
  induction n with
  | zero => intro c s h; exact Runs_refl h
  | succ n ih =>
    intro c s h
    obtain ⟨h1, h2⟩ := Runs_fadeCycle idx ton toff c h
    unfold fadeCycles fadeCyclesActs
    simp only [h2, Bool.false_eq_true, if_false]
    exact Runs_trans h1 (ih (c + 1) h1.1)

theorem Runs_fadeSteps (idx k : Nat) : ∀ {s : State}, Quiet s →
    Runs s (fadeSteps idx k s) (fadeStepsActs idx k) := by
  induction k with
  | zero => intro s h; exact Runs_refl h
  | succ k ih =>
    intro s h
    have h1 := Runs_fadeCycles idx (fadeOnTime (k + 1)) (fadeOffTime (k + 1)) 15 0 h
    unfold fadeSteps fadeStepsActs
    simp only [fadeOnTime, fadeOffTime] at h1 ⊢
    simp only [btn_quiet h1.1, Bool.false_eq_true, if_false]
    exact Runs_trans h1 (ih h1.1)

/-- C12 as stated fails: the final step of the fade loop (`fade_step = 1`) drives the
LED for 50 of 1000 microseconds, a duty of 5 percent, not 0. -/
theorem C12_counterexample_final_duty :
    fadeOnTime 1 = 50 ∧ fadeOffTime 1 = 950 ∧ fadeDuty 1 = 5 ∧ ¬ fadeDuty 1 = 0 ∧
    (fadeSteps 3 1 sosExample).log.take 5
      = [Act.setPin 3, Act.delay 50, Act.clearPin 3, Act.delay 950, Act.poll] := by
  decide

/-- C12, amended: FADE fade-out. The fade loop, when not cancelled, runs its 20 steps
from `fade_step = 20` down to 1, each 15 PWM rounds of on-time `fade_step * 50` and
off-time `1000 - fade_step * 50` microseconds. The duty percentage (on-time over the
1000 microsecond carrier period) of step `fade_step` is `5 * fade_step`: it never
increases from one step to the next, and the final step has duty 5 percent. -/
theorem C12_fade_duty_steps (idx : Nat) (s : State) (hq : Quiet s) :
    (fadeSteps idx 20 s).log = s.log ++ fadeStepsActs idx 20 ∧
    (∀ k, 1 ≤ k → k ≤ 20 →
      fadeOnTime k + fadeOffTime k = 1000 ∧ fadeDuty k = 5 * k) ∧
    (∀ k, 1 ≤ k → k < 20 → fadeDuty k ≤ fadeDuty (k + 1)) ∧
    fadeDuty 1 = 5 := by
  have hd : ∀ k, 1 ≤ k → k ≤ 20 →
      fadeOnTime k + fadeOffTime k = 1000 ∧ fadeDuty k = 5 * k := by
    intro k h1 h20
    have hsum : fadeOnTime k + fadeOffTime k = 1000 := by
      simp only [fadeOnTime, fadeOffTime]
      omega
    refine ⟨hsum, ?_⟩
    simp only [fadeDuty, hsum]
    simp only [fadeOnTime]
    omega
  refine ⟨(Runs_fadeSteps idx 20 hq).2.1, hd, ?_, by decide⟩
  intro k h1 h20
  rw [(hd k h1 (by omega)).2, (hd (k + 1) (by omega) (by omega)).2]
  omega

theorem C12_fade_duty_steps_witness :
    Quiet sosExample ∧
    (fadeSteps 3 20 sosExample).log = sosExample.log ++ fadeStepsActs 3 20 ∧
    fadeDuty 1 = 5 :=
  ⟨sosExample_quiet, (C12_fade_duty_steps 3 sosExample sosExample_quiet).1,
    (C12_fade_duty_steps 3 sosExample sosExample_quiet).2.2.2⟩

/-! ### The chase of DISCO -/

theorem Runs_discoWait (q n : Nat) {s : State} (h : Quiet s) (hm : s.led_auto_mode = 6) :
    Runs s (waitLoop (btnOrMode 6) q n s) (waitActs q n) :=
  Runs_waitLoop _ q n h (fun _ ht hf => btnOrMode_quiet 6 ht ((frame_mode hf).trans hm))

theorem Runs_clearAllLeds {s : State} (h : Quiet s) :
    Runs s (clearAllLeds s)
      [Act.clearPin 0, Act.clearPin 1, Act.clearPin 2, Act.clearPin 3, Act.clearPin 4] := by
  have h0 := Runs_GPIO_ClearPin 0 h
  have h1 := Runs_trans h0 (Runs_GPIO_ClearPin 1 h0.1)
  have h2 := Runs_trans h1 (Runs_GPIO_ClearPin 2 h1.1)
  have h3 := Runs_trans h2 (Runs_GPIO_ClearPin 3 h2.1)
  exact Runs_trans h3 (Runs_GPIO_ClearPin 4 h3.1)

theorem Runs_discoChasePos (idx : Nat) {s : State} (h : Quiet s) (hm : s.led_auto_mode = 6) :
    Runs s (discoChasePos idx s).1 (chasePosActs idx) ∧ (discoChasePos idx s).2 = false := by
  unfold discoChasePos chasePosActs
  have h1 := Runs_clearAllLeds h
  have h2 := Runs_trans h1 (Runs_GPIO_SetPin idx h1.1)
  have h3 := Runs_trans h2 (Runs_discoWait 20000 4 h2.1 ((Runs_mode h2).trans hm))
  exact ⟨h3, btnOrMode_quiet 6 h3.1 ((Runs_mode h3).trans hm)⟩

theorem Runs_discoChaseRun (l : List Nat) : ∀ {s : State}, Quiet s → s.led_auto_mode = 6 →
    Runs s (discoChaseRun l s) (chaseRunActs l) := by
  induction l with
  | nil => intro s h _; exact Runs_refl h
  | cons idx rest ih =>
    intro s h hm
    obtain ⟨h1, h2⟩ := Runs_discoChasePos idx h hm
    unfold discoChaseRun chaseRunActs
    simp only [h2, Bool.false_eq_true, if_false]
    exact Runs_trans h1 (ih h1.1 ((Runs_mode h1).trans hm))

theorem Runs_discoChase {s : State} (h : Quiet s) (hm : s.led_auto_mode = 6) :
    Runs s (discoChase s) chaseActs := by
  have h1 := Runs_discoChaseRun [0, 1, 2, 3, 4] h hm
  have hm1 := (Runs_mode h1).trans hm
  have h2 := Runs_trans h1 (Runs_discoChaseRun [4, 3, 2, 1, 0] h1.1 hm1)
  unfold discoChase
  simp only [btnOrMode_quiet 6 h hm, btnOrMode_quiet 6 h1.1 hm1, Bool.false_eq_true, if_false]
  exact h2

set_option maxRecDepth 1000000 in
theorem chase_timeline_off :
    timeline (ledTrace allOff chaseActs) = chaseTimeline 80 chaseOrder := by
  decide

theorem chase_timeline (a b c d e : Bool) :
    timeline (ledTrace [a, b, c, d, e] chaseActs) = chaseTimeline 80 chaseOrder := by
  have hsplit : chaseActs
      = [Act.clearPin 0, Act.clearPin 1, Act.clearPin 2, Act.clearPin 3, Act.clearPin 4]
        ++ chaseActs.drop 5 := by decide
  have h1 : ∀ leds : List Bool, ledTrace leds
      [Act.clearPin 0, Act.clearPin 1, Act.clearPin 2, Act.clearPin 3, Act.clearPin 4] = [] :=
    fun _ => rfl
  have h2 : ledsAfter [a, b, c, d, e]
      [Act.clearPin 0, Act.clearPin 1, Act.clearPin 2, Act.clearPin 3, Act.clearPin 4]
        = allOff := rfl
  have h3 : ledsAfter allOff
      [Act.clearPin 0, Act.clearPin 1, Act.clearPin 2, Act.clearPin 3, Act.clearPin 4]
        = allOff := rfl
  have key : ledTrace [a, b, c, d, e] chaseActs = ledTrace allOff chaseActs := by
    rw [hsplit, ledTrace_append, ledTrace_append, h1, h1, h2, h3]
  rw [key]
  exact chase_timeline_off

theorem lcg_rand_quiet {s : State} (h : Quiet s) :
    Quiet (lcg_rand s) ∧ (lcg_rand s).log = s.log ∧ (lcg_rand s).leds = s.leds ∧
    (lcg_rand s).led_auto_mode = s.led_auto_mode ∧
    (lcg_rand s).lcg_state = lcgNext s.lcg_state := by
  rw [lcg_rand_running s h.1]
  exact ⟨⟨h.1, h.2.1, h.2.2.1, h.2.2.2⟩, rfl, rfl, rfl, rfl⟩

set_option maxRecDepth 1000000 in
/-- C16 as stated fails: in the DISCO chase each position is held for four quanta of
20 ms, 80 ms in all (the first position: LED1 set, four sleeps of 20000 microseconds,
then the pins are cleared for the next position), so the output trace is not the one
with 20 ms per position. -/
theorem C16_counterexample_position_held_80ms :
    lcgNext discoExample.lcg_state % 4 = 0 ∧
    (discoStep discoExample).1.log.take 15
      = [Act.clearPin 0, Act.clearPin 1, Act.clearPin 2, Act.clearPin 3, Act.clearPin 4,
         Act.setPin 0, Act.poll, Act.delay 20000, Act.poll, Act.delay 20000,
         Act.poll, Act.delay 20000, Act.poll, Act.delay 20000, Act.clearPin 0] ∧
    (timeline (ledTrace discoExample.leds (discoStep discoExample).1.log)).length = 800 ∧
    (chaseTimeline 20 chaseOrder).length = 200 ∧
    ¬ timeline (ledTrace discoExample.leds (discoStep discoExample).1.log)
        = chaseTimeline 20 chaseOrder := by
  decide

/-- C16, amended: DISCO chase sub-pattern. When the draw selects it and it is not
cancelled, the chase lights exactly one LED at a time, all others off, in the order
0,1,2,3,4 then 4,3,2,1,0, and holds each of the 10 positions for 80 ms (four polling
quanta of 20 ms). -/
theorem C16_disco_chase_trace (s : State) (hq : Quiet s) (hm : s.led_auto_mode = 6)
    (hsel : lcgNext s.lcg_state % 4 = 0) (hlen : s.leds.length = 5) :
    (discoStep s).2 = false ∧
    (discoStep s).1.log = s.log ++ chaseActs ∧
    timeline (ledTrace s.leds ((discoStep s).1.log.drop s.log.length))
      = chaseTimeline 80 chaseOrder := by
  obtain ⟨q1, l1, d1, m1, g1⟩ := lcg_rand_quiet hq
  have hr := Runs_discoChase q1 (m1.trans hm)
  have hstep : discoStep s = (discoChase (lcg_rand s), btn (discoChase (lcg_rand s))) := by
    unfold discoStep
    simp only [g1, hsel, if_true]
  have hlog : (discoStep s).1.log = s.log ++ chaseActs := by
    rw [hstep, hr.2.1, l1]
  refine ⟨by rw [hstep]; exact btn_quiet hr.1, hlog, ?_⟩
  rw [hlog, List.drop_left]
  match hl : s.leds, hlen with
  | [a, b, c, d, e], _ => exact chase_timeline a b c d e

theorem discoExample_quiet : Quiet discoExample :=
  ⟨rfl, rfl, rfl, fun _ h => by cases h⟩

theorem C16_disco_chase_trace_witness :
    Quiet discoExample ∧ discoExample.led_auto_mode = 6 ∧
    lcgNext discoExample.lcg_state % 4 = 0 ∧ discoExample.leds.length = 5 ∧
    (discoStep discoExample).1.log = discoExample.log ++ chaseActs ∧
    timeline (ledTrace discoExample.leds
        ((discoStep discoExample).1.log.drop discoExample.log.length))
      = chaseTimeline 80 chaseOrder :=
  ⟨discoExample_quiet, rfl, by decide, rfl,
    (C16_disco_chase_trace discoExample discoExample_quiet rfl (by decide) rfl).2.1,
    (C16_disco_chase_trace discoExample discoExample_quiet rfl (by decide) rfl).2.2⟩

/-! ### Quiet runs of ICIRCLE -/

theorem Runs_btnWait (q n : Nat) {s : State} (h : Quiet s) :
    Runs s (waitLoop btn q n s) (waitActs q n) :=
  Runs_waitLoop _ q n h (fun _ ht _ => btn_quiet ht)

theorem Runs_setAllLeds {s : State} (h : Quiet s) : Runs s (setAllLeds s) setAllActs := by
  have h0 := Runs_GPIO_SetPin 0 h
  have h1 := Runs_trans h0 (Runs_GPIO_SetPin 1 h0.1)
  have h2 := Runs_trans h1 (Runs_GPIO_SetPin 2 h1.1)
  have h3 := Runs_trans h2 (Runs_GPIO_SetPin 3 h2.1)
  exact Runs_trans h3 (Runs_GPIO_SetPin 4 h3.1)

theorem Runs_clearAll {s : State} (h : Quiet s) : Runs s (clearAllLeds s) clearAllActs :=
  Runs_clearAllLeds h

theorem Runs_phase {a b : State} {l : List Act} (h : Runs a b l) :
    b.circle_step = a.circle_step ∧ b.circle_forward = a.circle_forward ∧
    b.direction_counter = a.direction_counter ∧ b.speed_step = a.speed_step :=
  ⟨show (frame b).circle_step = (frame a).circle_step from congrArg State.circle_step h.2.2.2,
   show (frame b).circle_forward = (frame a).circle_forward from
     congrArg State.circle_forward h.2.2.2,
   show (frame b).direction_counter = (frame a).direction_counter from
     congrArg State.direction_counter h.2.2.2,
   show (frame b).speed_step = (frame a).speed_step from congrArg State.speed_step h.2.2.2⟩

theorem Runs_icircleBlinks (led n : Nat) : ∀ {s : State}, Quiet s →
    Runs s (icircleBlinks led n s) (icircleBlinksActs led n) := by
  induction n with
  | zero => intro s h; exact Runs_refl h
  | succ n ih =>
    intro s h
    have h1 := Runs_GPIO_SetPin led h
    have h2 := Runs_trans h1 (Runs_btnWait 10000 5 h1.1)
    have h3 := Runs_trans h2 (Runs_GPIO_ClearPin led h2.1)
    have h4 := Runs_trans h3 (Runs_btnWait 10000 3 h3.1)
    unfold icircleBlinks icircleBlinksActs
    simp only [btn_quiet h3.1, btn_quiet h4.1, Bool.false_eq_true, if_false]
    exact Runs_trans h4 (ih h4.1)

/-- The lit part of an ICIRCLE pass. -/
theorem Runs_icircleLit (d : Nat) {s : State} (h : Quiet s) :
    Runs s (waitLoop btn 10000 (d / 10)
        (GPIO_SetPin (if (clearAllLeds s).circle_forward then (clearAllLeds s).circle_step
          else 4 - (clearAllLeds s).circle_step) (clearAllLeds s)))
      (icircleLitActs (if s.circle_forward then s.circle_step else 4 - s.circle_step) d) := by
  have h1 := Runs_clearAll h
  obtain ⟨p1, p2, -, -⟩ := Runs_phase h1
  rw [p1, p2]
  have h2 := Runs_trans h1 (Runs_GPIO_SetPin
    (if s.circle_forward then s.circle_step else 4 - s.circle_step) h1.1)
  exact Runs_trans h2 (Runs_btnWait 10000 (d / 10) h2.1)

/-- The flash at a change of direction. -/
theorem Runs_icircleFlash {s : State} (h : Quiet s) :
    Runs s (waitLoop btn 10000 20 (clearAllLeds (waitLoop btn 10000 8 (setAllLeds s))))
      icircleFlashActs := by
  have h1 := Runs_setAllLeds h
  have h2 := Runs_trans h1 (Runs_btnWait 10000 8 h1.1)
  have h3 := Runs_trans h2 (Runs_clearAll h2.1)
  exact Runs_trans h3 (Runs_btnWait 10000 20 h3.1)

/-- An uncancelled ICIRCLE move: what it logs and how it advances the phase state. -/
theorem icircleMove_quiet (d : Nat) {s : State} (h : Quiet s) :
    (icircleMove d s).2 = false ∧ Quiet (icircleMove d s).1 ∧
    (icircleMove d s).1.log = s.log ++
      (icircleLitActs (if s.circle_forward then s.circle_step else 4 - s.circle_step) d ++
        if (s.circle_step + 1) % 5 = 0 ∧ 10 ≤ (s.direction_counter + 1) % 256
        then icircleFlashActs else []) ∧
    (icircleMove d s).1.leds = ledsAfter s.leds
      (icircleLitActs (if s.circle_forward then s.circle_step else 4 - s.circle_step) d ++
        if (s.circle_step + 1) % 5 = 0 ∧ 10 ≤ (s.direction_counter + 1) % 256
        then icircleFlashActs else []) ∧
    (icircleMove d s).1.led_auto_mode = s.led_auto_mode ∧
    (icircleMove d s).1.lcg_state = s.lcg_state ∧
    (icircleMove d s).1.circle_step = (s.circle_step + 1) % 5 ∧
    (icircleMove d s).1.direction_counter =
      (if (s.circle_step + 1) % 5 = 0 then
        (if 10 ≤ (s.direction_counter + 1) % 256 then 0 else (s.direction_counter + 1) % 256)
       else s.direction_counter) ∧
    (icircleMove d s).1.circle_forward =
      (if (s.circle_step + 1) % 5 = 0 ∧ 10 ≤ (s.direction_counter + 1) % 256
       then !s.circle_forward else s.circle_forward) ∧
    (icircleMove d s).1.speed_step =
      (if (s.circle_step + 1) % 5 = 0 ∧ 10 ≤ (s.direction_counter + 1) % 256
       then 0 else s.speed_step) := by
  have h3 := Runs_icircleLit d h
  obtain ⟨p1, p2, p3, p4⟩ := Runs_phase h3
  have pm := Runs_mode h3
  have pl := Runs_lcg h3
  unfold icircleMove
  dsimp only
  generalize waitLoop btn 10000 (d / 10)
        (GPIO_SetPin (if (clearAllLeds s).circle_forward then (clearAllLeds s).circle_step
          else 4 - (clearAllLeds s).circle_step) (clearAllLeds s)) = s3 at h3 p1 p2 p3 p4 pm pl
  obtain ⟨q3, l3, d3⟩ := And.intro h3.1 (And.intro h3.2.1 h3.2.2.1)
  simp only [btn_quiet q3, Bool.false_eq_true, if_false, live, q3.1, p1, p3, ge_iff_le]
  by_cases c1 : (s.circle_step + 1) % 5 = 0
  · by_cases c2 : 10 ≤ (s.direction_counter + 1) % 256
    · simp only [c1, c2, if_true, and_self]
      have q5 : Quiet
          { s3 with
            circle_step := 0
            circle_forward := !s3.circle_forward
            direction_counter := 0
            speed_step := 0
            halted := false } := ⟨rfl, q3.2.1, q3.2.2.1, q3.2.2.2⟩
      have h5 := Runs_icircleFlash q5
      obtain ⟨r1, r2, r3, r4⟩ := Runs_phase h5
      refine ⟨btn_quiet h5.1, h5.1, ?_, ?_, (Runs_mode h5).trans pm, (Runs_lcg h5).trans pl,
        r1, r3, r2.trans (congrArg (!·) p2), r4⟩
      · rw [h5.2.1, ← List.append_assoc]; exact congrArg (· ++ icircleFlashActs) l3
      · rw [h5.2.2.1, ledsAfter_append]; exact congrArg (ledsAfter · icircleFlashActs) d3
    · simp only [c1, c2, if_true, if_false, and_false]
      exact ⟨trivial, ⟨rfl, q3.2.1, q3.2.2.1, q3.2.2.2⟩, by rw [List.append_nil]; exact l3,
        by rw [List.append_nil]; exact d3, pm, pl, trivial, trivial, p2, p4⟩
  · simp only [c1, if_false, false_and]
    exact ⟨trivial, ⟨rfl, q3.2.1, q3.2.2.1, q3.2.2.2⟩, by rw [List.append_nil]; exact l3,
      by rw [List.append_nil]; exact d3, pm, pl, trivial, trivial, p2, p4⟩

theorem lcg_rand_phase {s : State} (h : s.halted = false) :
    (lcg_rand s).circle_step = s.circle_step ∧ (lcg_rand s).circle_forward = s.circle_forward ∧
    (lcg_rand s).direction_counter = s.direction_counter ∧
    (lcg_rand s).speed_step = s.speed_step := by
  rw [lcg_rand_running s h]
  exact ⟨rfl, rfl, rfl, rfl⟩

/-- An uncancelled ICIRCLE move after the run `pre` from `s` that kept the ring position,
the direction and the revolution counter. -/
theorem icircleMove_after (d : Nat) {s u : State} {pre : List Act} (hu : Quiet u)
    (hl : u.log = s.log ++ pre) (hd : u.leds = ledsAfter s.leds pre)
    (hm : u.led_auto_mode = s.led_auto_mode) (h1 : u.circle_step = s.circle_step)
    (h2 : u.circle_forward = s.circle_forward)
    (h3 : u.direction_counter = s.direction_counter) :
    (icircleMove d u).2 = false ∧ Quiet (icircleMove d u).1 ∧
    (icircleMove d u).1.log = s.log ++ (pre ++
      (icircleLitActs (if s.circle_forward then s.circle_step else 4 - s.circle_step) d ++
        if (s.circle_step + 1) % 5 = 0 ∧ 10 ≤ (s.direction_counter + 1) % 256
        then icircleFlashActs else [])) ∧
    (icircleMove d u).1.leds = ledsAfter s.leds (pre ++
      (icircleLitActs (if s.circle_forward then s.circle_step else 4 - s.circle_step) d ++
        if (s.circle_step + 1) % 5 = 0 ∧ 10 ≤ (s.direction_counter + 1) % 256
        then icircleFlashActs else [])) ∧
    (icircleMove d u).1.led_auto_mode = s.led_auto_mode ∧
    (icircleMove d u).1.circle_step = (s.circle_step + 1) % 5 ∧
    (icircleMove d u).1.direction_counter =
      (if (s.circle_step + 1) % 5 = 0 then
        (if 10 ≤ (s.direction_counter + 1) % 256 then 0 else (s.direction_counter + 1) % 256)
       else s.direction_counter) ∧
    (icircleMove d u).1.circle_forward =
      (if (s.circle_step + 1) % 5 = 0 ∧ 10 ≤ (s.direction_counter + 1) % 256
       then !s.circle_forward else s.circle_forward) ∧
    (icircleMove d u).1.speed_step =
      (if (s.circle_step + 1) % 5 = 0 ∧ 10 ≤ (s.direction_counter + 1) % 256
       then 0 else u.speed_step) := by
  obtain ⟨a1, a2, a3, a4, a5, -, a7, a8, a9, a10⟩ := icircleMove_quiet d hu
  rw [h1, h2, h3] at a3 a4 a9
  rw [h1] at a7
  rw [h1, h3] at a8 a10
  refine ⟨a1, a2, ?_, ?_, a5.trans hm, a7, a8, a9, a10⟩
  · rw [a3, hl, List.append_assoc]
  · rw [a4, hd, ← ledsAfter_append]

/-- An uncancelled ICIRCLE pass: what it logs and how it advances the phase state. -/
theorem icircleStep_quiet {s : State} (h : Quiet s) :
    (icircleStep s).2 = false ∧ Quiet (icircleStep s).1 ∧
    (icircleStep s).1.log = s.log ++ (icircleBlinkPart s.lcg_state ++
      (icircleLitActs (if s.circle_forward then s.circle_step else 4 - s.circle_step)
          (icircleBaseDelay s.speed_step) ++
        if (s.circle_step + 1) % 5 = 0 ∧ 10 ≤ (s.direction_counter + 1) % 256
        then icircleFlashActs else [])) ∧
    (icircleStep s).1.leds = ledsAfter s.leds (icircleBlinkPart s.lcg_state ++
      (icircleLitActs (if s.circle_forward then s.circle_step else 4 - s.circle_step)
          (icircleBaseDelay s.speed_step) ++
        if (s.circle_step + 1) % 5 = 0 ∧ 10 ≤ (s.direction_counter + 1) % 256
        then icircleFlashActs else [])) ∧
    (icircleStep s).1.led_auto_mode = s.led_auto_mode ∧
    (icircleStep s).1.circle_step = (s.circle_step + 1) % 5 ∧
    (icircleStep s).1.direction_counter =
      (if (s.circle_step + 1) % 5 = 0 then
        (if 10 ≤ (s.direction_counter + 1) % 256 then 0 else (s.direction_counter + 1) % 256)
       else s.direction_counter) ∧
    (icircleStep s).1.circle_forward =
      (if (s.circle_step + 1) % 5 = 0 ∧ 10 ≤ (s.direction_counter + 1) % 256
       then !s.circle_forward else s.circle_forward) ∧
    (icircleStep s).1.speed_step =
      (if (s.circle_step + 1) % 5 = 0 ∧ 10 ≤ (s.direction_counter + 1) % 256
       then 0 else if s.speed_step < 25 then (s.speed_step + 1) % 256 else s.speed_step) := by
  have hs1 : ∃ s1, (if s.speed_step < 25 then
        live (fun s => { s with speed_step := (s.speed_step + 1) % 256 }) s else s) = s1 ∧
      Quiet s1 ∧ s1.log = s.log ∧ s1.leds = s.leds ∧ s1.led_auto_mode = s.led_auto_mode ∧
      s1.circle_step = s.circle_step ∧ s1.circle_forward = s.circle_forward ∧
      s1.direction_counter = s.direction_counter ∧ s1.lcg_state = s.lcg_state ∧
      s1.speed_step = (if s.speed_step < 25 then (s.speed_step + 1) % 256 else s.speed_step) := by
    by_cases c : s.speed_step < 25
    · rw [if_pos c, if_pos c, live_running _ _ h.1]
      exact ⟨_, rfl, ⟨h.1, h.2.1, h.2.2.1, h.2.2.2⟩, rfl, rfl, rfl, rfl, rfl, rfl, rfl, rfl⟩
    · rw [if_neg c, if_neg c]
      exact ⟨_, rfl, h, rfl, rfl, rfl, rfl, rfl, rfl, rfl, rfl⟩
  obtain ⟨s1, e1, q1, l1, d1, m1, c1, f1, k1, g1, v1⟩ := hs1
  unfold icircleStep
  dsimp only
  rw [e1]
  have hd : (if s.speed_step < 25 then 100 - (s.speed_step + 1) % 256 * 3 else 25)
      = icircleBaseDelay s.speed_step := rfl
  rw [hd]
  obtain ⟨q2, l2, d2, m2, g2⟩ := lcg_rand_quiet q1
  obtain ⟨c2, f2, k2, v2⟩ := lcg_rand_phase q1.1
  rw [g2, g1]
  unfold icircleBlinkPart
  by_cases hb : lcgNext s.lcg_state % 8 = 0
  · simp only [hb, decide_True, if_true]
    obtain ⟨q3, l3, d3, m3, g3⟩ := lcg_rand_quiet q2
    obtain ⟨c3, f3, k3, v3⟩ := lcg_rand_phase q2.1
    rw [g3, g2, g1]
    have h4 := Runs_icircleBlinks (lcgNext (lcgNext s.lcg_state) % 5 % 256) 2 q3
    obtain ⟨c4, f4, k4, v4⟩ := Runs_phase h4
    rw [btn_quiet h4.1]
    simp only [Bool.false_eq_true, if_false]
    have := @icircleMove_after (icircleBaseDelay s.speed_step) s _ _ h4.1
      (by rw [h4.2.1, l3, l2, l1]) (by rw [h4.2.2.1, d3, d2, d1])
      ((Runs_mode h4).trans (m3.trans (m2.trans m1)))
      (c4.trans (c3.trans (c2.trans c1))) (f4.trans (f3.trans (f2.trans f1)))
      (k4.trans (k3.trans (k2.trans k1)))
    rw [v4, v3, v2, v1] at this
    exact this
  · simp only [hb, decide_False, Bool.false_eq_true, if_false]
    have := @icircleMove_after (icircleBaseDelay s.speed_step) s _ [] q2
      (by rw [l2, l1, List.append_nil]) (by rw [d2, d1]; rfl)
      (m2.trans m1) (c2.trans c1) (f2.trans f1) (k2.trans k1)
    rw [v2, v1] at this
    simpa only [List.nil_append] using this

theorem applyAct_length (leds : List Bool) (a : Act) : (applyAct leds a).length = leds.length := by
  cases a <;> simp only [applyAct, List.length_set]

theorem ledsAfter_length (acts : List Act) : ∀ leds : List Bool,
    (ledsAfter leds acts).length = leds.length := by
  induction acts with
  | nil => intro leds; rfl
  | cons a rest ih =>
    intro leds
    show (ledsAfter (applyAct leds a) rest).length = leds.length
    rw [ih, applyAct_length]

/-- Phase state after `n` uncancelled ICIRCLE passes from the initial phase state. -/
theorem icircleRun_phase (s : State) (hq : Quiet s) (h0 : s.circle_step = 0)
    (hf : s.circle_forward = true) (hd : s.direction_counter = 0) (hs : s.speed_step = 0)
    (n : Nat) :
    Quiet (icircleRun n s) ∧ (icircleRun n s).led_auto_mode = s.led_auto_mode ∧
    (icircleRun n s).leds.length = s.leds.length ∧
    (icircleRun n s).circle_step = n % 5 ∧
    (icircleRun n s).direction_counter = (n / 5) % 10 ∧
    (icircleRun n s).circle_forward = decide ((n / 50) % 2 = 0) ∧
    (icircleRun n s).speed_step = min (n % 50) 25 := by
  induction n with
  | zero => exact ⟨hq, rfl, rfl, h0, hd, hf, hs⟩
  | succ n ih =>
    obtain ⟨q, m, l, c, k, f, v⟩ := ih
    obtain ⟨-, b2, -, b4, b5, b6, b7, b8, b9⟩ := icircleStep_quiet q
    rw [c, k] at b7 b8 b9
    rw [c] at b6
    rw [f] at b8
    rw [v] at b9
    have hw : ((n % 5 + 1) % 5 = 0 ∧ 10 ≤ (n / 5 % 10 + 1) % 256) ↔ (n + 1) % 50 = 0 := by
      omega
    refine ⟨b2, b5.trans m, ?_, ?_, ?_, ?_, ?_⟩
    · show (icircleStep (icircleRun n s)).1.leds.length = s.leds.length
      rw [b4, ledsAfter_length, l]
    · show (icircleStep (icircleRun n s)).1.circle_step = (n + 1) % 5
      rw [b6]; omega
    · show (icircleStep (icircleRun n s)).1.direction_counter = (n + 1) / 5 % 10
      rw [b7]; split_ifs <;> omega
    · show (icircleStep (icircleRun n s)).1.circle_forward = decide ((n + 1) / 50 % 2 = 0)
      rw [b8]
      by_cases w : (n + 1) % 50 = 0
      · rw [if_pos (hw.2 w)]
        by_cases p : n / 50 % 2 = 0
        · have : ¬ (n + 1) / 50 % 2 = 0 := by omega
          simp only [p, this, decide_True, decide_False, Bool.not_true]
        · have : (n + 1) / 50 % 2 = 0 := by omega
          simp only [p, this, decide_True, decide_False, Bool.not_false]
      · rw [if_neg (fun x => w (hw.1 x))]
        have : (n + 1) / 50 % 2 = 0 ↔ n / 50 % 2 = 0 := by omega
        simp only [this]
    · show (icircleStep (icircleRun n s)).1.speed_step = min ((n + 1) % 50) 25
      rw [b9]
      by_cases w : (n + 1) % 50 = 0
      · rw [if_pos (hw.2 w), w]; rfl
      · rw [if_neg (fun x => w (hw.1 x))]
        split_ifs <;> omega

theorem clear_set_oneHot (leds : List Bool) (hl : leds.length = 5) (idx : Nat) :
    ledsAfter leds (clearAllActs ++ [Act.setPin idx]) = oneHot idx := by
  match leds, hl with
  | [_, _, _, _, _], _ => rfl

theorem icircleExample_quiet : Quiet icircleExample :=
  ⟨rfl, rfl, rfl, fun _ h => by cases h⟩

/-- C14: ICIRCLE direction reversal. From the initial phase state and with nothing
cancelling, pass `n + 1` is not cancelled; after `n` passes the ring position is `n % 5`
and the direction is forward exactly when `n / 50` is even, so the direction flips at the
end of pass `n + 1` exactly when `n + 1` is a multiple of 50 (10 revolutions of the
5-position ring); the pass clears all LEDs and sets the LED whose index is the ring position
when moving forward and 4 minus the ring position when moving backward, an index below 5,
so that exactly that LED is on during the wait. -/
theorem C14_icircle_direction_reversal (s : State) (hq : Quiet s) (h0 : s.circle_step = 0)
    (hf : s.circle_forward = true) (hd : s.direction_counter = 0) (hs : s.speed_step = 0)
    (hl : s.leds.length = 5) (n : Nat) :
    (icircleStep (icircleRun n s)).2 = false ∧
    (icircleRun n s).circle_step = n % 5 ∧
    (icircleRun n s).circle_forward = decide (n / 50 % 2 = 0) ∧
    ((icircleRun (n + 1) s).circle_forward ≠ (icircleRun n s).circle_forward
      ↔ (n + 1) % 50 = 0) ∧
    (if n / 50 % 2 = 0 then n % 5 else 4 - n % 5) < 5 ∧
    (icircleRun (n + 1) s).log = (icircleRun n s).log ++
      (icircleBlinkPart (icircleRun n s).lcg_state ++
        (icircleLitActs (if n / 50 % 2 = 0 then n % 5 else 4 - n % 5)
            (icircleBaseDelay (icircleRun n s).speed_step) ++
          if (n + 1) % 50 = 0 then icircleFlashActs else [])) ∧
    ledsAfter (icircleRun n s).leds (icircleBlinkPart (icircleRun n s).lcg_state ++
        (clearAllActs ++ [Act.setPin (if n / 50 % 2 = 0 then n % 5 else 4 - n % 5)]))
      = oneHot (if n / 50 % 2 = 0 then n % 5 else 4 - n % 5) := by
  obtain ⟨q, -, l, c, k, f, -⟩ := icircleRun_phase s hq h0 hf hd hs n
  obtain ⟨-, -, -, -, -, f1, -⟩ := icircleRun_phase s hq h0 hf hd hs (n + 1)
  obtain ⟨b1, -, b3, -⟩ := icircleStep_quiet q
  have hw : ((n % 5 + 1) % 5 = 0 ∧ 10 ≤ (n / 5 % 10 + 1) % 256) ↔ (n + 1) % 50 = 0 := by
    omega
  refine ⟨b1, c, f, ?_, by split_ifs <;> omega, ?_, ?_⟩
  · rw [f1, f]
    by_cases w : (n + 1) % 50 = 0
    · by_cases p : n / 50 % 2 = 0
      · have : ¬ (n + 1) / 50 % 2 = 0 := by omega
        simp only [p, this, w, decide_True, decide_False, ne_eq, Bool.false_eq_true,
          not_false_eq_true]
      · have : (n + 1) / 50 % 2 = 0 := by omega
        simp only [p, this, w, decide_True, decide_False, ne_eq, Bool.true_eq_false,
          not_false_eq_true]
    · have : (n + 1) / 50 % 2 = 0 ↔ n / 50 % 2 = 0 := by omega
      simp only [this, w, ne_eq, not_true_eq_false]
  · show (icircleStep (icircleRun n s)).1.log = _
    rw [b3, c, k, f]
    simp only [decide_eq_true_eq, hw]
  · rw [ledsAfter_append]
    exact clear_set_oneHot _ (by rw [ledsAfter_length, l, hl]) _

theorem C14_icircle_direction_reversal_witness :
    Quiet icircleExample ∧ icircleExample.circle_step = 0 ∧
    icircleExample.circle_forward = true ∧ icircleExample.direction_counter = 0 ∧
    icircleExample.speed_step = 0 ∧ icircleExample.leds.length = 5 ∧
    (icircleRun 49 icircleExample).circle_step = 4 ∧
    (icircleRun 49 icircleExample).circle_forward = true ∧
    ((icircleRun 50 icircleExample).circle_forward
        ≠ (icircleRun 49 icircleExample).circle_forward ↔ (49 + 1) % 50 = 0) :=
  ⟨icircleExample_quiet, rfl, rfl, rfl, rfl, rfl,
    (C14_icircle_direction_reversal icircleExample icircleExample_quiet rfl rfl rfl rfl rfl
      49).2.1,
    (C14_icircle_direction_reversal icircleExample icircleExample_quiet rfl rfl rfl rfl rfl
      49).2.2.1,
    (C14_icircle_direction_reversal icircleExample icircleExample_quiet rfl rfl rfl rfl rfl
      49).2.2.2.1⟩

theorem delayTotal_waitActs (q n : Nat) : delayTotal (waitActs q n) = q * n := by
  induction n with
  | zero => rfl
  | succ n ih =>
    show q + delayTotal (waitActs q n) = q * (n + 1)
    rw [ih, Nat.mul_succ, Nat.add_comm]

theorem delayTotal_icircleLitActs (idx d : Nat) :
    delayTotal (icircleLitActs idx d) = 10000 * (d / 10) := by
  show delayTotal (waitActs 10000 (d / 10)) = 10000 * (d / 10)
  exact delayTotal_waitActs 10000 (d / 10)

/-- C15 as stated fails: on the first ICIRCLE pass after start-up the per-step delay is
97 ms, not 100 ms (`speed_step` is incremented before `base_delay` is computed), and the
LED is lit for 9 quanta of 10 ms, 90 ms, not for the per-step delay. -/
theorem C15_counterexample_first_step :
    icircleBaseDelay icircleExample.speed_step = 97 ∧
    (icircleStep icircleExample).2 = false ∧
    (icircleStep icircleExample).1.log
      = icircleBlinkPart icircleExample.lcg_state ++
          (clearAllActs ++ [Act.setPin 0] ++ waitActs 10000 9) ∧
    delayTotal (waitActs 10000 9) = 90000 := by
  decide

/-- C15, amended: ICIRCLE acceleration. From the initial phase state and with nothing
cancelling, the per-step delay of pass `n + 1` (`n % 50` passes after the last direction
reset) is at most 100 ms, decreases by 3 ms from one pass to the next during the first
25 passes after the reset, is never below 25 ms and is exactly 25 ms from the 25th pass
onward; the pass waits with the LED lit for that delay rounded down to a whole number of
10 ms quanta. -/
theorem C15_icircle_step_delay (s : State) (hq : Quiet s) (h0 : s.circle_step = 0)
    (hf : s.circle_forward = true) (hd : s.direction_counter = 0) (hs : s.speed_step = 0)
    (n : Nat) :
    (icircleRun (n + 1) s).log = (icircleRun n s).log ++
      (icircleBlinkPart (icircleRun n s).lcg_state ++
        (icircleLitActs (if n / 50 % 2 = 0 then n % 5 else 4 - n % 5)
            (icircleBaseDelay (icircleRun n s).speed_step) ++
          if (n + 1) % 50 = 0 then icircleFlashActs else [])) ∧
    icircleBaseDelay (icircleRun n s).speed_step ≤ 100 ∧
    25 ≤ icircleBaseDelay (icircleRun n s).speed_step ∧
    (24 ≤ n % 50 → icircleBaseDelay (icircleRun n s).speed_step = 25) ∧
    (n % 50 < 24 → icircleBaseDelay (icircleRun (n + 1) s).speed_step + 3
      = icircleBaseDelay (icircleRun n s).speed_step) ∧
    delayTotal (icircleLitActs (if n / 50 % 2 = 0 then n % 5 else 4 - n % 5)
        (icircleBaseDelay (icircleRun n s).speed_step))
      = 10000 * (icircleBaseDelay (icircleRun n s).speed_step / 10) := by
  obtain ⟨q, -, -, c, k, f, v⟩ := icircleRun_phase s hq h0 hf hd hs n
  obtain ⟨-, -, -, -, -, -, v1⟩ := icircleRun_phase s hq h0 hf hd hs (n + 1)
  obtain ⟨-, -, b3, -⟩ := icircleStep_quiet q
  have hw : ((n % 5 + 1) % 5 = 0 ∧ 10 ≤ (n / 5 % 10 + 1) % 256) ↔ (n + 1) % 50 = 0 := by
    omega
  have hD : ∀ j, icircleBaseDelay (min j 25) = 100 - 3 * min (j + 1) 25 := by
    intro j
    unfold icircleBaseDelay
    split_ifs <;> omega
  refine ⟨?_, ?_, ?_, ?_, ?_, delayTotal_icircleLitActs _ _⟩
  · show (icircleStep (icircleRun n s)).1.log = _
    rw [b3, c, k, f]
    simp only [decide_eq_true_eq, hw]
  · rw [v, hD]; omega
  · rw [v, hD]; omega
  · intro h; rw [v, hD]; omega
  · intro h; rw [v, v1, hD, hD]; omega

theorem C15_icircle_step_delay_witness :
    Quiet icircleExample ∧ icircleExample.circle_step = 0 ∧
    icircleExample.circle_forward = true ∧ icircleExample.direction_counter = 0 ∧
    icircleExample.speed_step = 0 ∧
    25 ≤ icircleBaseDelay (icircleRun 30 icircleExample).speed_step ∧
    (24 ≤ 30 % 50 → icircleBaseDelay (icircleRun 30 icircleExample).speed_step = 25) :=
  ⟨icircleExample_quiet, rfl, rfl, rfl, rfl,
    (C15_icircle_step_delay icircleExample icircleExample_quiet rfl rfl rfl rfl 30).2.2.1,
    (C15_icircle_step_delay icircleExample icircleExample_quiet rfl rfl rfl rfl 30).2.2.2.1⟩

/-! ### The `continue` statements of the main loop -/

theorem Tame_refl {b : Nat} {kc kl : Bool} (s : State) : Tame b kc kl s s :=
  ⟨⟨[], by simp, by simp⟩, fun _ => ⟨rfl, rfl, rfl, rfl⟩, fun _ => rfl, fun h => h, fun h => h⟩

theorem Tame_trans {b : Nat} {kc kl : Bool} {x y z : State} (h1 : Tame b kc kl x y)
    (h2 : Tame b kc kl y z) : Tame b kc kl x z := by
  obtain ⟨⟨l1, e1, n1⟩, c1, p1, w1, z1⟩ := h1
  obtain ⟨⟨l2, e2, n2⟩, c2, p2, w2, z2⟩ := h2
  refine ⟨⟨l1 ++ l2, by rw [e2, e1, List.append_assoc], ?_⟩, ?_, fun k => (p2 k).trans (p1 k),
    fun h => w2 (w1 h), fun h => z2 (z1 h)⟩
  · intro us hx
    rcases List.mem_append.mp hx with h | h
    · exact n1 us h
    · exact n2 us h
  · intro k
    obtain ⟨a1, a2, a3, a4⟩ := c1 k
    obtain ⟨b1, b2, b3, b4⟩ := c2 k
    exact ⟨b1.trans a1, b2.trans a2, b3.trans a3, b4.trans a4⟩

theorem Tame_mono {b b' : Nat} {kc kl : Bool} {s s' : State} (hb : b ≤ b')
    (h : Tame b kc kl s s') : Tame b' kc kl s s' := by
  obtain ⟨⟨l, e, n⟩, c, p, w, z⟩ := h
  exact ⟨⟨l, e, fun us hx => Nat.le_trans (n us hx) hb⟩, c, p, w, z⟩

theorem Tame_quiet {b : Nat} {kc kl : Bool} {s s' : State} (hlog : s'.log = s.log)
    (h1 : s'.circle_step = s.circle_step) (h2 : s'.circle_forward = s.circle_forward)
    (h3 : s'.direction_counter = s.direction_counter) (h4 : s'.speed_step = s.speed_step)
    (h5 : s'.last_blink_idx = s.last_blink_idx) (h6 : s'.current_cw = s.current_cw)
    (hs : Safe s → Safe s') : Tame b kc kl s s' :=
  ⟨⟨[], by simp [hlog], by simp⟩, fun _ => ⟨h1, h2, h3, h4⟩, fun _ => h5,
    fun h => by rw [h6]; exact h, hs⟩

theorem Tame_fields {b : Nat} {kc kl : Bool} {s s' : State} (hlog : s'.log = s.log)
    (h1 : s'.circle_step = s.circle_step) (h2 : s'.circle_forward = s.circle_forward)
    (h3 : s'.direction_counter = s.direction_counter) (h4 : s'.speed_step = s.speed_step)
    (h5 : s'.last_blink_idx = s.last_blink_idx) (h6 : s'.current_cw = s.current_cw)
    (h7 : s'.led_auto_mode = s.led_auto_mode) (h8 : s'.cli_index = s.cli_index)
    (h9 : s'.cli_buffer = s.cli_buffer) : Tame b kc kl s s' :=
  Tame_quiet hlog h1 h2 h3 h4 h5 h6 (fun h => by
    unfold Safe
    rw [h6, h7, h8, h9]
    exact h)

theorem Tame_live {b : Nat} {kc kl : Bool} {f : State → State}
    (h : ∀ s, Tame b kc kl s (f s)) (s : State) : Tame b kc kl s (live f s) := by
  unfold live
  split
  · exact Tame_refl s
  · exact h s

theorem Tame_live_step {b : Nat} {kc kl : Bool} {f : State → State} {a t : State}
    (h : ∀ s, Tame b kc kl s (f s)) (h0 : Tame b kc kl a t) : Tame b kc kl a (live f t) :=
  Tame_trans h0 (Tame_live h t)

theorem Tame_ite {b : Nat} {kc kl : Bool} {c : Prop} [Decidable c] {s x y : State}
    (hx : Tame b kc kl s x) (hy : Tame b kc kl s y) : Tame b kc kl s (if c then x else y) := by
  split
  · exact hx
  · exact hy

theorem Tame_act {b : Nat} {kc kl : Bool} (a : Act) (ha : ∀ us, a = Act.delay us → us ≤ b)
    (s : State) : Tame b kc kl s { s with log := s.log ++ [a] } :=
  ⟨⟨[a], rfl, fun us hx => ha us (List.mem_singleton.mp hx).symm⟩,
    fun _ => ⟨rfl, rfl, rfl, rfl⟩, fun _ => rfl, fun h => h, fun h => h⟩

theorem Tame_GPIO_SetPin {b : Nat} {kc kl : Bool} (i : Nat) (s : State) :
    Tame b kc kl s (GPIO_SetPin i s) := by
  unfold GPIO_SetPin
  apply Tame_live
  intro s
  exact ⟨⟨[Act.setPin i], rfl, fun us hx => by cases List.mem_singleton.mp hx⟩,
    fun _ => ⟨rfl, rfl, rfl, rfl⟩, fun _ => rfl, fun h => h, fun h => h⟩

theorem Tame_GPIO_ClearPin {b : Nat} {kc kl : Bool} (i : Nat) (s : State) :
    Tame b kc kl s (GPIO_ClearPin i s) := by
  unfold GPIO_ClearPin
  apply Tame_live
  intro s
  exact ⟨⟨[Act.clearPin i], rfl, fun us hx => by cases List.mem_singleton.mp hx⟩,
    fun _ => ⟨rfl, rfl, rfl, rfl⟩, fun _ => rfl, fun h => h, fun h => h⟩

theorem Tame_GPIO_TogglePin {b : Nat} {kc kl : Bool} (i : Nat) (s : State) :
    Tame b kc kl s (GPIO_TogglePin i s) := by
  unfold GPIO_TogglePin
  apply Tame_live
  intro s
  exact ⟨⟨[Act.togglePin i], rfl, fun us hx => by cases List.mem_singleton.mp hx⟩,
    fun _ => ⟨rfl, rfl, rfl, rfl⟩, fun _ => rfl, fun h => h, fun h => h⟩

theorem Tame_delay_us {b : Nat} {kc kl : Bool} {us : Nat} (h : us ≤ b) (s : State) :
    Tame b kc kl s (delay_us us s) := by
  unfold delay_us
  apply Tame_live
  intro s
  dsimp only
  cases s.env with
  | nil =>
    exact ⟨⟨[Act.delay us], rfl, fun v hx => by cases List.mem_singleton.mp hx; exact h⟩,
      fun _ => ⟨rfl, rfl, rfl, rfl⟩, fun _ => rfl, fun h => h, fun h => h⟩
  | cons e es =>
    exact ⟨⟨[Act.delay us], rfl, fun v hx => by cases List.mem_singleton.mp hx; exact h⟩,
      fun _ => ⟨rfl, rfl, rfl, rfl⟩, fun _ => rfl, fun h => h, fun h => h⟩

theorem Tame_clearAllLeds {b : Nat} {kc kl : Bool} (s : State) :
    Tame b kc kl s (clearAllLeds s) :=
  Tame_trans (Tame_trans (Tame_trans (Tame_trans (Tame_GPIO_ClearPin 0 s)
    (Tame_GPIO_ClearPin 1 _)) (Tame_GPIO_ClearPin 2 _)) (Tame_GPIO_ClearPin 3 _))
    (Tame_GPIO_ClearPin 4 _)

theorem Tame_setAllLeds {b : Nat} {kc kl : Bool} (s : State) :
    Tame b kc kl s (setAllLeds s) :=
  Tame_trans (Tame_trans (Tame_trans (Tame_trans (Tame_GPIO_SetPin 0 s)
    (Tame_GPIO_SetPin 1 _)) (Tame_GPIO_SetPin 2 _)) (Tame_GPIO_SetPin 3 _))
    (Tame_GPIO_SetPin 4 _)

theorem validCw_facts (msg : List Nat) (h : CLI_ValidateCW msg = true) :
    msg.length ≤ 20 ∧ ∀ c ∈ msg, c ≠ 0 := by
  unfold CLI_ValidateCW at h
  split at h
  · cases h
  · rename_i hl
    refine ⟨by simp only [CW_SLOT_LEN] at hl; omega, ?_⟩
    intro c hc hz
    have := List.all_eq_true.mp h c hc
    rw [hz] at this
    revert this
    decide

theorem cstr_strncpy_set (cur msg : List Nat) (hlen : msg.length ≤ 20)
    (hnz : ∀ c ∈ msg, c ≠ 0) :
    cstr ((strncpy cur msg CW_SLOT_LEN).set (CW_SLOT_LEN - 1) 0) = msg := by
  have hrep : List.replicate (21 - msg.length) 0
      = 0 :: List.replicate (20 - msg.length) 0 := by
    rw [show 21 - msg.length = (20 - msg.length) + 1 by omega, List.replicate_succ]
  have htake : (msg ++ 0 :: List.replicate (20 - msg.length) 0).take 21
      = msg ++ 0 :: List.replicate (20 - msg.length) 0 := by
    apply List.take_of_length_le
    simp only [List.length_append, List.length_cons, List.length_replicate]
    omega
  unfold strncpy
  simp only [CW_SLOT_LEN]
  rw [hrep, htake, List.append_assoc, List.set_append]
  rw [if_neg (by omega)]
  have hset : ∃ T, ((0 :: List.replicate (20 - msg.length) 0) ++ cur.drop 21).set
      (21 - 1 - msg.length) 0 = 0 :: T := by
    cases (21 - 1 - msg.length) with
    | zero => exact ⟨_, rfl⟩
    | succ k => exact ⟨_, rfl⟩
  obtain ⟨T, hT⟩ := hset
  rw [hT]
  unfold cstr
  rw [List.takeWhile_append_of_pos (fun c hc => by simpa using hnz c hc)]
  simp

theorem strncpy_length (cur msg : List Nat) (hc : cur.length = 21) (hm : msg.length ≤ 20) :
    (strncpy cur msg CW_SLOT_LEN).length = 21 := by
  unfold strncpy
  simp only [CW_SLOT_LEN, List.length_append, List.length_take, List.length_replicate,
    List.length_drop]
  omega

theorem getD_set_nul (l : List Nat) (h : 20 < l.length) :
    (l.set (CW_SLOT_LEN - 1) 0).getD 20 0 = 0 := by
  simp only [CW_SLOT_LEN, List.getD_eq_getElem?_getD]
  rw [List.getElem?_set_self (by simpa using h)]
  rfl

theorem Tame_set_cw {b : Nat} {kc kl : Bool} (msg : List Nat)
    (h : CLI_ValidateCW msg = true) (s : State) :
    Tame b kc kl s (live (fun s => { s with current_cw :=
      (strncpy s.current_cw msg CW_SLOT_LEN).set (CW_SLOT_LEN - 1) 0 }) s) := by
  apply Tame_live
  intro t
  obtain ⟨h1, h2⟩ := validCw_facts msg h
  refine ⟨⟨[], by simp, by simp⟩, fun _ => ⟨rfl, rfl, rfl, rfl⟩, fun _ => rfl, fun _ => ?_,
    fun hs => ⟨hs.1, ?_, ?_, hs.2.2.2.1, hs.2.2.2.2⟩⟩
  · show CLI_ValidateCW
      (cstr ((strncpy t.current_cw msg CW_SLOT_LEN).set (CW_SLOT_LEN - 1) 0)) = true
    rw [cstr_strncpy_set _ _ h1 h2]
    exact h
  · show ((strncpy t.current_cw msg CW_SLOT_LEN).set (CW_SLOT_LEN - 1) 0).length = 21
    rw [List.length_set]
    exact strncpy_length _ _ hs.2.1 h1
  · show ((strncpy t.current_cw msg CW_SLOT_LEN).set (CW_SLOT_LEN - 1) 0).getD 20 0 = 0
    exact getD_set_nul _ (by rw [strncpy_length _ _ hs.2.1 h1]; decide)

theorem Tame_eeprom_write_byte {b : Nat} {kc kl : Bool} (a d : Nat) (s : State) :
    Tame b kc kl s (eeprom_write_byte a d s).2 := by
  unfold eeprom_write_byte
  split
  · exact Tame_refl s
  · split
    · exact Tame_fields rfl rfl rfl rfl rfl rfl rfl rfl rfl rfl
    · exact Tame_refl s

theorem Tame_writeAll {b : Nat} {kc kl : Bool} (hb : 5000 ≤ b) (base : Nat) (bs : List Nat)
    (s : State) : Tame b kc kl s (writeAll base bs s) := by
  induction bs generalizing base s with
  | nil => exact Tame_refl s
  | cons x bs ih =>
    exact Tame_trans (Tame_trans (Tame_eeprom_write_byte base x s) (Tame_delay_us hb _))
      (ih _ _)

theorem Tame_initSlot {b : Nat} {kc kl : Bool} (hb : 5000 ≤ b) (base : Nat) (arr : List Nat)
    (n i : Nat) (s : State) : Tame b kc kl s (initSlot base arr n i s) := by
  induction n generalizing i s with
  | zero => exact Tame_refl s
  | succ n ih =>
    unfold initSlot
    dsimp only
    generalize (if i < (cstr arr).length then arr.getD i 0 else 0) = x
    have h1 : Tame b kc kl s (delay_us 5000 (eeprom_write_byte (base + i) x s).2) :=
      Tame_trans (Tame_eeprom_write_byte (base + i) x s) (Tame_delay_us hb _)
    by_cases hx : x = 0
    · simp only [hx, if_true] at h1 ⊢; exact h1
    · simp only [hx, if_false]; exact Tame_trans h1 (ih _ _)

theorem Tame_saveSlot {b : Nat} {kc kl : Bool} (hb : 5000 ≤ b) (base : Nat) (arr : List Nat)
    (n i : Nat) (s : State) : Tame b kc kl s (saveSlot base arr n i s).2 := by
  induction n generalizing i s with
  | zero => exact Tame_refl s
  | succ n ih =>
    unfold saveSlot
    dsimp only
    generalize (if i < (cstr arr).length then arr.getD i 0 else 0) = x
    have h0 : Tame b kc kl s (eeprom_write_byte (base + i) x s).2 :=
      Tame_eeprom_write_byte (base + i) x s
    by_cases hr : (eeprom_write_byte (base + i) x s).1 = false
    · simp only [hr, if_true]; exact h0
    · simp only [hr, if_false]
      by_cases hx : x = 0
      · simp only [hx, if_true] at h0 ⊢; exact Tame_trans h0 (Tame_delay_us hb _)
      · simp only [hx, if_false]
        exact Tame_trans (Tame_trans h0 (Tame_delay_us hb _)) (ih _ _)

theorem Tame_EEPROM_InitializeDefaults {b : Nat} {kc kl : Bool} (hb : 5000 ≤ b) (s : State) :
    Tame b kc kl s (EEPROM_InitializeDefaults s) := by
  unfold EEPROM_InitializeDefaults
  refine Tame_trans ?_ (Tame_initSlot hb _ _ _ _ _)
  refine Tame_trans ?_ (Tame_set_cw (str "SRAL") (by decide) _)
  refine Tame_trans ?_ (Tame_initSlot hb _ _ _ _ _)
  refine Tame_live_step (fun t => Tame_fields rfl rfl rfl rfl rfl rfl rfl rfl rfl rfl) ?_
  exact Tame_trans (Tame_trans (Tame_writeAll hb _ _ _) (Tame_writeAll hb _ _ _))
    (Tame_writeAll hb _ _ _)

theorem Tame_CLI_SaveConfig {b : Nat} {kc kl : Bool} (hb : 5000 ≤ b) (s : State) :
    Tame b kc kl s (CLI_SaveConfig s) := by
  unfold CLI_SaveConfig
  split
  · exact Tame_refl s
  · split
    · exact Tame_refl s
    · dsimp only
      split
      · exact Tame_saveSlot hb _ _ _ _ _
      · exact Tame_trans (Tame_saveSlot hb _ _ _ _ _) (Tame_saveSlot hb _ _ _ _ _)

theorem Tame_PWM {b : Nat} {kc kl : Bool} (channel duty : Nat) (s : State) :
    Tame b kc kl s (PWM_SetDutyCycle channel duty s) := by
  unfold PWM_SetDutyCycle
  split
  · split
    · exact Tame_GPIO_SetPin _ _
    · exact Tame_GPIO_ClearPin _ _
  · exact Tame_refl s

theorem Tame_cmdBlinkMode {b : Nat} {kc kl : Bool} (param : List Nat) (s : State) :
    Tame b kc kl s (cmdBlinkMode param s) := by
  unfold cmdBlinkMode
  dsimp only
  split
  · rename_i hr
    have h1 : Tame b kc kl s
        (live (fun s => { s with led_auto_mode := (atoi param).toNat }) s) := by
      apply Tame_live
      intro t
      exact Tame_quiet rfl rfl rfl rfl rfl rfl rfl (fun hs =>
        ⟨(by show (atoi param).toNat ≤ 6; omega), hs.2.1, hs.2.2.1, hs.2.2.2.1, hs.2.2.2.2⟩)
    have h2 := Tame_trans (Tame_trans (Tame_trans (Tame_trans (Tame_trans h1
      (Tame_PWM 1 0 _)) (Tame_PWM 2 0 _)) (Tame_PWM 3 0 _)) (Tame_PWM 4 0 _)) (Tame_PWM 5 0 _)
    split
    · refine Tame_trans h2 ?_
      apply Tame_live; intro s; exact Tame_fields rfl rfl rfl rfl rfl rfl rfl rfl rfl rfl
    · exact h2
  · exact Tame_refl s

theorem Tame_bledOffOne {b : Nat} {kc kl : Bool} (i : Nat) (s : State) :
    Tame b kc kl s (bledOffOne i s) := by
  unfold bledOffOne
  refine Tame_trans ?_ (Tame_PWM _ _ _)
  apply Tame_live; intro s; exact Tame_fields rfl rfl rfl rfl rfl rfl rfl rfl rfl rfl

theorem Tame_cmdBled {b : Nat} {kc kl : Bool} (param : List Nat) (s : State) :
    Tame b kc kl s (cmdBled param s) := by
  unfold cmdBled
  split
  · exact Tame_trans (Tame_trans (Tame_trans (Tame_trans (Tame_bledOffOne 0 s)
      (Tame_bledOffOne 1 _)) (Tame_bledOffOne 2 _)) (Tame_bledOffOne 3 _))
      (Tame_bledOffOne 4 _)
  · split
    · unfold CLI_StartLedBlink
      split
      · apply Tame_live; intro s; exact Tame_fields rfl rfl rfl rfl rfl rfl rfl rfl rfl rfl
      · exact Tame_refl s
    · exact Tame_refl s

theorem Tame_cmdCw {b : Nat} {kc kl : Bool} (hb : 5000 ≤ b) (arg : List Nat) (s : State) :
    Tame b kc kl s (cmdCw arg s) := by
  unfold cmdCw
  dsimp only
  split
  · rename_i h
    exact Tame_trans (Tame_set_cw _ h s) (Tame_CLI_SaveConfig hb _)
  · exact Tame_refl s

theorem Tame_cmdEewrite {b : Nat} {kc kl : Bool} (hb : 5000 ≤ b) (args : List Nat)
    (s : State) : Tame b kc kl s (cmdEewrite args s) := by
  unfold cmdEewrite
  split
  · dsimp only
    split
    · exact Tame_trans (Tame_eeprom_write_byte _ _ _) (Tame_delay_us hb _)
    · exact Tame_eeprom_write_byte _ _ _
  · exact Tame_refl s

theorem Tame_LED_SetMode {b : Nat} {kc kl : Bool} (mode : Nat) (s : State) :
    Tame b kc kl s (LED_SetMode mode s) := by
  unfold LED_SetMode
  apply Tame_live
  intro s
  dsimp only
  split_ifs <;> exact Tame_fields rfl rfl rfl rfl rfl rfl rfl rfl rfl rfl

theorem Tame_NVIC_SystemReset {b : Nat} {kc kl : Bool} (s : State) :
    Tame b kc kl s (NVIC_SystemReset s) := by
  unfold NVIC_SystemReset
  apply Tame_live; intro s; exact Tame_fields rfl rfl rfl rfl rfl rfl rfl rfl rfl rfl

theorem Tame_CLI_ParseCommand {b : Nat} {kc kl : Bool} (hb : 5000 ≤ b) (cmd : List Nat)
    (s : State) : Tame b kc kl s (CLI_ParseCommand cmd s) := by
  unfold CLI_ParseCommand
  repeat' (with_reducible apply Tame_ite)
  all_goals first
    | exact Tame_refl s
    | exact Tame_fields rfl rfl rfl rfl rfl rfl rfl rfl rfl rfl
    | exact Tame_NVIC_SystemReset s
    | exact Tame_cmdBlinkMode _ s
    | exact Tame_cmdBled _ s
    | exact Tame_cmdCw hb _ s
    | exact Tame_cmdEewrite hb _ s
    | exact Tame_trans (Tame_fields rfl rfl rfl rfl rfl rfl rfl rfl rfl rfl) (Tame_LED_SetMode _ _)
    | exact Tame_trans (Tame_fields rfl rfl rfl rfl rfl rfl rfl rfl rfl rfl) (Tame_CLI_SaveConfig hb _)
    | (refine Tame_live_step ?_ ?_
       · intro t; exact Tame_fields rfl rfl rfl rfl rfl rfl rfl rfl rfl rfl
       · exact Tame_ite (Tame_EEPROM_InitializeDefaults hb s) (Tame_refl s))

theorem trimLoop_length (e : Nat) : ∀ buf : List Nat, (trimLoop e buf).length = buf.length := by
  induction e with
  | zero => intro buf; rfl
  | succ e ih =>
    intro buf
    unfold trimLoop
    dsimp only
    split
    · rw [ih, List.length_set]
    · rfl

theorem Tame_CLI_ProcessChar {b : Nat} {kc kl : Bool} (hb : 5000 ≤ b) (c : Nat) (s : State) :
    Tame b kc kl s (CLI_ProcessChar c s) := by
  unfold CLI_ProcessChar
  apply Tame_live
  intro s
  refine Tame_trans (Tame_act (Act.feed c) (fun _ h => by cases h) s) ?_
  generalize ({ s with log := s.log ++ [Act.feed c] } : State) = s1
  dsimp only
  refine Tame_ite ?_ (Tame_ite ?_ (Tame_ite ?_ (Tame_refl _)))
  · refine Tame_live_step (fun t => Tame_quiet rfl rfl rfl rfl rfl rfl rfl (fun hs =>
      ⟨hs.1, hs.2.1, hs.2.2.1, Nat.zero_le _, hs.2.2.2.2⟩)) ?_
    have hset : Tame b kc kl s1 { s1 with cli_buffer := s1.cli_buffer.set s1.cli_index 0 } :=
      Tame_quiet rfl rfl rfl rfl rfl rfl rfl (fun hs =>
        ⟨hs.1, hs.2.1, hs.2.2.1, hs.2.2.2.1, (List.length_set _ _ _).trans hs.2.2.2.2⟩)
    refine Tame_trans hset ?_
    refine Tame_ite ?_ (Tame_refl _)
    refine Tame_trans ?_ (Tame_CLI_ParseCommand hb _ _)
    exact Tame_quiet rfl rfl rfl rfl rfl rfl rfl (fun hs =>
      ⟨hs.1, hs.2.1, hs.2.2.1, hs.2.2.2.1, (trimLoop_length _ _).trans hs.2.2.2.2⟩)
  · exact Tame_ite (Tame_quiet rfl rfl rfl rfl rfl rfl rfl (fun hs =>
      ⟨hs.1, hs.2.1, hs.2.2.1, Nat.le_trans (Nat.sub_le _ _) hs.2.2.2.1, hs.2.2.2.2⟩))
      (Tame_refl _)
  · split
    · rename_i hc
      exact Tame_quiet rfl rfl rfl rfl rfl rfl rfl (fun hs =>
        ⟨hs.1, hs.2.1, hs.2.2.1, Nat.succ_le_of_lt hc,
          (List.length_set _ _ _).trans hs.2.2.2.2⟩)
    · exact Tame_refl _

theorem Tame_pollShell {b : Nat} {kc kl : Bool} (hb : 5000 ≤ b) (s : State) :
    Tame b kc kl s (pollShell s) := by
  unfold pollShell
  apply Tame_live
  intro s
  refine Tame_trans (Tame_act Act.poll (fun _ h => by cases h) s) ?_
  dsimp only
  split
  · refine Tame_trans ?_ (Tame_CLI_ProcessChar hb _ _)
    exact Tame_fields rfl rfl rfl rfl rfl rfl rfl rfl rfl rfl
  · exact Tame_refl _

theorem Tame_waitLoop {b : Nat} {kc kl : Bool} (hb : 5000 ≤ b) (cancel : State → Bool)
    {q : Nat} (hq : q ≤ b) (n : Nat) (s : State) :
    Tame b kc kl s (waitLoop cancel q n s) := by
  induction n generalizing s with
  | zero => exact Tame_refl s
  | succ n ih =>
    unfold waitLoop
    dsimp only
    split
    · exact Tame_pollShell hb s
    · exact Tame_trans (Tame_trans (Tame_pollShell hb s) (Tame_delay_us hq _)) (ih _)

/-! ### The mode branches sleep at most 25 ms at a time -/

theorem Tame_lcg_rand {b : Nat} {kc kl : Bool} (s : State) : Tame b kc kl s (lcg_rand s) := by
  unfold lcg_rand
  apply Tame_live; intro s; exact Tame_fields rfl rfl rfl rfl rfl rfl rfl rfl rfl rfl

theorem Tame_pickStep {b : Nat} {kc : Bool} (s : State) : Tame b kc false s (pickStep s).2 := by
  unfold pickStep
  dsimp only
  refine Tame_live_step ?_ (Tame_lcg_rand s)
  intro t
  exact ⟨⟨[], by simp, by simp⟩, fun _ => ⟨rfl, rfl, rfl, rfl⟩, fun h => (by cases h),
    fun h => h, fun h => h⟩

theorem Tame_blinkStep {kc : Bool} (s : State) : Tame 25000 kc false s (blinkStep s).1 := by
  have hb : 5000 ≤ 25000 := by decide
  unfold blinkStep
  dsimp only
  split
  all_goals
    repeat' first
      | with_reducible exact Tame_pickStep _
      | omega
      | with_reducible refine Tame_trans ?_ (Tame_waitLoop hb _ ?_ _ _)
      | with_reducible refine Tame_trans ?_ (Tame_lcg_rand _)
      | with_reducible refine Tame_trans ?_ (Tame_GPIO_SetPin _ _)
      | with_reducible refine Tame_trans ?_ (Tame_GPIO_ClearPin _ _)

theorem Tame_fadeCycle {kc kl : Bool} (idx ton toff cycle : Nat) (hon : ton ≤ 25000)
    (hoff : toff ≤ 25000) (s : State) :
    Tame 25000 kc kl s (fadeCycle idx ton toff cycle s).1 := by
  have hb : 5000 ≤ 25000 := by decide
  unfold fadeCycle
  dsimp only
  split <;> split
  all_goals
    repeat' first
      | with_reducible exact Tame_refl _
      | with_reducible assumption
      | with_reducible refine Tame_trans ?_ (Tame_pollShell hb _)
      | with_reducible refine Tame_trans ?_ (Tame_GPIO_SetPin _ _)
      | with_reducible refine Tame_trans ?_ (Tame_GPIO_ClearPin _ _)
      | with_reducible refine Tame_trans ?_ (Tame_delay_us ?_ _)

theorem Tame_fadeCycles {kc kl : Bool} (idx ton toff : Nat) (hon : ton ≤ 25000)
    (hoff : toff ≤ 25000) (n : Nat) : ∀ (c : Nat) (s : State),
    Tame 25000 kc kl s (fadeCycles idx ton toff n c s) := by
  induction n with
  | zero => intro c s; exact Tame_refl s
  | succ n ih =>
    intro c s
    unfold fadeCycles
    dsimp only
    split
    · exact Tame_fadeCycle idx ton toff c hon hoff s
    · exact Tame_trans (Tame_fadeCycle idx ton toff c hon hoff s) (ih _ _)

theorem Tame_fadeSteps {kc kl : Bool} (idx : Nat) (k : Nat) : k ≤ 20 → ∀ s : State,
    Tame 25000 kc kl s (fadeSteps idx k s) := by
  induction k with
  | zero => intro _ s; exact Tame_refl s
  | succ k ih =>
    intro hk s
    unfold fadeSteps
    dsimp only
    have h1 : Tame 25000 kc kl s
        (fadeCycles idx ((k + 1) * 50) (1000 - (k + 1) * 50) 15 0 s) :=
      Tame_fadeCycles idx _ _ (by omega) (by omega) 15 0 s
    split
    · exact h1
    · exact Tame_trans h1 (ih (by omega) _)

theorem Tame_fadeStep {kc : Bool} (s : State) : Tame 25000 kc false s (fadeStep s).1 := by
  have hb : 5000 ≤ 25000 := by decide
  unfold fadeStep
  dsimp only
  split_ifs
  all_goals
    repeat' first
      | with_reducible exact Tame_pickStep _
      | omega
      | with_reducible refine Tame_trans ?_ (Tame_waitLoop hb _ ?_ _ _)
      | with_reducible refine Tame_trans ?_ (Tame_lcg_rand _)
      | with_reducible refine Tame_trans ?_ (Tame_GPIO_SetPin _ _)
      | with_reducible refine Tame_trans ?_ (Tame_GPIO_ClearPin _ _)
      | with_reducible refine Tame_trans ?_ (Tame_fadeSteps _ 20 (le_refl 20) _)

theorem Tame_cwElement {kc kl : Bool} (p : Char) (s : State) :
    Tame 25000 kc kl s (cwElement p s) := by
  have hb : 5000 ≤ 25000 := by decide
  unfold cwElement
  dsimp only
  split_ifs
  all_goals
    repeat' first
      | with_reducible exact Tame_refl _
      | omega
      | with_reducible refine Tame_trans ?_ (Tame_waitLoop hb _ ?_ _ _)
      | with_reducible refine Tame_trans ?_ (Tame_GPIO_SetPin _ _)
      | with_reducible refine Tame_trans ?_ (Tame_GPIO_ClearPin _ _)

theorem Tame_cwSymbols {kc kl : Bool} (ps : List Char) : ∀ s : State,
    Tame 25000 kc kl s (cwSymbols ps s) := by
  induction ps with
  | nil => intro s; exact Tame_refl s
  | cons p ps ih =>
    intro s
    unfold cwSymbols
    dsimp only
    split_ifs
    · exact Tame_refl s
    · exact Tame_cwElement p s
    · exact Tame_trans (Tame_cwElement p s) (ih _)

theorem Tame_cwChar {kc kl : Bool} (ch : Nat) (s : State) :
    Tame 25000 kc kl s (cwChar ch s).1 := by
  have hb : 5000 ≤ 25000 := by decide
  unfold cwChar
  split
  · exact Tame_waitLoop hb _ (by decide) _ _
  · split
    · exact Tame_refl s
    · dsimp only
      split
      · exact Tame_cwSymbols _ s
      · exact Tame_trans (Tame_cwSymbols _ s) (Tame_waitLoop hb _ (by decide) _ _)

theorem Tame_cwChars {kc kl : Bool} (fuel : Nat) : ∀ (ci : Nat) (s : State),
    Tame 25000 kc kl s (cwChars fuel ci s) := by
  induction fuel with
  | zero => intro ci s; exact Tame_refl s
  | succ fuel ih =>
    intro ci s
    unfold cwChars
    dsimp only
    split_ifs
    · exact Tame_refl s
    · exact Tame_cwChar _ s
    · exact Tame_trans (Tame_cwChar _ s) (ih _ _)

theorem Tame_cwStep {kc kl : Bool} (s : State) : Tame 25000 kc kl s (cwStep s).1 := by
  have hb : 5000 ≤ 25000 := by decide
  unfold cwStep
  split
  · exact Tame_waitLoop hb _ (by decide) _ _
  · exact Tame_trans (Tame_cwChars _ _ s) (Tame_waitLoop hb _ (by decide) _ _)

theorem Tame_strobePick {b : Nat} {kc kl : Bool} (n : Nat) : ∀ (active : List Bool) (s : State),
    Tame b kc kl s (strobePick n active s).2 := by
  induction n with
  | zero => intro active s; exact Tame_refl s
  | succ n ih =>
    intro active s
    unfold strobePick
    exact Tame_trans (Tame_lcg_rand s) (ih _ _)

theorem Tame_setActive {b : Nat} {kc kl : Bool} (active : List Bool) : ∀ (i : Nat) (s : State),
    Tame b kc kl s (setActive active i s) := by
  induction active with
  | nil => intro i s; exact Tame_refl s
  | cons a rest ih =>
    intro i s
    unfold setActive
    refine Tame_trans ?_ (ih _ _)
    split
    · exact Tame_GPIO_SetPin i s
    · exact Tame_refl s

theorem Tame_clearActive {b : Nat} {kc kl : Bool} (active : List Bool) :
    ∀ (i : Nat) (s : State), Tame b kc kl s (clearActive active i s) := by
  induction active with
  | nil => intro i s; exact Tame_refl s
  | cons a rest ih =>
    intro i s
    unfold clearActive
    refine Tame_trans ?_ (ih _ _)
    split
    · exact Tame_GPIO_ClearPin i s
    · exact Tame_refl s

theorem Tame_strobeFlashes {kc kl : Bool} (active : List Bool) (n : Nat) : ∀ s : State,
    Tame 25000 kc kl s (strobeFlashes active n s) := by
  have hb : 5000 ≤ 25000 := by decide
  induction n with
  | zero => intro s; exact Tame_refl s
  | succ n ih =>
    intro s
    unfold strobeFlashes
    dsimp only
    split_ifs
    all_goals
      repeat' first
        | with_reducible exact Tame_refl _
        | omega
        | with_reducible refine Tame_trans ?_ (ih _)
        | with_reducible refine Tame_trans ?_ (Tame_waitLoop hb _ ?_ _ _)
        | with_reducible refine Tame_trans ?_ (Tame_lcg_rand _)
        | with_reducible refine Tame_trans ?_ (Tame_setActive _ _ _)
        | with_reducible refine Tame_trans ?_ (Tame_clearActive _ _ _)

theorem Tame_strobeStep {kc kl : Bool} (s : State) : Tame 25000 kc kl s (strobeStep s).1 := by
  have hb : 5000 ≤ 25000 := by decide
  unfold strobeStep
  dsimp only
  split
  all_goals
    repeat' first
      | with_reducible exact Tame_refl _
      | omega
      | with_reducible refine Tame_trans ?_ (Tame_waitLoop hb _ ?_ _ _)
      | with_reducible refine Tame_trans ?_ (Tame_lcg_rand _)
      | with_reducible refine Tame_trans ?_ (Tame_strobeFlashes _ _ _)
      | with_reducible refine Tame_trans ?_ (Tame_strobePick _ _ _)

theorem Tame_icircleBlinks {kc kl : Bool} (led n : Nat) : ∀ s : State,
    Tame 25000 kc kl s (icircleBlinks led n s) := by
  have hb : 5000 ≤ 25000 := by decide
  induction n with
  | zero => intro s; exact Tame_refl s
  | succ n ih =>
    intro s
    unfold icircleBlinks
    dsimp only
    split_ifs
    all_goals
      repeat' first
        | with_reducible exact Tame_refl _
        | omega
        | with_reducible refine Tame_trans ?_ (ih _)
        | with_reducible refine Tame_trans ?_ (Tame_waitLoop hb _ ?_ _ _)
        | with_reducible refine Tame_trans ?_ (Tame_GPIO_SetPin _ _)
        | with_reducible refine Tame_trans ?_ (Tame_GPIO_ClearPin _ _)

theorem Tame_discoChasePos {kc kl : Bool} (idx : Nat) (s : State) :
    Tame 25000 kc kl s (discoChasePos idx s).1 := by
  have hb : 5000 ≤ 25000 := by decide
  unfold discoChasePos
  dsimp only
  repeat' first
    | with_reducible exact Tame_refl _
    | omega
    | with_reducible refine Tame_trans ?_ (Tame_waitLoop hb _ ?_ _ _)
    | with_reducible refine Tame_trans ?_ (Tame_GPIO_SetPin _ _)
    | with_reducible refine Tame_trans ?_ (Tame_clearAllLeds _)

theorem Tame_discoChaseRun {kc kl : Bool} (l : List Nat) : ∀ s : State,
    Tame 25000 kc kl s (discoChaseRun l s) := by
  induction l with
  | nil => intro s; exact Tame_refl s
  | cons idx rest ih =>
    intro s
    unfold discoChaseRun
    dsimp only
    split
    · exact Tame_discoChasePos idx s
    · exact Tame_trans (Tame_discoChasePos idx s) (ih _)

theorem Tame_discoChase {kc kl : Bool} (s : State) : Tame 25000 kc kl s (discoChase s) := by
  unfold discoChase
  dsimp only
  split_ifs
  · exact Tame_refl s
  · exact Tame_discoChaseRun _ s
  · exact Tame_trans (Tame_discoChaseRun _ s) (Tame_discoChaseRun _ _)

theorem Tame_discoRandomLeds {b : Nat} {kc kl : Bool} (n : Nat) : ∀ (i : Nat) (s : State),
    Tame b kc kl s (discoRandomLeds n i s) := by
  induction n with
  | zero => intro i s; exact Tame_refl s
  | succ n ih =>
    intro i s
    unfold discoRandomLeds
    dsimp only
    refine Tame_trans ?_ (ih _ _)
    split
    · exact Tame_trans (Tame_lcg_rand s) (Tame_GPIO_SetPin _ _)
    · exact Tame_trans (Tame_lcg_rand s) (Tame_GPIO_ClearPin _ _)

theorem Tame_discoBursts {kc kl : Bool} (n : Nat) : ∀ s : State,
    Tame 25000 kc kl s (discoBursts n s) := by
  have hb : 5000 ≤ 25000 := by decide
  induction n with
  | zero => intro s; exact Tame_refl s
  | succ n ih =>
    intro s
    unfold discoBursts
    dsimp only
    split
    · exact Tame_refl s
    · refine Tame_trans ?_ (ih _)
      refine Tame_trans ?_ (Tame_clearAllLeds _)
      refine Tame_trans ?_ (Tame_waitLoop hb _ (le_refl _) _ _)
      exact Tame_trans (Tame_discoRandomLeds 5 0 s) (Tame_lcg_rand _)

theorem Tame_discoPulse {kc kl : Bool} (n : Nat) : ∀ s : State,
    Tame 25000 kc kl s (discoPulse n s) := by
  have hb : 5000 ≤ 25000 := by decide
  induction n with
  | zero => intro s; exact Tame_refl s
  | succ n ih =>
    intro s
    unfold discoPulse
    dsimp only
    split
    · exact Tame_refl s
    · refine Tame_trans ?_ (ih _)
      repeat' first
        | with_reducible exact Tame_refl _
        | omega
        | with_reducible refine Tame_trans ?_ (Tame_waitLoop hb _ ?_ _ _)
        | with_reducible refine Tame_trans ?_ (Tame_setAllLeds _)
        | with_reducible refine Tame_trans ?_ (Tame_clearAllLeds _)

theorem Tame_discoPairs {kc kl : Bool} (n : Nat) : ∀ s : State,
    Tame 25000 kc kl s (discoPairs n s) := by
  have hb : 5000 ≤ 25000 := by decide
  induction n with
  | zero => intro s; exact Tame_refl s
  | succ n ih =>
    intro s
    unfold discoPairs
    dsimp only
    split
    · exact Tame_refl s
    · refine Tame_trans ?_ (ih _)
      repeat' first
        | with_reducible exact Tame_refl _
        | omega
        | with_reducible refine Tame_trans ?_ (Tame_waitLoop hb _ ?_ _ _)
        | with_reducible refine Tame_trans ?_ (Tame_GPIO_SetPin _ _)
        | with_reducible refine Tame_trans ?_ (Tame_GPIO_ClearPin _ _)
        | with_reducible refine Tame_trans ?_ (Tame_clearAllLeds _)

theorem Tame_discoStep {kc kl : Bool} (s : State) : Tame 25000 kc kl s (discoStep s).1 := by
  unfold discoStep
  dsimp only
  split_ifs
  · exact Tame_trans (Tame_lcg_rand s) (Tame_discoChase _)
  · exact Tame_trans (Tame_trans (Tame_lcg_rand s) (Tame_lcg_rand _)) (Tame_discoBursts _ _)
  · exact Tame_trans (Tame_lcg_rand s) (Tame_discoPulse _ _)
  · exact Tame_trans (Tame_lcg_rand s) (Tame_discoPairs _ _)

theorem Tame_nolog {b : Nat} {kl : Bool} {s s' : State} (hlog : s'.log = s.log)
    (h5 : s'.last_blink_idx = s.last_blink_idx) (h6 : s'.current_cw = s.current_cw)
    (h7 : s'.led_auto_mode = s.led_auto_mode) (h8 : s'.cli_index = s.cli_index)
    (h9 : s'.cli_buffer = s.cli_buffer) : Tame b false kl s s' :=
  ⟨⟨[], by simp [hlog], by simp⟩, fun h => (by cases h), fun _ => h5,
    fun h => by rw [h6]; exact h, fun h => by
      unfold Safe
      rw [h6, h7, h8, h9]
      exact h⟩

theorem Tame_icircleMove {kl : Bool} (d : Nat) (s : State) :
    Tame 25000 false kl s (icircleMove d s).1 := by
  have hb : 5000 ≤ 25000 := by decide
  have h3 : Tame 25000 false kl s (waitLoop btn 10000 (d / 10)
        (GPIO_SetPin (if (clearAllLeds s).circle_forward then (clearAllLeds s).circle_step
          else 4 - (clearAllLeds s).circle_step) (clearAllLeds s))) :=
    Tame_trans (Tame_trans (Tame_clearAllLeds s) (Tame_GPIO_SetPin _ _))
      (Tame_waitLoop hb _ (by decide) _ _)
  unfold icircleMove
  dsimp only
  generalize waitLoop btn 10000 (d / 10)
        (GPIO_SetPin (if (clearAllLeds s).circle_forward then (clearAllLeds s).circle_step
          else 4 - (clearAllLeds s).circle_step) (clearAllLeds s)) = s3 at h3
  have h4 : Tame 25000 false kl s
      (live (fun s => { s with circle_step := (s.circle_step + 1) % 5 }) s3) :=
    Tame_live_step (fun t => Tame_nolog rfl rfl rfl rfl rfl rfl) h3
  generalize live (fun s => { s with circle_step := (s.circle_step + 1) % 5 }) s3 = s4 at h4
  have h5 : Tame 25000 false kl s
      (live (fun s => { s with direction_counter := (s.direction_counter + 1) % 256 }) s4) :=
    Tame_live_step (fun t => Tame_nolog rfl rfl rfl rfl rfl rfl) h4
  generalize live (fun s => { s with direction_counter := (s.direction_counter + 1) % 256 })
    s4 = s5 at h5
  split_ifs
  · exact h3
  · refine Tame_trans ?_ (Tame_waitLoop hb _ (by decide) _ _)
    refine Tame_trans ?_ (Tame_clearAllLeds _)
    refine Tame_trans ?_ (Tame_waitLoop hb _ (by decide) _ _)
    refine Tame_trans ?_ (Tame_setAllLeds _)
    exact Tame_live_step (fun t => Tame_nolog rfl rfl rfl rfl rfl rfl) h5
  · exact h5
  · exact h4

theorem Tame_icircleStep {kl : Bool} (s : State) :
    Tame 25000 false kl s (icircleStep s).1 := by
  have h1 : Tame 25000 false kl s (if s.speed_step < 25 then
      live (fun s => { s with speed_step := (s.speed_step + 1) % 256 }) s else s) := by
    split
    · apply Tame_live; intro t; exact Tame_nolog rfl rfl rfl rfl rfl rfl
    · exact Tame_refl s
  unfold icircleStep
  dsimp only
  generalize (if s.speed_step < 25 then 100 - (s.speed_step + 1) % 256 * 3 else 25) = d
  generalize (if s.speed_step < 25 then
      live (fun s => { s with speed_step := (s.speed_step + 1) % 256 }) s else s) = s1 at h1
  have h2 : Tame 25000 false kl s (lcg_rand s1) := Tame_trans h1 (Tame_lcg_rand _)
  split_ifs
  · exact Tame_trans (Tame_trans h2 (Tame_lcg_rand _)) (Tame_icircleBlinks _ _ _)
  · exact Tame_trans (Tame_trans (Tame_trans h2 (Tame_lcg_rand _)) (Tame_icircleBlinks _ _ _))
      (Tame_icircleMove d _)
  · exact Tame_trans h2 (Tame_icircleMove d _)

theorem Tame_offStep {kc kl : Bool} (s : State) : Tame 50000 kc kl s (offStep s).1 :=
  Tame_trans (Tame_pollShell (by decide) s) (Tame_delay_us (le_refl _) _)

theorem Tame_serviceButton {kc kl : Bool} (s : State) :
    Tame 50000 kc kl s (serviceButton s) := by
  unfold serviceButton
  dsimp only
  split
  · have h : Tame 50000 kc kl s
        (live (fun s => if s.led_auto_mode ≥ 7 then { s with led_auto_mode := 0 } else s)
          (live (fun s => { s with led_auto_mode := ((s.led_auto_mode + 1) % 7) % 256 })
            (live (fun s => { s with button_interrupt_flag := 0 })
              (delay_us 50000 (live (fun s => { s with button_interrupt_flag := 0 }) s))))) := by
      refine Tame_live_step ?_ ?_
      · intro t; split
        · exact Tame_quiet rfl rfl rfl rfl rfl rfl rfl (fun hs =>
            ⟨Nat.zero_le _, hs.2.1, hs.2.2.1, hs.2.2.2.1, hs.2.2.2.2⟩)
        · exact Tame_refl t
      refine Tame_live_step (fun t => Tame_quiet rfl rfl rfl rfl rfl rfl rfl (fun hs =>
        ⟨(by show (t.led_auto_mode + 1) % 7 % 256 ≤ 6; omega), hs.2.1, hs.2.2.1, hs.2.2.2.1,
          hs.2.2.2.2⟩)) ?_
      refine Tame_live_step (fun t => Tame_fields rfl rfl rfl rfl rfl rfl rfl rfl rfl rfl) ?_
      refine Tame_trans ?_ (Tame_delay_us (le_refl _) _)
      apply Tame_live; intro t; exact Tame_fields rfl rfl rfl rfl rfl rfl rfl rfl rfl rfl
    split
    · exact Tame_trans h (Tame_clearAllLeds _)
    · exact h
  · exact Tame_refl s

theorem Tame_LED_Toggle {b : Nat} {kc kl : Bool} (s : State) :
    Tame b kc kl s (LED_Toggle s) := by
  unfold LED_Toggle
  apply Tame_live; intro t; exact Tame_fields rfl rfl rfl rfl rfl rfl rfl rfl rfl rfl

theorem Tame_set_blink_time {b : Nat} {kc kl : Bool} (i c : Nat) (s : State) :
    Tame b kc kl s
      (live (fun s => { s with led_blink_times := s.led_blink_times.set i c }) s) := by
  apply Tame_live; intro t; exact Tame_fields rfl rfl rfl rfl rfl rfl rfl rfl rfl rfl

theorem Tame_set_debug_time {b : Nat} {kc kl : Bool} (c : Nat) (s : State) :
    Tame b kc kl s (live (fun s => { s with debug_led_blink_time := c }) s) := by
  apply Tame_live; intro t; exact Tame_fields rfl rfl rfl rfl rfl rfl rfl rfl rfl rfl

theorem Tame_manualBlinkOne {b : Nat} {kc kl : Bool} (t i : Nat) (s : State) :
    Tame b kc kl s (manualBlinkOne t i s) := by
  unfold manualBlinkOne
  split
  · exact Tame_trans (Tame_GPIO_TogglePin i s) (Tame_set_blink_time i t _)
  · exact Tame_refl s

theorem Tame_secondaryService {b : Nat} {kc kl : Bool} (s : State) :
    Tame b kc kl s (secondaryService s) := by
  have h : Tame b kc kl s (manualBlinkOne (micros s) 4 (manualBlinkOne (micros s) 3
      (manualBlinkOne (micros s) 2 (manualBlinkOne (micros s) 1
        (manualBlinkOne (micros s) 0 s))))) :=
    Tame_trans (Tame_trans (Tame_trans (Tame_trans (Tame_manualBlinkOne _ 0 s)
      (Tame_manualBlinkOne _ 1 _)) (Tame_manualBlinkOne _ 2 _)) (Tame_manualBlinkOne _ 3 _))
      (Tame_manualBlinkOne _ 4 _)
  unfold secondaryService
  dsimp only
  split
  · exact Tame_trans (Tame_trans h (Tame_LED_Toggle _)) (Tame_set_debug_time _ _)
  · exact h

/-- Every mode branch sleeps at most 50 ms at a time, the animation branches at most
25 ms; the branches other than ICIRCLE leave its statics alone, the branches other than
BLINK and FADE leave the remembered pick alone. -/
theorem Tame_modeStep (s : State) :
    Tame (if 1 ≤ s.led_auto_mode ∧ s.led_auto_mode ≤ 6 then 25000 else 50000)
      (decide (s.led_auto_mode ≠ 5)) (decide (s.led_auto_mode ≠ 1 ∧ s.led_auto_mode ≠ 2))
      s (modeStep s).1 := by
  unfold modeStep
  by_cases m1 : s.led_auto_mode = 1
  · rw [if_pos m1, m1]; exact Tame_blinkStep s
  rw [if_neg m1]
  by_cases m2 : s.led_auto_mode = 2
  · rw [if_pos m2, m2]; exact Tame_fadeStep s
  rw [if_neg m2]
  by_cases m3 : s.led_auto_mode = 3
  · rw [if_pos m3, m3]; exact Tame_cwStep s
  rw [if_neg m3]
  by_cases m4 : s.led_auto_mode = 4
  · rw [if_pos m4, m4]; exact Tame_strobeStep s
  rw [if_neg m4]
  by_cases m5 : s.led_auto_mode = 5
  · rw [if_pos m5, m5]; exact Tame_icircleStep s
  rw [if_neg m5]
  by_cases m6 : s.led_auto_mode = 6
  · rw [if_pos m6, m6]; exact Tame_discoStep s
  rw [if_neg m6, if_neg (by omega)]
  exact Tame_offStep s

theorem Tame_mainIteration (s : State) :
    Tame 50000 (decide ((serviceButton s).led_auto_mode ≠ 5))
      (decide ((serviceButton s).led_auto_mode ≠ 1 ∧ (serviceButton s).led_auto_mode ≠ 2))
      s (mainIteration s) := by
  have h2 := Tame_trans (Tame_serviceButton s)
    (@Tame_mono _ 50000 _ _ _ _ (by split <;> omega) (Tame_modeStep (serviceButton s)))
  unfold mainIteration
  dsimp only
  split
  · exact h2
  · exact Tame_trans h2 (Tame_secondaryService _)

theorem Tame_buttonEvent (s : State) : Tame 50000 true true s (buttonEvent s) := by
  unfold buttonEvent
  refine Tame_trans ?_ (Tame_serviceButton _)
  exact Tame_fields rfl rfl rfl rfl rfl rfl rfl rfl rfl rfl

theorem Tame_buttonEvents (n : Nat) (s : State) :
    Tame 50000 true true s (buttonEvent^[n] s) := by
  induction n with
  | zero => exact Tame_refl s
  | succ n ih =>
    rw [Function.iterate_succ_apply']
    exact Tame_trans ih (Tame_buttonEvent _)

set_option maxRecDepth 100000 in
/-- C18 as stated fails: servicing a button event sleeps 50 ms in one `delay_us` call
(the debounce), and the OFF branch that follows sleeps 50 ms in one call as well. -/
theorem C18_counterexample_50ms_sleeps :
    Act.delay 50000 ∈ (serviceButton offSwitchExample).log ∧
    (serviceButton offSwitchExample).led_auto_mode = 0 ∧
    (modeStep (serviceButton offSwitchExample)).1.log.drop
        (serviceButton offSwitchExample).log.length
      = [Act.poll, Act.delay 50000] := by
  decide

/-- C18, amended: no single sleep of a pass of the main loop is longer than 50 ms: every
`delay_us` call logged during a pass (button service, mode branch with the shell commands
it runs, secondary service) has an argument of at most 50000, and every call logged
during the branch of an animation mode (modes 1 to 6) has an argument of at most 25000,
one polling quantum. -/
theorem C18_sleeps_bounded (s : State) :
    (∃ l, (mainIteration s).log = s.log ++ l ∧ ∀ us, Act.delay us ∈ l → us ≤ 50000) ∧
    (∃ l, (serviceButton s).log = s.log ++ l ∧ ∀ us, Act.delay us ∈ l → us ≤ 50000) ∧
    (∃ l, (modeStep s).1.log = s.log ++ l ∧ ∀ us, Act.delay us ∈ l →
      us ≤ if 1 ≤ s.led_auto_mode ∧ s.led_auto_mode ≤ 6 then 25000 else 50000) :=
  ⟨(Tame_mainIteration s).1, (@Tame_serviceButton true true s).1,
    (Tame_modeStep s).1⟩

theorem C18_sleeps_bounded_witness :
    ∃ l, (modeStep icircleExample).1.log = icircleExample.log ++ l ∧
      ∀ us, Act.delay us ∈ l →
        us ≤ if 1 ≤ icircleExample.led_auto_mode ∧ icircleExample.led_auto_mode ≤ 6
          then 25000 else 50000 :=
  (C18_sleeps_bounded icircleExample).2.2

/-! ### The stored CW message -/

theorem validCw_iff (msg : List Nat) : CLI_ValidateCW msg = true ↔ cwWellFormed msg := by
  unfold CLI_ValidateCW cwWellFormed
  simp only [CW_SLOT_LEN]
  constructor
  · intro h
    split at h
    · cases h
    · rename_i hl
      refine ⟨by omega, by omega, ?_⟩
      intro c hc
      have := List.all_eq_true.mp h c hc
      simp only [Bool.or_eq_true, Bool.and_eq_true, decide_eq_true_eq] at this
      omega
  · rintro ⟨h1, h2, h3⟩
    rw [if_neg (by omega)]
    apply List.all_eq_true.mpr
    intro c hc
    have := h3 c hc
    simp only [Bool.or_eq_true, Bool.and_eq_true, decide_eq_true_eq]
    omega

theorem Tame_processChars (cs : List Nat) : ∀ s : State,
    Tame 5000 true true s (cs.foldl (fun t c => CLI_ProcessChar c t) s) := by
  induction cs with
  | nil => intro s; exact Tame_refl s
  | cons c cs ih =>
    intro s
    exact Tame_trans (Tame_CLI_ProcessChar (le_refl _) c s) (ih _)

theorem Tame_mainIterations (n : Nat) (s : State) :
    Tame 50000 false false s (mainIteration^[n] s) := by
  induction n with
  | zero => exact Tame_refl s
  | succ n ih =>
    rw [Function.iterate_succ_apply']
    obtain ⟨a, -, -, w, z⟩ := Tame_mainIteration (mainIteration^[n] s)
    exact Tame_trans ih ⟨a, fun h => (by cases h), fun h => (by cases h), w, z⟩

/-! ### The `cw <msg>` command -/

/-- A command line that starts with `cw ` reaches the `cw <msg>` branch. -/
theorem parse_cw (arg : List Nat) (s : State) (h : s.awaiting_reset_confirmation = false) :
    CLI_ParseCommand (str "cw " ++ arg) s = cmdCw arg s := by
  have e : str "cw " ++ arg = 99 :: 119 :: 32 :: arg := rfl
  rw [e]
  unfold CLI_ParseCommand
  simp only [h, Bool.false_eq_true, if_false]
  have k : ∀ (x : String) (n : Nat), 2 ≤ n → (str x).take 2 ≠ [99, 119] →
      (List.take n (99 :: 119 :: 32 :: arg) = str x) = False := by
    intro x n hn hx
    apply eq_false
    intro he
    apply hx
    rw [← he, List.take_take, Nat.min_eq_left hn]
    rfl
  have k0 : ∀ (x : String), (str x).take 2 ≠ [99, 119] →
      ((99 :: 119 :: 32 :: arg) = str x) = False := by
    intro x hx
    apply eq_false
    intro he
    apply hx
    rw [← he]
    rfl
  have k1 : List.take 3 (99 :: 119 :: 32 :: arg) = str "cw " := rfl
  have k2 : List.drop 3 (99 :: 119 :: 32 :: arg) = arg := rfl
  simp only [k0 "help" (by decide),
    k0 "ver" (by decide),
    k0 "version" (by decide),
    k0 "pwr" (by decide),
    k0 "reset" (by decide),
    k0 "reboot" (by decide),
    k0 "restart" (by decide),
    k0 "callsign" (by decide),
    k0 "whoami" (by decide),
    k0 "who" (by decide),
    k0 "dmesg" (by decide),
    k0 "led on" (by decide),
    k0 "led off" (by decide),
    k0 "led blink" (by decide),
    k0 "blinkmode" (by decide),
    k0 "automode" (by decide),
    k0 "bm" (by decide),
    k0 "status" (by decide),
    k0 "uptime" (by decide),
    k0 "exit" (by decide),
    k0 "logout" (by decide),
    k0 "ls" (by decide),
    k0 "hostname" (by decide),
    k0 "cat" (by decide),
    k "setcall " 8 (by decide) (by decide),
    k "setnick " 8 (by decide) (by decide),
    k "blinkmode " 10 (by decide) (by decide),
    k "bm " 3 (by decide) (by decide),
    k "automode " 9 (by decide) (by decide),
    k "bled " 5 (by decide) (by decide),
    k "ls " 3 (by decide) (by decide),
    k "cat " 4 (by decide) (by decide),
    k1, k2, or_self, if_false, if_true,
    (eq_false (by decide) : (str "cw " = str "bm ") = False),
    (eq_false (by decide) : (str "cw " = str "ls ") = False)]

theorem cmdCw_rejected (arg : List Nat) (s : State)
    (h : CLI_ValidateCW (arg.dropWhile (fun c => c = 32)) = false) : cmdCw arg s = s := by
  unfold cmdCw
  simp only [h, Bool.false_eq_true, if_false]

/-- C21: `CLI_ValidateCW` accepts a string exactly when its length is between 1 and 20
and every character is an ASCII letter, a digit or a space; when it rejects the message
of a `cw <msg>` command (the text after `cw ` and any further spaces), the command
changes nothing: the stored message, and the whole state, stay as they were. -/
theorem C21_validate_cw_iff (msg arg : List Nat) (s : State) :
    (CLI_ValidateCW msg = true ↔
      (1 ≤ msg.length ∧ msg.length ≤ 20 ∧
        ∀ c ∈ msg, (65 ≤ c ∧ c ≤ 90) ∨ (97 ≤ c ∧ c ≤ 122) ∨ (48 ≤ c ∧ c ≤ 57) ∨ c = 32)) ∧
    (CLI_ValidateCW (arg.dropWhile (fun c => c = 32)) = false →
      cmdCw arg s = s ∧
      (s.awaiting_reset_confirmation = false →
        CLI_ParseCommand (str "cw " ++ arg) s = s)) := by
  refine ⟨validCw_iff msg, fun h => ⟨cmdCw_rejected arg s h, fun ha => ?_⟩⟩
  rw [parse_cw arg s ha]
  exact cmdCw_rejected arg s h

set_option maxRecDepth 100000 in
theorem C21_validate_cw_iff_witness :
    CLI_ValidateCW ((str " A#").dropWhile (fun c => c = 32)) = false ∧
    (State.init [] true []).awaiting_reset_confirmation = false ∧
    CLI_ParseCommand (str "cw " ++ str " A#") (State.init [] true []) = State.init [] true [] :=
  ⟨by decide, rfl,
    ((C21_validate_cw_iff [] (str " A#") (State.init [] true [])).2 (by decide)).2 rfl⟩

/-- C23: receive-queue accounting. In every state reached from the empty queue by
interrupts (`UART_IRQHandler`) and polls (`UART_ReceiveChar`), head and tail are below
128, `UART_Available` is the number of bytes stored and not yet returned, that number is
at most 127, and `UART_ReceiveChar` returns a byte exactly when `UART_Available` is not
zero; when it is zero the call returns nothing and leaves the queue as it is. -/
theorem C23_rx_queue_accounting (ops : List RxOp) :
    (rxRun ops).q.uart_rx_head < 128 ∧ (rxRun ops).q.uart_rx_tail < 128 ∧
    UART_Available (rxRun ops).q + (rxRun ops).delivered.length
      = (rxRun ops).accepted.length ∧
    UART_Available (rxRun ops).q ≤ UART_RX_BUFFER_SIZE - 1 ∧
    ((UART_ReceiveChar (rxRun ops).q).1.isSome = true ↔ UART_Available (rxRun ops).q ≠ 0) ∧
    (UART_Available (rxRun ops).q = 0 →
      UART_ReceiveChar (rxRun ops).q = (none, (rxRun ops).q)) := by
  obtain ⟨pend, hinv, hacc⟩ := rxRun_inv ops
  have hav := RxInv_available hinv
  have hp : pend.length < 128 := hinv.2.2.2.1
  refine ⟨hinv.2.1, hinv.2.2.1, ?_, ?_, ?_, ?_⟩
  · rw [hav, hacc, List.length_append, Nat.add_comm]
  · rw [hav]; simp only [UART_RX_BUFFER_SIZE]; omega
  · by_cases he : (rxRun ops).q.uart_rx_head = (rxRun ops).q.uart_rx_tail
    · obtain ⟨h1, h2⟩ := RxInv_recv_none hinv he
      rw [h1, hav, h2]
      simp
    · obtain ⟨b, rest, hb, h1, -⟩ := RxInv_recv_some hinv he
      rw [h1, hav, hb]
      simp
  · intro h0
    by_cases he : (rxRun ops).q.uart_rx_head = (rxRun ops).q.uart_rx_tail
    · exact (RxInv_recv_none hinv he).1
    · obtain ⟨b, rest, hb, -, -⟩ := RxInv_recv_some hinv he
      rw [hav, hb] at h0
      simp at h0

theorem C23_rx_queue_accounting_witness :
    UART_Available (rxRun [RxOp.irq 65, RxOp.recv]).q = 0 ∧
    UART_ReceiveChar (rxRun [RxOp.irq 65, RxOp.recv]).q
      = (none, (rxRun [RxOp.irq 65, RxOp.recv]).q) :=
  ⟨by decide, (C23_rx_queue_accounting [RxOp.irq 65, RxOp.recv]).2.2.2.2.2 (by decide)⟩

/-! ### The low bits of the generator -/

theorem lcgNext_mod2 (x : Nat) : lcgNext x % 2 = (x % 2 + 1) % 2 := by
  unfold lcgNext
  norm_num
  omega

theorem lcgNext_mod4 (x : Nat) : lcgNext x % 4 = (x % 4 + 3) % 4 := by
  unfold lcgNext
  norm_num
  omega

theorem lcgNext_mod8 (x : Nat) : lcgNext x % 8 = (5 * (x % 8) + 7) % 8 := by
  unfold lcgNext
  norm_num
  omega

theorem lcgIter_mod4 (k x : Nat) : lcgNext^[k] x % 4 = (x % 4 + 3 * k) % 4 := by
  induction k with
  | zero => simp
  | succ k ih =>
    rw [Function.iterate_succ_apply', lcgNext_mod4, ih]
    omega

theorem lcgIter_mod2 (k x : Nat) : lcgNext^[k] x % 2 = (x % 2 + k) % 2 := by
  induction k with
  | zero => simp
  | succ k ih =>
    rw [Function.iterate_succ_apply', lcgNext_mod2, ih]
    omega

/-! ### Quiet runs that draw from the generator -/

theorem Draws_of_Runs {a b : State} {l : List Act} (h : Runs a b l) : Draws a b l 0 :=
  ⟨h.1, h.2.1, h.2.2.1, Runs_mode h, Runs_lcg h⟩

theorem Draws_trans {a b c : State} {l1 l2 : List Act} {k1 k2 : Nat}
    (h1 : Draws a b l1 k1) (h2 : Draws b c l2 k2) : Draws a c (l1 ++ l2) (k1 + k2) := by
  obtain ⟨-, e1, d1, m1, g1⟩ := h1
  obtain ⟨q2, e2, d2, m2, g2⟩ := h2
  refine ⟨q2, by rw [e2, e1, List.append_assoc], by rw [d2, d1, ledsAfter_append],
    m2.trans m1, ?_⟩
  rw [g2, g1, Nat.add_comm, Function.iterate_add_apply]

theorem Draws_lcg_rand {s : State} (h : Quiet s) : Draws s (lcg_rand s) [] 1 := by
  obtain ⟨q1, l1, d1, m1, g1⟩ := lcg_rand_quiet h
  refine ⟨q1, ?_, d1, m1, ?_⟩
  · rw [l1, List.append_nil]
  · rw [Function.iterate_one]; exact g1

theorem Draws_cast {a b : State} {l l' : List Act} {k k' : Nat} (h : Draws a b l k)
    (hl : l = l') (hk : k = k') : Draws a b l' k' := by
  subst hl
  subst hk
  exact h

theorem Draws_discoRandomLeds (n : Nat) : ∀ (i : Nat) {s : State}, Quiet s →
    Draws s (discoRandomLeds n i s) (randomLedsActs n i s.lcg_state) n := by
  induction n with
  | zero => intro i s h; exact Draws_of_Runs (Runs_refl h)
  | succ n ih =>
    intro i s h
    have h1 := Draws_lcg_rand h
    have g1 : (lcg_rand s).lcg_state = lcgNext s.lcg_state := (lcg_rand_quiet h).2.2.2.2
    unfold discoRandomLeds randomLedsActs
    dsimp only
    rw [g1]
    by_cases c : lcgNext s.lcg_state % 2 = 0
    · simp only [c, if_true]
      have h2 := Runs_GPIO_SetPin i h1.1
      have h3 := ih (i + 1) h2.1
      rw [Runs_lcg h2, g1] at h3
      exact Draws_cast (Draws_trans (Draws_trans h1 (Draws_of_Runs h2)) h3) rfl (by omega)
    · simp only [c, if_false]
      have h2 := Runs_GPIO_ClearPin i h1.1
      have h3 := ih (i + 1) h2.1
      rw [Runs_lcg h2, g1] at h3
      exact Draws_cast (Draws_trans (Draws_trans h1 (Draws_of_Runs h2)) h3) rfl (by omega)

theorem Draws_discoBursts (n : Nat) : ∀ {s : State}, Quiet s → s.led_auto_mode = 6 →
    Draws s (discoBursts n s) (burstsActs n s.lcg_state) (6 * n) := by
  induction n with
  | zero => intro s h _; exact Draws_of_Runs (Runs_refl h)
  | succ n ih =>
    intro s h hm
    have h1 := Draws_discoRandomLeds 5 0 h
    have h2 : Draws s (lcg_rand (discoRandomLeds 5 0 s)) (randomLedsActs 5 0 s.lcg_state) 6 :=
      Draws_cast (Draws_trans h1 (Draws_lcg_rand h1.1)) (List.append_nil _) rfl
    have g2 : (lcg_rand (discoRandomLeds 5 0 s)).lcg_state = lcgNext^[6] s.lcg_state :=
      h2.2.2.2.2
    have m2 : (lcg_rand (discoRandomLeds 5 0 s)).led_auto_mode = 6 := h2.2.2.2.1.trans hm
    have h3 := Runs_discoWait 25000
      ((30 + (lcg_rand (discoRandomLeds 5 0 s)).lcg_state % 121) / 25) h2.1 m2
    have h4 := Runs_trans h3 (Runs_clearAll h3.1)
    have h5 := Draws_trans h2 (Draws_of_Runs h4)
    have g5 := h5.2.2.2.2
    have h6 := ih h5.1 (h5.2.2.2.1.trans hm)
    rw [g5] at h6
    have h7 := Draws_trans h5 h6
    unfold discoBursts burstsActs
    dsimp only
    rw [btnOrMode_quiet 6 h hm]
    simp only [Bool.false_eq_true, if_false]
    rw [g2] at h7 ⊢
    exact Draws_cast h7 (by simp only [List.append_assoc]) (by omega)

theorem Runs_discoPulse (n : Nat) : ∀ {s : State}, Quiet s → s.led_auto_mode = 6 →
    Runs s (discoPulse n s) (pulseActs n) := by
  induction n with
  | zero => intro s h _; exact Runs_refl h
  | succ n ih =>
    intro s h hm
    have h1 := Runs_setAllLeds h
    have h2 := Runs_trans h1 (Runs_discoWait 25000 6 h1.1 ((Runs_mode h1).trans hm))
    have h3 := Runs_trans h2 (Runs_clearAll h2.1)
    have h4 := Runs_trans h3 (Runs_discoWait 25000 3 h3.1 ((Runs_mode h3).trans hm))
    have h5 := Runs_trans h4 (ih h4.1 ((Runs_mode h4).trans hm))
    unfold discoPulse pulseActs
    dsimp only
    rw [btnOrMode_quiet 6 h hm]
    simp only [Bool.false_eq_true, if_false]
    exact h5

theorem Runs_discoPairs (n : Nat) : ∀ {s : State}, Quiet s → s.led_auto_mode = 6 →
    Runs s (discoPairs n s) (pairsActs n) := by
  induction n with
  | zero => intro s h _; exact Runs_refl h
  | succ n ih =>
    intro s h hm
    have a1 := Runs_clearAll h
    have a2 := Runs_trans a1 (Runs_GPIO_SetPin 0 a1.1)
    have a3 := Runs_trans a2 (Runs_GPIO_SetPin 2 a2.1)
    have a4 := Runs_trans a3 (Runs_discoWait 20000 3 a3.1 ((Runs_mode a3).trans hm))
    have a5 := Runs_trans a4 (Runs_GPIO_ClearPin 0 a4.1)
    have a6 := Runs_trans a5 (Runs_GPIO_ClearPin 2 a5.1)
    have a7 := Runs_trans a6 (Runs_GPIO_SetPin 1 a6.1)
    have a8 := Runs_trans a7 (Runs_GPIO_SetPin 3 a7.1)
    have a9 := Runs_trans a8 (Runs_discoWait 20000 3 a8.1 ((Runs_mode a8).trans hm))
    have a10 := Runs_trans a9 (Runs_GPIO_ClearPin 1 a9.1)
    have a11 := Runs_trans a10 (Runs_GPIO_ClearPin 3 a10.1)
    have a12 := Runs_trans a11 (Runs_GPIO_SetPin 4 a11.1)
    have a13 := Runs_trans a12 (Runs_discoWait 20000 2 a12.1 ((Runs_mode a12).trans hm))
    have a14 := Runs_trans a13 (Runs_GPIO_ClearPin 4 a13.1)
    have a15 := Runs_trans a14 (ih a14.1 ((Runs_mode a14).trans hm))
    unfold discoPairs pairsActs
    dsimp only
    rw [btnOrMode_quiet 6 h hm]
    simp only [Bool.false_eq_true, if_false]
    simp only [List.append_assoc, List.cons_append, List.nil_append, clearAllActs] at a15 ⊢
    exact a15

/-- An uncancelled DISCO pass: it is not cut short, and what it logs and how many
numbers it draws are functions of the generator state on entry. -/

theorem discoStep_draws {s : State} (h : Quiet s) (hm : s.led_auto_mode = 6) :
    (discoStep s).2 = false ∧
    Draws s (discoStep s).1 (discoStepActs s.lcg_state) (discoStepDraws s.lcg_state) := by
  have h1 := Draws_lcg_rand h
  have g1 : (lcg_rand s).lcg_state = lcgNext s.lcg_state := (lcg_rand_quiet h).2.2.2.2
  have m1 : (lcg_rand s).led_auto_mode = 6 := h1.2.2.2.1.trans hm
  unfold discoStep discoStepActs discoStepDraws
  dsimp only
  rw [g1]
  by_cases c0 : lcgNext s.lcg_state % 4 = 0
  · have c1 : ¬ lcgNext s.lcg_state % 4 = 1 := by omega
    simp only [if_pos c0, if_neg c1]
    have h2 := Draws_cast (Draws_trans h1 (Draws_of_Runs (Runs_discoChase h1.1 m1)))
      (List.nil_append _) (Nat.add_zero 1)
    exact ⟨btn_quiet h2.1, h2⟩
  by_cases c1 : lcgNext s.lcg_state % 4 = 1
  · simp only [if_neg c0, if_pos c1]
    have h2 := Draws_trans h1 (Draws_lcg_rand h1.1)
    have g2 : (lcg_rand (lcg_rand s)).lcg_state = lcgNext (lcgNext s.lcg_state) := by
      rw [(lcg_rand_quiet h1.1).2.2.2.2, g1]
    have h3 := Draws_discoBursts (2 + (lcg_rand (lcg_rand s)).lcg_state % 4) h2.1
      (h2.2.2.2.1.trans hm)
    have h4 := Draws_trans h2 h3
    rw [g2] at h4 ⊢
    generalize 2 + lcgNext (lcgNext s.lcg_state) % 4 = N at h4 ⊢
    refine ⟨btn_quiet h4.1, ?_⟩
    refine Draws_cast h4 ?_ ?_
    · rw [List.append_nil, List.nil_append]
    · omega
  by_cases c2 : lcgNext s.lcg_state % 4 = 2
  · simp only [if_neg c0, if_neg c1, if_pos c2]
    have h2 := Draws_cast (Draws_trans h1 (Draws_of_Runs (Runs_discoPulse 3 h1.1 m1)))
      (List.nil_append _) (Nat.add_zero 1)
    exact ⟨btn_quiet h2.1, h2⟩
  · simp only [if_neg c0, if_neg c1, if_neg c2]
    have h2 := Draws_cast (Draws_trans h1 (Draws_of_Runs (Runs_discoPairs 6 h1.1 m1)))
      (List.nil_append _) (Nat.add_zero 1)
    exact ⟨btn_quiet h2.1, h2⟩

theorem randomLeds_even (y : Nat) (hy : y % 2 = 0) :
    randomLedsActs 5 0 y
      = [Act.clearPin 0, Act.setPin 1, Act.clearPin 2, Act.setPin 3, Act.clearPin 4] := by
  have p1 : lcgNext y % 2 = 1 := by rw [lcgNext_mod2, hy]
  have p2 : lcgNext (lcgNext y) % 2 = 0 := by rw [lcgNext_mod2, p1]
  have p3 : lcgNext (lcgNext (lcgNext y)) % 2 = 1 := by rw [lcgNext_mod2, p2]
  have p4 : lcgNext (lcgNext (lcgNext (lcgNext y))) % 2 = 0 := by rw [lcgNext_mod2, p3]
  have p5 : lcgNext (lcgNext (lcgNext (lcgNext (lcgNext y)))) % 2 = 1 := by
    rw [lcgNext_mod2, p4]
  simp only [randomLedsActs, p1, p2, p3, p4, p5, if_true,
    (eq_false (by decide) : ((1 : Nat) = 0) = False), if_false]

theorem bursts_two (y : Nat) (hy : y % 2 = 0) :
    burstsActs 2 y = burstActs ((30 + lcgNext^[6] y % 121) / 25)
      ++ burstActs ((30 + lcgNext^[6] (lcgNext^[6] y) % 121) / 25) := by
  have h6 : lcgNext^[6] y % 2 = 0 := by rw [lcgIter_mod2, hy]
  simp only [burstsActs, burstActs, randomLeds_even y hy, randomLeds_even _ h6,
    List.append_nil, List.append_assoc]

theorem leds_burst (leds : List Bool) (hl : leds.length = 5) :
    ledsAfter leds
        [Act.clearPin 0, Act.setPin 1, Act.clearPin 2, Act.setPin 3, Act.clearPin 4]
      = [false, true, false, true, false] := by
  match leds, hl with
  | [_, _, _, _, _], _ => rfl

theorem burstExample_quiet : Quiet burstExample :=
  ⟨rfl, rfl, rfl, fun _ h => by cases h⟩

/-- C24: the DISCO random-burst sub-pattern is fixed by the low bits of the generator.
Whenever an uncancelled DISCO pass selects the bursts (first draw congruent to 1 mod 4),
the burst count `2 + (draw mod 4)` is 2, the pass is not cut short, and it logs exactly two
bursts, each of which clears LED index 0, sets 1, clears 2, sets 3, clears 4, waits, and
clears all five: during both waits exactly the LEDs with indices 1 and 3 are on. Only the
lengths of the two waits depend on the generator state. -/
theorem C24_disco_bursts_fixed (s : State) (hq : Quiet s) (hm : s.led_auto_mode = 6)
    (hsel : lcgNext s.lcg_state % 4 = 1) (hlen : s.leds.length = 5) :
    2 + lcgNext (lcgNext s.lcg_state) % 4 = 2 ∧
    (discoStep s).2 = false ∧
    (discoStep s).1.log = s.log ++
      (burstActs ((30 + lcgNext^[6] (lcgNext (lcgNext s.lcg_state)) % 121) / 25) ++
        burstActs
          ((30 + lcgNext^[6] (lcgNext^[6] (lcgNext (lcgNext s.lcg_state))) % 121) / 25)) ∧
    ledsAfter s.leds
        [Act.clearPin 0, Act.setPin 1, Act.clearPin 2, Act.setPin 3, Act.clearPin 4]
      = [false, true, false, true, false] ∧
    ledsAfter allOff
        [Act.clearPin 0, Act.setPin 1, Act.clearPin 2, Act.setPin 3, Act.clearPin 4]
      = [false, true, false, true, false] := by
  have r4 : lcgNext (lcgNext s.lcg_state) % 4 = 0 := by rw [lcgNext_mod4, hsel]
  have r2 : lcgNext (lcgNext s.lcg_state) % 2 = 0 := by
    have := Nat.mod_mod_of_dvd (lcgNext (lcgNext s.lcg_state)) (show 2 ∣ 4 by decide)
    rw [← this, r4]
  obtain ⟨hf, -, hlog, -⟩ := discoStep_draws hq hm
  refine ⟨by rw [r4], hf, ?_, leds_burst s.leds hlen, rfl⟩
  rw [hlog]
  unfold discoStepActs
  have c0 : ¬ lcgNext s.lcg_state % 4 = 0 := by rw [hsel]; decide
  rw [if_neg c0, if_pos hsel, r4, bursts_two _ r2]

theorem C24_disco_bursts_fixed_witness :
    Quiet burstExample ∧ burstExample.led_auto_mode = 6 ∧
    lcgNext burstExample.lcg_state % 4 = 1 ∧ burstExample.leds.length = 5 ∧
    2 + lcgNext (lcgNext burstExample.lcg_state) % 4 = 2 ∧
    (discoStep burstExample).2 = false :=
  ⟨burstExample_quiet, rfl, by decide, rfl,
    (C24_disco_bursts_fixed burstExample burstExample_quiet rfl (by decide) rfl).1,
    (C24_disco_bursts_fixed burstExample burstExample_quiet rfl (by decide) rfl).2.1⟩

/-- Selection made by the DISCO pass that follows an uncancelled one, from the residue
of the generator state before the first. -/
theorem disco_next_selection (x : Nat) :
    lcgNext (lcgNext^[discoStepDraws x] x) % 4
      = (if lcgNext x % 4 = 0 then 3 else if lcgNext x % 4 = 1 then 3
         else if lcgNext x % 4 = 2 then 1 else 2) := by
  rw [lcgNext_mod4, lcgIter_mod4]
  unfold discoStepDraws
  simp only [lcgNext_mod4]
  have ha : x % 4 < 4 := Nat.mod_lt _ (by decide)
  generalize x % 4 = a at ha ⊢
  split_ifs <;> omega

theorem discoRun_quiet (s : State) (hq : Quiet s) (hm : s.led_auto_mode = 6) (n : Nat) :
    Quiet (discoRun n s) ∧ (discoRun n s).led_auto_mode = 6 := by
  induction n with
  | zero => exact ⟨hq, hm⟩
  | succ n ih =>
    obtain ⟨-, q, -, -, m, -⟩ := discoStep_draws ih.1 ih.2
    exact ⟨q, m.trans ih.2⟩

/-- C25: the DISCO chase is never selected again. In a DISCO session that nothing
cancels, every pass runs to its end, and the pass that follows a completed chase, burst,
pulse or pairs sub-pattern (selection 0, 1, 2, 3) selects sub-pattern 3, 3, 1, 2
respectively; so no pass after the first selects the chase. -/
theorem C25_disco_chase_not_reselected (s : State) (hq : Quiet s)
    (hm : s.led_auto_mode = 6) (n : Nat) :
    (discoStep (discoRun n s)).2 = false ∧
    lcgNext (discoRun (n + 1) s).lcg_state % 4
      = (if lcgNext (discoRun n s).lcg_state % 4 = 0 then 3
         else if lcgNext (discoRun n s).lcg_state % 4 = 1 then 3
         else if lcgNext (discoRun n s).lcg_state % 4 = 2 then 1 else 2) ∧
    lcgNext (discoRun (n + 1) s).lcg_state % 4 ≠ 0 := by
  obtain ⟨q, m⟩ := discoRun_quiet s hq hm n
  obtain ⟨hf, -, -, -, -, g⟩ := discoStep_draws q m
  have key : lcgNext (discoRun (n + 1) s).lcg_state % 4
      = (if lcgNext (discoRun n s).lcg_state % 4 = 0 then 3
         else if lcgNext (discoRun n s).lcg_state % 4 = 1 then 3
         else if lcgNext (discoRun n s).lcg_state % 4 = 2 then 1 else 2) := by
    show lcgNext (discoStep (discoRun n s)).1.lcg_state % 4 = _
    rw [g]
    exact disco_next_selection _
  refine ⟨hf, key, ?_⟩
  rw [key]
  split_ifs <;> decide

theorem C25_disco_chase_not_reselected_witness :
    Quiet discoExample ∧ discoExample.led_auto_mode = 6 ∧
    (discoStep (discoRun 0 discoExample)).2 = false ∧
    lcgNext (discoRun (0 + 1) discoExample).lcg_state % 4 ≠ 0 :=
  ⟨discoExample_quiet, rfl,
    (C25_disco_chase_not_reselected discoExample discoExample_quiet rfl 0).1,
    (C25_disco_chase_not_reselected discoExample discoExample_quiet rfl 0).2.2⟩

/-! ### The draws of ICIRCLE -/

theorem icircleStep_lcg {s : State} (h : Quiet s) :
    (icircleStep s).1.lcg_state
      = if lcgNext s.lcg_state % 8 = 0 then lcgNext (lcgNext s.lcg_state)
        else lcgNext s.lcg_state := by
  have hs1 : ∃ s1, (if s.speed_step < 25 then
        live (fun s => { s with speed_step := (s.speed_step + 1) % 256 }) s else s) = s1 ∧
      Quiet s1 ∧ s1.lcg_state = s.lcg_state := by
    by_cases c : s.speed_step < 25
    · rw [if_pos c, live_running _ _ h.1]
      exact ⟨_, rfl, ⟨h.1, h.2.1, h.2.2.1, h.2.2.2⟩, rfl⟩
    · rw [if_neg c]
      exact ⟨_, rfl, h, rfl⟩
  obtain ⟨s1, e1, q1, g1⟩ := hs1
  unfold icircleStep
  dsimp only
  rw [e1]
  generalize (if s.speed_step < 25 then 100 - (s.speed_step + 1) % 256 * 3 else 25) = d
  obtain ⟨q2, -, -, -, g2⟩ := lcg_rand_quiet q1
  rw [g2, g1]
  by_cases hb : lcgNext s.lcg_state % 8 = 0
  · rw [if_pos hb]
    simp only [hb, decide_True, if_true]
    obtain ⟨q3, -, -, -, g3⟩ := lcg_rand_quiet q2
    rw [g3, g2, g1]
    have h4 := Runs_icircleBlinks (lcgNext (lcgNext s.lcg_state) % 5 % 256) 2 q3
    rw [btn_quiet h4.1]
    simp only [Bool.false_eq_true, if_false]
    rw [(icircleMove_quiet d h4.1).2.2.2.2.2.1, Runs_lcg h4, g3, g2, g1]
  · rw [if_neg hb]
    simp only [hb, decide_False, Bool.false_eq_true, if_false]
    rw [(icircleMove_quiet d q2).2.2.2.2.2.1, g2, g1]

theorem icircleRun_quiet (s : State) (hq : Quiet s) (n : Nat) : Quiet (icircleRun n s) := by
  induction n with
  | zero => exact hq
  | succ n ih => exact (icircleStep_quiet ih).2.1

theorem icircleRun_residue (s : State) (hq : Quiet s) (n j : Nat) :
    (icircleRun (n + j) s).lcg_state % 8 = icircleResidue^[j] ((icircleRun n s).lcg_state % 8) := by
  induction j with
  | zero => rfl
  | succ j ih =>
    rw [Function.iterate_succ_apply', ← ih]
    show (icircleStep (icircleRun (n + j) s)).1.lcg_state % 8 = _
    rw [icircleStep_lcg (icircleRun_quiet s hq (n + j))]
    unfold icircleResidue
    by_cases hb : lcgNext (icircleRun (n + j) s).lcg_state % 8 = 0
    · rw [if_pos hb, if_pos (by rw [← lcgNext_mod8]; exact hb),
        lcgNext_mod8 (lcgNext (icircleRun (n + j) s).lcg_state),
        lcgNext_mod8 (icircleRun (n + j) s).lcg_state]
    · rw [if_neg hb, if_neg (by rw [← lcgNext_mod8]; exact hb), lcgNext_mod8]

theorem icircle_blink_iff (x : Nat) : lcgNext x % 8 = 0 ↔ (5 * (x % 8) + 7) % 8 = 0 := by
  rw [lcgNext_mod8]

theorem icircleResidue_cycle : ∀ r, r < 8 →
    ((5 * r + 7) % 8 = 0 →
      (∀ j, j < 7 → 1 ≤ j → ¬ (5 * (icircleResidue^[j] r) + 7) % 8 = 0) ∧
      (5 * (icircleResidue^[7] r) + 7) % 8 = 0) ∧
    ∃ j, j < 8 ∧ (5 * (icircleResidue^[j] r) + 7) % 8 = 0 := by
  decide

/-- C26: the ICIRCLE double blink is periodic. In an ICIRCLE run that nothing cancels,
pass `n + 1` logs the double blink exactly when its first draw is 0 mod 8; if it does,
none of the next 6 passes does and the 7th following pass does; and from any pass on, a
double blink occurs within 8 passes. -/
theorem C26_icircle_blink_period (s : State) (hq : Quiet s) (n : Nat) :
    (∃ rest, (icircleRun (n + 1) s).log = (icircleRun n s).log ++
      ((if lcgNext (icircleRun n s).lcg_state % 8 = 0
        then icircleBlinksActs ((lcgNext (lcgNext (icircleRun n s).lcg_state) % 5) % 256) 2
        else []) ++ rest)) ∧
    (lcgNext (icircleRun n s).lcg_state % 8 = 0 →
      (∀ j, 1 ≤ j → j ≤ 6 → ¬ lcgNext (icircleRun (n + j) s).lcg_state % 8 = 0) ∧
      lcgNext (icircleRun (n + 7) s).lcg_state % 8 = 0) ∧
    (∃ j, j < 8 ∧ lcgNext (icircleRun (n + j) s).lcg_state % 8 = 0) := by
  have hr : (icircleRun n s).lcg_state % 8 < 8 := Nat.mod_lt _ (by decide)
  obtain ⟨c1, j0, hj0, c2⟩ := icircleResidue_cycle _ hr
  have hb : ∀ j, lcgNext (icircleRun (n + j) s).lcg_state % 8 = 0 ↔
      (5 * (icircleResidue^[j] ((icircleRun n s).lcg_state % 8)) + 7) % 8 = 0 := by
    intro j
    rw [icircle_blink_iff, icircleRun_residue s hq n j]
  refine ⟨⟨_, (icircleStep_quiet (icircleRun_quiet s hq n)).2.2.1⟩, ?_, j0, hj0, (hb j0).2 c2⟩
  intro h0
  obtain ⟨d1, d2⟩ := c1 ((hb 0).1 h0)
  exact ⟨fun j h1 h6 hj => d1 j (by omega) h1 ((hb j).1 hj), (hb 7).2 d2⟩

theorem C26_icircle_blink_period_witness :
    Quiet icircleExample ∧ lcgNext (icircleRun 0 icircleExample).lcg_state % 8 = 0 ∧
    lcgNext (icircleRun (0 + 7) icircleExample).lcg_state % 8 = 0 :=
  ⟨icircleExample_quiet, by decide,
    ((C26_icircle_blink_period icircleExample icircleExample_quiet 0).2.1 (by decide)).2⟩

/-! ### Bounds that hold in every reachable state -/

theorem Safe_init (e : List Nat) (ok : Bool) (env : List Irq) : Safe (State.init e ok env) :=
  ⟨show 1 ≤ 6 by decide,
   show (strncpy (List.replicate 21 0) (str "SRAL") 21).length = 21 by decide,
   show (strncpy (List.replicate 21 0) (str "SRAL") 21).getD 20 0 = 0 by decide,
   show 0 ≤ 79 by decide,
   show (List.replicate 80 0).length = 80 by decide⟩

theorem Safe_live {f : State → State} (hf : ∀ t, Safe t → Safe (f t)) {s : State}
    (h : Safe s) : Safe (live f s) := by
  unfold live
  split
  · exact h
  · exact hf s h

theorem loadSlot_length (base : Nat) (s : State) (n : Nat) : ∀ (i : Nat) (arr : List Nat),
    (loadSlot base n i arr s).1.length = arr.length := by
  induction n with
  | zero => intro i arr; rfl
  | succ n ih =>
    intro i arr
    unfold loadSlot
    split
    · rfl
    · dsimp only
      split
      · exact List.length_set _ _ _
      · rw [ih, List.length_set]

theorem loadSlot_off (base : Nat) (s : State) (h : s.i2c_ok = false) (n i : Nat)
    (arr : List Nat) : (loadSlot base n i arr s).1 = arr := by
  cases n with
  | zero => rfl
  | succ n =>
    unfold loadSlot
    simp only [eeprom_read_byte, h, Bool.false_eq_true, if_false]

theorem loadSlot_ok (base : Nat) (s : State) (h : s.i2c_ok = true) (n : Nat) :
    ∀ (i : Nat) (arr : List Nat), (loadSlot base n i arr s).2 = true := by
  induction n with
  | zero => intro i arr; rfl
  | succ n ih =>
    intro i arr
    unfold loadSlot
    simp only [eeprom_read_byte, h, if_true]
    split
    · rfl
    · exact ih _ _

theorem loadSlot_nul (base : Nat) (s : State) (n i : Nat) (arr : List Nat)
    (h0 : arr.getD 20 0 = 0) (hf : (loadSlot base n i arr s).2 = false) :
    (loadSlot base n i arr s).1.getD 20 0 = 0 := by
  cases hi : s.i2c_ok with
  | false => rw [loadSlot_off base s hi]; exact h0
  | true => rw [loadSlot_ok base s hi] at hf; cases hf

theorem Safe_CLI_LoadConfig (s : State) (hs : Safe s) : Safe (CLI_LoadConfig s) := by
  unfold CLI_LoadConfig
  split
  · exact hs
  · rename_i bytes hb
    dsimp only
    have h1 : Safe (if (!decide (magicOf bytes = SAO_MAGIC_LIFE) ||
        !decide (readBytes MARKER_OFF MARKER_LEN s = some markerText)) = true
        then EEPROM_InitializeDefaults s else s) := by
      split
      · exact (@Tame_EEPROM_InitializeDefaults 5000 true true (le_refl _) s).2.2.2.2 hs
      · exact hs
    generalize (if (!decide (magicOf bytes = SAO_MAGIC_LIFE) ||
        !decide (readBytes MARKER_OFF MARKER_LEN s = some markerText)) = true
        then EEPROM_InitializeDefaults s else s) = s1 at h1 ⊢
    generalize loadSlot CALLSIGN_OFFSET CALLSIGN_SLOT_LEN 0 s1.current_callsign s1 = r1
    have h2 : Safe (live (fun t => { t with current_callsign := r1.1 }) s1) :=
      @Safe_live (fun t => { t with current_callsign := r1.1 }) (fun t ht => ht) s1 h1
    generalize live (fun t => { t with current_callsign := r1.1 }) s1 = s2 at h2 ⊢
    split
    · exact h2
    · have h3 : Safe (live (fun t => { t with current_callsign :=
          (t.current_callsign.set (CALLSIGN_SLOT_LEN - 1) 0) }) s2) :=
        @Safe_live (fun t => { t with current_callsign :=
          (t.current_callsign.set (CALLSIGN_SLOT_LEN - 1) 0) }) (fun t ht => ht) s2 h2
      generalize live (fun t => { t with current_callsign :=
          (t.current_callsign.set (CALLSIGN_SLOT_LEN - 1) 0) }) s2 = s3 at h3 ⊢
      have hlen := loadSlot_length CW_SLOT_OFFSET s3 CW_SLOT_LEN 0 s3.current_cw
      have hnul := loadSlot_nul CW_SLOT_OFFSET s3 CW_SLOT_LEN 0 s3.current_cw h3.2.2.1
      generalize loadSlot CW_SLOT_OFFSET CW_SLOT_LEN 0 s3.current_cw s3 = r2 at hlen hnul ⊢
      split
      · rename_i hf
        exact @Safe_live (fun t => { t with current_cw := r2.1 })
          (fun t ht => ⟨ht.1, hlen.trans h3.2.1, hnul hf, ht.2.2.2.1, ht.2.2.2.2⟩) s3 h3
      · cases hh : s3.halted with
        | true =>
          rw [live_halted _ _ hh, live_halted _ _ hh]
          exact h3
        | false =>
          rw [live_running _ _ hh, live_running _ _ (by exact hh)]
          refine ⟨h3.1, ?_, ?_, h3.2.2.2.1, h3.2.2.2.2⟩
          · show (r2.1.set (CW_SLOT_LEN - 1) 0).length = 21
            rw [List.length_set]
            exact hlen.trans h3.2.1
          · show (r2.1.set (CW_SLOT_LEN - 1) 0).getD 20 0 = 0
            exact getD_set_nul _ (by rw [hlen, h3.2.1]; decide)

theorem Safe_CLI_Init (s : State) (hs : Safe s) : Safe (CLI_Init s) := by
  unfold CLI_Init
  apply Safe_CLI_LoadConfig
  exact ⟨hs.1, hs.2.1, hs.2.2.1, Nat.zero_le _,
    show (List.replicate CLI_BUFFER_SIZE 0).length = 80 by decide⟩

theorem Safe_react (s : State) (h : Safe s) (x : Stim) : Safe (react s x) := by
  cases x with
  | press => exact (Tame_buttonEvent s).2.2.2.2 h
  | key c => exact (@Tame_CLI_ProcessChar 5000 true true (le_refl _) c s).2.2.2.2 h
  | pass => exact (Tame_mainIteration s).2.2.2.2 h

theorem Safe_reacts (stims : List Stim) : ∀ s : State, Safe s → Safe (stims.foldl react s) := by
  induction stims with
  | nil => intro s h; exact h
  | cons x rest ih => intro s h; exact ih _ (Safe_react s h x)

theorem Safe_reachable (e : List Nat) (ok : Bool) (env : List Irq) (stims : List Stim) :
    Safe (stims.foldl react (CLI_Init (State.init e ok env))) :=
  Safe_reacts stims _ (Safe_CLI_Init _ (Safe_init e ok env))

/-! ### C29: the shell line buffer -/

theorem cstr_length_le (a : List Nat) : (cstr a).length ≤ a.length := by
  unfold cstr
  exact (List.takeWhile_sublist _).length_le

theorem trimWrites_lt (e : Nat) : ∀ (buf : List Nat), ∀ i ∈ trimWrites e buf, i < e := by
  induction e with
  | zero => intro buf i hi; cases hi
  | succ e ih =>
    intro buf i hi
    unfold trimWrites at hi
    dsimp only at hi
    split at hi
    · rcases List.mem_cons.mp hi with h | h
      · omega
      · exact Nat.lt_succ_of_lt (ih _ i h)
    · cases hi

theorem lineWrites_lt (c : Nat) (s : State) (hs : Safe s) :
    ∀ i ∈ lineWrites c s, i < CLI_BUFFER_SIZE := by
  intro i hi
  have h79 : s.cli_index ≤ 79 := hs.2.2.2.1
  have h80 : s.cli_buffer.length = 80 := hs.2.2.2.2
  have hsz : CLI_BUFFER_SIZE = 80 := rfl
  unfold lineWrites at hi
  split at hi
  · cases hi
  · split at hi
    · rcases List.mem_cons.mp hi with h | h
      · omega
      · split at h
        · have h1 := trimWrites_lt _ _ i h
          have h2 := cstr_length_le (s.cli_buffer.set s.cli_index 0)
          rw [List.length_set] at h2
          omega
        · cases h
    · split at hi
      · cases hi
      · split at hi
        · split at hi
          · rcases List.mem_cons.mp hi with h | h
            · omega
            · cases h
          · cases hi
        · cases hi

theorem processChar_ignored (c : Nat) (s : State) (h1 : ¬ (c = 13 ∨ c = 10))
    (h2 : ¬ (c = 8 ∨ c = 127)) (h3 : ¬ (32 ≤ c ∧ c < 127)) :
    (CLI_ProcessChar c s).cli_buffer = s.cli_buffer ∧
    (CLI_ProcessChar c s).cli_index = s.cli_index := by
  unfold CLI_ProcessChar live
  split
  · exact ⟨rfl, rfl⟩
  · dsimp only
    rw [if_neg h1, if_neg h2, if_neg h3]
    exact ⟨rfl, rfl⟩

theorem processChar_backspace_empty (c : Nat) (s : State) (h1 : c = 8 ∨ c = 127)
    (h0 : s.cli_index = 0) : (CLI_ProcessChar c s).cli_index = 0 ∧
    (CLI_ProcessChar c s).cli_buffer = s.cli_buffer := by
  have hn : ¬ (c = 13 ∨ c = 10) := by omega
  unfold CLI_ProcessChar live
  split
  · exact ⟨h0, rfl⟩
  · dsimp only
    rw [if_neg hn, if_pos h1, if_neg (by omega)]
    exact ⟨h0, rfl⟩

/-- C29: from a state whose line index is at most 79 and whose line buffer has 80 bytes
(as after `CLI_Init`), after any sequence of characters fed to `CLI_ProcessChar` the index
is at most `CLI_BUFFER_SIZE - 1`, the buffer still has 80 bytes, every offset written by
the next call is below `CLI_BUFFER_SIZE`, a character that is neither CR, LF, backspace,
DEL nor printable leaves buffer and index unchanged, and backspace or DEL at index 0
leaves the index at 0. -/
theorem C29_line_buffer_in_bounds (s : State) (hs : Safe s) (cs : List Nat) (c : Nat) :
    (cs.foldl (fun t c => CLI_ProcessChar c t) s).cli_index ≤ CLI_BUFFER_SIZE - 1 ∧
    (cs.foldl (fun t c => CLI_ProcessChar c t) s).cli_buffer.length = CLI_BUFFER_SIZE ∧
    (∀ i ∈ lineWrites c (cs.foldl (fun t c => CLI_ProcessChar c t) s), i < CLI_BUFFER_SIZE) ∧
    (¬ (c = 13 ∨ c = 10) → ¬ (c = 8 ∨ c = 127) → ¬ (32 ≤ c ∧ c < 127) →
      (CLI_ProcessChar c (cs.foldl (fun t c => CLI_ProcessChar c t) s)).cli_buffer =
        (cs.foldl (fun t c => CLI_ProcessChar c t) s).cli_buffer ∧
      (CLI_ProcessChar c (cs.foldl (fun t c => CLI_ProcessChar c t) s)).cli_index =
        (cs.foldl (fun t c => CLI_ProcessChar c t) s).cli_index) ∧
    ((c = 8 ∨ c = 127) → (cs.foldl (fun t c => CLI_ProcessChar c t) s).cli_index = 0 →
      (CLI_ProcessChar c (cs.foldl (fun t c => CLI_ProcessChar c t) s)).cli_index = 0) := by
  have ht : Safe (cs.foldl (fun t c => CLI_ProcessChar c t) s) :=
    (Tame_processChars cs s).2.2.2.2 hs
  generalize cs.foldl (fun t c => CLI_ProcessChar c t) s = t at ht ⊢
  exact ⟨ht.2.2.2.1, ht.2.2.2.2, lineWrites_lt c t ht, processChar_ignored c t,
    fun h1 h0 => (processChar_backspace_empty c t h1 h0).1⟩

/-- C29 at a concrete input: 100 letters `a` typed after `CLI_Init` on a blank board;
the index stops at 79. -/
theorem C29_line_buffer_in_bounds_witness :
    Safe (CLI_Init (State.init [] false [])) ∧
    ((List.replicate 100 97).foldl (fun t c => CLI_ProcessChar c t)
      (CLI_Init (State.init [] false []))).cli_index ≤ CLI_BUFFER_SIZE - 1 :=
  ⟨Safe_CLI_Init _ (Safe_init [] false []),
   (C29_line_buffer_in_bounds (CLI_Init (State.init [] false []))
     (Safe_CLI_Init _ (Safe_init [] false [])) (List.replicate 100 97) 7).1⟩

/-! ### C27: the mode stays in range -/

theorem cmd_ne_of_take (cmd x pre : List Nat) (P : Nat) (hp : cmd.take P = pre)
    (hx : x.take P ≠ pre) : (cmd = x) = False := by
  apply eq_false
  intro he
  apply hx
  rw [← he, hp]

theorem take_ne_of_take (cmd x pre : List Nat) (P n : Nat) (hp : cmd.take P = pre)
    (hn : P ≤ n) (hx : x.take P ≠ pre) : (cmd.take n = x) = False := by
  apply eq_false
  intro he
  apply hx
  rw [← he, List.take_take, Nat.min_eq_left hn, hp]

/-- A command line that starts with `bm ` reaches the mode-setting branch. -/
theorem parse_bm (param : List Nat) (s : State) (h : s.awaiting_reset_confirmation = false) :
    CLI_ParseCommand (str "bm " ++ param) s = cmdBlinkMode param s := by
  have e : str "bm " ++ param = 98 :: 109 :: 32 :: param := rfl
  rw [e]
  unfold CLI_ParseCommand
  simp only [h, Bool.false_eq_true, if_false]
  have k1 : List.take 3 (98 :: 109 :: 32 :: param) = str "bm " := rfl
  have k2 : List.drop 3 (98 :: 109 :: 32 :: param) = param := rfl
  have p2 : List.take 2 (98 :: 109 :: 32 :: param) = [98, 109] := rfl
  have p3 : List.take 3 (98 :: 109 :: 32 :: param) = [98, 109, 32] := rfl
  simp only [cmd_ne_of_take _ (str "help") _ 3 p3 (by decide),
    cmd_ne_of_take _ (str "ver") _ 3 p3 (by decide),
    cmd_ne_of_take _ (str "version") _ 3 p3 (by decide),
    cmd_ne_of_take _ (str "pwr") _ 3 p3 (by decide),
    cmd_ne_of_take _ (str "reset") _ 3 p3 (by decide),
    cmd_ne_of_take _ (str "reboot") _ 3 p3 (by decide),
    cmd_ne_of_take _ (str "restart") _ 3 p3 (by decide),
    cmd_ne_of_take _ (str "callsign") _ 3 p3 (by decide),
    cmd_ne_of_take _ (str "whoami") _ 3 p3 (by decide),
    cmd_ne_of_take _ (str "who") _ 3 p3 (by decide),
    cmd_ne_of_take _ (str "dmesg") _ 3 p3 (by decide),
    cmd_ne_of_take _ (str "led on") _ 3 p3 (by decide),
    cmd_ne_of_take _ (str "led off") _ 3 p3 (by decide),
    cmd_ne_of_take _ (str "led blink") _ 3 p3 (by decide),
    cmd_ne_of_take _ (str "blinkmode") _ 3 p3 (by decide),
    cmd_ne_of_take _ (str "automode") _ 3 p3 (by decide),
    cmd_ne_of_take _ (str "bm") _ 3 p3 (by decide),
    take_ne_of_take _ (str "setcall ") _ 2 8 p2 (by decide) (by decide),
    take_ne_of_take _ (str "setnick ") _ 2 8 p2 (by decide) (by decide),
    take_ne_of_take _ (str "blinkmode ") _ 2 10 p2 (by decide) (by decide),
    k1, k2, or_self, if_false, if_true]

/-- A command line that starts with `blinkmode ` reaches the mode-setting branch. -/
theorem parse_blinkmode (param : List Nat) (s : State)
    (h : s.awaiting_reset_confirmation = false) :
    CLI_ParseCommand (str "blinkmode " ++ param) s = cmdBlinkMode param s := by
  have e : str "blinkmode " ++ param =
      98 :: 108 :: 105 :: 110 :: 107 :: 109 :: 111 :: 100 :: 101 :: 32 :: param := rfl
  rw [e]
  unfold CLI_ParseCommand
  simp only [h, Bool.false_eq_true, if_false]
  have k1 : List.take 10 (98 :: 108 :: 105 :: 110 :: 107 :: 109 :: 111 :: 100 :: 101 :: 32 ::
      param) = str "blinkmode " := rfl
  have k2 : List.drop 10 (98 :: 108 :: 105 :: 110 :: 107 :: 109 :: 111 :: 100 :: 101 :: 32 ::
      param) = param := rfl
  have p2 : List.take 2 (98 :: 108 :: 105 :: 110 :: 107 :: 109 :: 111 :: 100 :: 101 :: 32 ::
      param) = [98, 108] := rfl
  have p3 : List.take 10 (98 :: 108 :: 105 :: 110 :: 107 :: 109 :: 111 :: 100 :: 101 :: 32 ::
      param) = [98, 108, 105, 110, 107, 109, 111, 100, 101, 32] := rfl
  simp only [cmd_ne_of_take _ (str "help") _ 10 p3 (by decide),
    cmd_ne_of_take _ (str "ver") _ 10 p3 (by decide),
    cmd_ne_of_take _ (str "version") _ 10 p3 (by decide),
    cmd_ne_of_take _ (str "pwr") _ 10 p3 (by decide),
    cmd_ne_of_take _ (str "reset") _ 10 p3 (by decide),
    cmd_ne_of_take _ (str "reboot") _ 10 p3 (by decide),
    cmd_ne_of_take _ (str "restart") _ 10 p3 (by decide),
    cmd_ne_of_take _ (str "callsign") _ 10 p3 (by decide),
    cmd_ne_of_take _ (str "whoami") _ 10 p3 (by decide),
    cmd_ne_of_take _ (str "who") _ 10 p3 (by decide),
    cmd_ne_of_take _ (str "dmesg") _ 10 p3 (by decide),
    cmd_ne_of_take _ (str "led on") _ 10 p3 (by decide),
    cmd_ne_of_take _ (str "led off") _ 10 p3 (by decide),
    cmd_ne_of_take _ (str "led blink") _ 10 p3 (by decide),
    cmd_ne_of_take _ (str "blinkmode") _ 10 p3 (by decide),
    cmd_ne_of_take _ (str "automode") _ 10 p3 (by decide),
    cmd_ne_of_take _ (str "bm") _ 10 p3 (by decide),
    take_ne_of_take _ (str "setcall ") _ 2 8 p2 (by decide) (by decide),
    take_ne_of_take _ (str "setnick ") _ 2 8 p2 (by decide) (by decide),
    k1, k2, or_self, if_false, if_true]

/-- A command line that starts with `automode ` reaches the mode-setting branch. -/
theorem parse_automode (param : List Nat) (s : State)
    (h : s.awaiting_reset_confirmation = false) :
    CLI_ParseCommand (str "automode " ++ param) s = cmdBlinkMode param s := by
  have e : str "automode " ++ param =
      97 :: 117 :: 116 :: 111 :: 109 :: 111 :: 100 :: 101 :: 32 :: param := rfl
  rw [e]
  unfold CLI_ParseCommand
  simp only [h, Bool.false_eq_true, if_false]
  have k1 : List.take 9 (97 :: 117 :: 116 :: 111 :: 109 :: 111 :: 100 :: 101 :: 32 ::
      param) = str "automode " := rfl
  have k2 : List.drop 9 (97 :: 117 :: 116 :: 111 :: 109 :: 111 :: 100 :: 101 :: 32 ::
      param) = param := rfl
  have p2 : List.take 2 (97 :: 117 :: 116 :: 111 :: 109 :: 111 :: 100 :: 101 :: 32 ::
      param) = [97, 117] := rfl
  have p3 : List.take 9 (97 :: 117 :: 116 :: 111 :: 109 :: 111 :: 100 :: 101 :: 32 ::
      param) = [97, 117, 116, 111, 109, 111, 100, 101, 32] := rfl
  simp only [cmd_ne_of_take _ (str "help") _ 9 p3 (by decide),
    cmd_ne_of_take _ (str "ver") _ 9 p3 (by decide),
    cmd_ne_of_take _ (str "version") _ 9 p3 (by decide),
    cmd_ne_of_take _ (str "pwr") _ 9 p3 (by decide),
    cmd_ne_of_take _ (str "reset") _ 9 p3 (by decide),
    cmd_ne_of_take _ (str "reboot") _ 9 p3 (by decide),
    cmd_ne_of_take _ (str "restart") _ 9 p3 (by decide),
    cmd_ne_of_take _ (str "callsign") _ 9 p3 (by decide),
    cmd_ne_of_take _ (str "whoami") _ 9 p3 (by decide),
    cmd_ne_of_take _ (str "who") _ 9 p3 (by decide),
    cmd_ne_of_take _ (str "dmesg") _ 9 p3 (by decide),
    cmd_ne_of_take _ (str "led on") _ 9 p3 (by decide),
    cmd_ne_of_take _ (str "led off") _ 9 p3 (by decide),
    cmd_ne_of_take _ (str "led blink") _ 9 p3 (by decide),
    cmd_ne_of_take _ (str "blinkmode") _ 9 p3 (by decide),
    cmd_ne_of_take _ (str "automode") _ 9 p3 (by decide),
    cmd_ne_of_take _ (str "bm") _ 9 p3 (by decide),
    take_ne_of_take _ (str "setcall ") _ 2 8 p2 (by decide) (by decide),
    take_ne_of_take _ (str "setnick ") _ 2 8 p2 (by decide) (by decide),
    take_ne_of_take _ (str "blinkmode ") _ 2 10 p2 (by decide) (by decide),
    take_ne_of_take _ (str "bm ") _ 2 3 p2 (by decide) (by decide),
    k1, k2, or_self, if_false, if_true]

theorem cmdBlinkMode_rejected (param : List Nat) (s : State)
    (h : ¬ (0 ≤ atoi param ∧ atoi param ≤ 6)) : cmdBlinkMode param s = s := by
  unfold cmdBlinkMode
  dsimp only
  rw [if_neg h]

/-- C27: the mode is 1 after start-up; after any sequence of button events, received
characters (shell command lines) and main-loop iterations it is below 7, the number of
entries of `led_blink_mode_names`; and a `bm`, `blinkmode` or `automode` command whose
argument is not a number in 0..6 leaves the state, and so the mode, unchanged. -/
theorem C27_mode_in_range (e : List Nat) (ok : Bool) (env : List Irq) (stims : List Stim)
    (pre param : List Nat) (s : State)
    (hp : pre = str "bm " ∨ pre = str "blinkmode " ∨ pre = str "automode ")
    (hs : s.awaiting_reset_confirmation = false)
    (hr : ¬ (0 ≤ atoi param ∧ atoi param ≤ 6)) :
    (State.init e ok env).led_auto_mode = 1 ∧
    (stims.foldl react (CLI_Init (State.init e ok env))).led_auto_mode <
      led_blink_mode_names.length ∧
    (stims.foldl react (State.init e ok env)).led_auto_mode < led_blink_mode_names.length ∧
    CLI_ParseCommand (pre ++ param) s = s ∧
    (CLI_ParseCommand (pre ++ param) s).led_auto_mode = s.led_auto_mode := by
  have h1 : (stims.foldl react (CLI_Init (State.init e ok env))).led_auto_mode ≤ 6 :=
    (Safe_reachable e ok env stims).1
  have h2 : (stims.foldl react (State.init e ok env)).led_auto_mode ≤ 6 :=
    (Safe_reacts stims _ (Safe_init e ok env)).1
  have h3 : CLI_ParseCommand (pre ++ param) s = s := by
    rcases hp with hp | hp | hp
    · rw [hp, parse_bm param s hs]; exact cmdBlinkMode_rejected param s hr
    · rw [hp, parse_blinkmode param s hs]; exact cmdBlinkMode_rejected param s hr
    · rw [hp, parse_automode param s hs]; exact cmdBlinkMode_rejected param s hr
  have hl : led_blink_mode_names.length = 7 := rfl
  refine ⟨rfl, ?_, ?_, h3, ?_⟩
  · rw [hl]; exact Nat.lt_succ_of_le h1
  · rw [hl]; exact Nat.lt_succ_of_le h2
  · rw [h3]

/-- C27 at a concrete input: two button events, the line `bm 6`, a main-loop iteration,
and the rejected command `bm 7`. -/
theorem C27_mode_in_range_witness :
    ¬ (0 ≤ atoi (str "7") ∧ atoi (str "7") ≤ 6) ∧
    (modeStims.foldl react (CLI_Init (State.init [] false []))).led_auto_mode <
      led_blink_mode_names.length ∧
    CLI_ParseCommand (str "bm " ++ str "7") (State.init [] false []) =
      State.init [] false [] := by
  have h := C27_mode_in_range [] false [] modeStims (str "bm ") (str "7")
    (State.init [] false []) (Or.inl rfl) rfl (by decide)
  exact ⟨by decide, h.2.1, h.2.2.2.1⟩

/-! ### C28: the CW cursor -/

theorem cwReads_le (fuel : Nat) : ∀ (ci : Nat) (s : State), Safe s → ci ≤ 20 →
    ∀ i ∈ cwReads fuel ci s, i ≤ 20 := by
  induction fuel with
  | zero => intro ci s _ _ i hi; cases hi
  | succ fuel ih =>
    intro ci s hs hc i hi
    unfold cwReads at hi
    dsimp only at hi
    rcases List.mem_cons.mp hi with h | h
    · omega
    · split at h
      · cases h
      · rename_i hch
        split at h
        · cases h
        · have hne : ci ≠ 20 := by
            intro h20
            apply hch
            rw [h20]
            exact hs.2.2.1
          exact ih (ci + 1) _ ((@Tame_cwChar true true _ s).2.2.2.2 hs) (by omega) i h

theorem cwLoop_stable (k : Nat) (n : Nat) : ∀ (ci : Nat) (s : State), Safe s → ci ≤ 20 →
    21 - ci ≤ n →
    cwChars (n + k) ci s = cwChars n ci s ∧ cwReads (n + k) ci s = cwReads n ci s := by
  induction n with
  | zero => intro ci s _ hc hn; omega
  | succ n ih =>
    intro ci s hs hc hn
    have e : n + 1 + k = (n + k) + 1 := by omega
    rw [e]
    unfold cwChars cwReads
    dsimp only
    by_cases hch : s.current_cw.getD ci 0 = 0
    · refine ⟨?_, ?_⟩ <;> simp only [if_pos hch]
    · have hne : ci ≠ 20 := by
        intro h20
        apply hch
        rw [h20]
        exact hs.2.2.1
      have h := ih (ci + 1) _ ((@Tame_cwChar true true (s.current_cw.getD ci 0) s).2.2.2.2 hs)
        (by omega) (by omega)
      by_cases hr : (cwChar (s.current_cw.getD ci 0) s).2 = true
      · refine ⟨?_, ?_⟩ <;> simp only [if_neg hch, if_pos hr]
      · refine ⟨?_, ?_⟩ <;> simp only [if_neg hch, if_neg hr, h.1, h.2]

/-- C28: after any sequence of button events, received characters and main-loop
iterations the CW buffer has 21 bytes and its byte 20 is NUL; and from any state with
these bounds (`Safe`), every index the CW character loop reads is at most 20, below the
21 bytes of the buffer in the state the loop leaves, and the loop is over within 21
rounds: more rounds change neither the reads nor the state. This covers `cw <msg>`
lines that arrive and run inside the waits of the loop. -/
theorem C28_cw_cursor_in_bounds (e : List Nat) (ok : Bool) (env : List Irq)
    (stims : List Stim) (s : State) (hs : Safe s) (fuel k : Nat) :
    (stims.foldl react (CLI_Init (State.init e ok env))).current_cw.length = CW_SLOT_LEN ∧
    (stims.foldl react (CLI_Init (State.init e ok env))).current_cw.getD
      (CW_SLOT_LEN - 1) 0 = 0 ∧
    (∀ i ∈ cwReads fuel 0 s, i ≤ 20) ∧
    (cwChars fuel 0 s).current_cw.length = CW_SLOT_LEN ∧
    (cwChars fuel 0 s).current_cw.getD (CW_SLOT_LEN - 1) 0 = 0 ∧
    cwChars (21 + k) 0 s = cwChars 21 0 s ∧ cwReads (21 + k) 0 s = cwReads 21 0 s := by
  have h1 := Safe_reachable e ok env stims
  have h2 := (@Tame_cwChars true true fuel 0 s).2.2.2.2 hs
  have h3 := cwLoop_stable k 21 0 s hs (by omega) (by omega)
  exact ⟨h1.2.1, h1.2.2.1, cwReads_le fuel 0 s hs (by omega), h2.2.1, h2.2.2.1, h3.1, h3.2⟩

theorem cwReplaceExample_safe : Safe cwReplaceExample :=
  ⟨show 3 ≤ 6 by decide, by decide, by decide, show 0 ≤ 79 by decide, by decide⟩

/-- C28 at a concrete input: the 20-character message is replaced by `B` while its first
character is sent. -/
theorem C28_cw_cursor_in_bounds_witness :
    Safe cwReplaceExample ∧ (∀ i ∈ cwReads 22 0 cwReplaceExample, i ≤ 20) ∧
    cwChars (21 + 1) 0 cwReplaceExample = cwChars 21 0 cwReplaceExample :=
  ⟨cwReplaceExample_safe,
   (C28_cw_cursor_in_bounds [] false [] [] cwReplaceExample cwReplaceExample_safe 22 1).2.2.1,
   (C28_cw_cursor_in_bounds [] false [] [] cwReplaceExample cwReplaceExample_safe 22
     1).2.2.2.2.2.1⟩

set_option maxRecDepth 1000000 in
/-- In `cwReplaceExample` the message is replaced during the first character: the loop
reads index 0 of the old message, then index 1 of the new one, and stops. -/
theorem cwReplaceExample_reads :
    cwReads 22 0 cwReplaceExample = [0, 1] ∧
    cstr (cwChars 22 0 cwReplaceExample).current_cw = str "B" := by
  decide

/-! ### C22: saving and loading the configuration -/

theorem getD_set_eq (l : List Nat) (i v j : Nat) (h : i < l.length) :
    (l.set i v).getD j 0 = if j = i then v else l.getD j 0 := by
  simp only [List.getD_eq_getElem?_getD]
  by_cases hj : j = i
  · rw [if_pos hj, hj, List.getElem?_set_self h]
    rfl
  · rw [if_neg hj, List.getElem?_set_ne (Ne.symm hj)]

theorem getD_beyond (l : List Nat) (i : Nat) (h : l.length ≤ i) : l.getD i 0 = 0 := by
  simp only [List.getD_eq_getElem?_getD]
  rw [List.getElem?_eq_none h]
  rfl

theorem getD_mem (l : List Nat) (i : Nat) (h : i < l.length) : l.getD i 0 ∈ l := by
  simp only [List.getD_eq_getElem?_getD]
  rw [List.getElem?_eq_getElem h]
  exact List.getElem_mem h

theorem cstr_ne_zero (arr : List Nat) : ∀ c ∈ cstr arr, c ≠ 0 := by
  intro c hc
  have h := List.mem_takeWhile_imp hc
  simpa using h

theorem cstr_getD (arr : List Nat) : ∀ i, i < (cstr arr).length →
    arr.getD i 0 = (cstr arr).getD i 0 := by
  induction arr with
  | nil => intro i hi; exact absurd hi (Nat.not_lt_zero _)
  | cons a rest ih =>
    intro i hi
    by_cases ha : a = 0
    · subst ha
      exact absurd hi (Nat.not_lt_zero _)
    · have e : cstr (a :: rest) = a :: cstr rest := by
        unfold cstr
        rw [List.takeWhile_cons, if_pos (by simpa using ha)]
      rw [e] at hi ⊢
      cases i with
      | zero => rfl
      | succ i => exact ih i (Nat.lt_of_succ_lt_succ hi)

theorem cstr_eq_of_getD (m : List Nat) (hnz : ∀ c ∈ m, c ≠ 0) : ∀ arr : List Nat,
    m.length < arr.length → (∀ j, j < m.length → arr.getD j 0 = m.getD j 0) →
    arr.getD m.length 0 = 0 → cstr arr = m := by
  induction m with
  | nil =>
    intro arr hl _ h0
    cases arr with
    | nil => rfl
    | cons a rest =>
      have ha : a = 0 := h0
      subst ha
      rfl
  | cons c m ih =>
    intro arr hl h h0
    cases arr with
    | nil => exact absurd hl (Nat.not_lt_zero _)
    | cons a rest =>
      have hac : a = c := h 0 (Nat.succ_pos _)
      subst hac
      have hc : a ≠ 0 := hnz a (List.mem_cons_self _ _)
      have hr := ih (fun x hx => hnz x (List.mem_cons_of_mem _ hx)) rest
        (Nat.lt_of_succ_lt_succ hl) (fun j hj => h (j + 1) (Nat.succ_lt_succ hj)) h0
      unfold cstr at hr ⊢
      rw [List.takeWhile_cons, if_pos (by simpa using hc), hr]

theorem delay_us_store (us : Nat) (s : State) :
    (delay_us us s).halted = s.halted ∧ (delay_us us s).i2c_ok = s.i2c_ok ∧
    (delay_us us s).eeprom = s.eeprom ∧
    (delay_us us s).current_callsign = s.current_callsign ∧
    (delay_us us s).current_cw = s.current_cw := by
  unfold delay_us live
  split
  · exact ⟨rfl, rfl, rfl, rfl, rfl⟩
  · dsimp only
    split <;> exact ⟨rfl, rfl, rfl, rfl, rfl⟩

theorem saveSlot_spec (base : Nat) (arr : List Nat) (h256 : ∀ c ∈ cstr arr, c < 256)
    (hb : base + (cstr arr).length < 256) : ∀ (n i : Nat) (s : State),
    s.halted = false → s.i2c_ok = true → s.eeprom.length = 256 →
    i ≤ (cstr arr).length → (cstr arr).length < i + n →
    (saveSlot base arr n i s).1 = true ∧ (saveSlot base arr n i s).2.halted = false ∧
    (saveSlot base arr n i s).2.i2c_ok = true ∧
    (saveSlot base arr n i s).2.eeprom.length = 256 ∧
    (saveSlot base arr n i s).2.current_callsign = s.current_callsign ∧
    (saveSlot base arr n i s).2.current_cw = s.current_cw ∧
    ∀ a, (saveSlot base arr n i s).2.eeprom.getD a 0 =
      if base + i ≤ a ∧ a ≤ base + (cstr arr).length then (cstr arr).getD (a - base) 0
      else s.eeprom.getD a 0 := by
  intro n
  induction n with
  | zero => intro i s _ _ _ h1 h2; omega
  | succ n ih =>
    intro i s hh hi hl h1 h2
    have hbyte : (if i < (cstr arr).length then arr.getD i 0 else 0) =
        (cstr arr).getD i 0 := by
      by_cases c : i < (cstr arr).length
      · rw [if_pos c]; exact cstr_getD arr i c
      · rw [if_neg c, getD_beyond _ _ (by omega)]
    have hlt : (cstr arr).getD i 0 < 256 := by
      by_cases c : i < (cstr arr).length
      · exact h256 _ (getD_mem _ _ c)
      · rw [getD_beyond _ _ (by omega)]; decide
    have hw : eeprom_write_byte (base + i) ((cstr arr).getD i 0) s =
        (true, { s with eeprom := s.eeprom.set (base + i) ((cstr arr).getD i 0) }) := by
      unfold eeprom_write_byte
      rw [hh, hi, Nat.mod_eq_of_lt hlt, Nat.mod_eq_of_lt (show base + i < 256 by omega)]
      rfl
    unfold saveSlot
    dsimp only
    rw [hbyte, hw]
    dsimp only
    rw [if_neg (by decide)]
    have d := delay_us_store 5000
      ({ s with eeprom := s.eeprom.set (base + i) ((cstr arr).getD i 0) } : State)
    generalize delay_us 5000
      ({ s with eeprom := s.eeprom.set (base + i) ((cstr arr).getD i 0) } : State) = s2 at d ⊢
    dsimp only at d
    have hcell : ∀ a, s2.eeprom.getD a 0 =
        if a = base + i then (cstr arr).getD i 0 else s.eeprom.getD a 0 := by
      intro a
      rw [d.2.2.1]
      exact getD_set_eq _ _ _ _ (by omega)
    by_cases hz : (cstr arr).getD i 0 = 0
    · have hi2 : i = (cstr arr).length := by
        by_cases c : i < (cstr arr).length
        · exact absurd hz (cstr_ne_zero arr _ (getD_mem _ _ c))
        · omega
      rw [if_pos hz]
      refine ⟨rfl, d.1.trans hh, d.2.1.trans hi, ?_, d.2.2.2.1, d.2.2.2.2, ?_⟩
      · show s2.eeprom.length = 256
        rw [d.2.2.1, List.length_set]
        exact hl
      · intro a
        show s2.eeprom.getD a 0 = _
        rw [hcell a]
        by_cases ha : a = base + i
        · rw [if_pos ha, if_pos (by omega), ha, Nat.add_sub_cancel_left]
        · rw [if_neg ha, if_neg (by omega)]
    · have hi2 : i < (cstr arr).length := by
        by_cases c : i < (cstr arr).length
        · exact c
        · exact absurd (getD_beyond _ _ (by omega)) hz
      rw [if_neg hz]
      have f := ih (i + 1) s2 (d.1.trans hh) (d.2.1.trans hi)
        (by rw [d.2.2.1, List.length_set]; exact hl) (by omega) (by omega)
      refine ⟨f.1, f.2.1, f.2.2.1, f.2.2.2.1, f.2.2.2.2.1.trans d.2.2.2.1,
        f.2.2.2.2.2.1.trans d.2.2.2.2, ?_⟩
      intro a
      rw [f.2.2.2.2.2.2 a, hcell a]
      by_cases ha : a = base + i
      · rw [if_neg (by omega), if_pos ha, if_pos (by omega), ha, Nat.add_sub_cancel_left]
      · rw [if_neg ha]
        by_cases hr : base + (i + 1) ≤ a ∧ a ≤ base + (cstr arr).length
        · rw [if_pos hr, if_pos (by omega)]
        · rw [if_neg hr, if_neg (by omega)]

theorem loadSlot_spec (base : Nat) (m : List Nat) (hnz : ∀ c ∈ m, c ≠ 0) (t : State)
    (ti : t.i2c_ok = true)
    (hcell : ∀ j, j ≤ m.length → t.eeprom.getD ((base + j) % 256) 0 = m.getD j 0) :
    ∀ (n i : Nat) (arr : List Nat), i ≤ m.length → m.length < i + n →
    m.length < arr.length → (∀ j, j < i → arr.getD j 0 = m.getD j 0) →
    (loadSlot base n i arr t).2 = true ∧ (loadSlot base n i arr t).1.length = arr.length ∧
    (∀ j, j < m.length → (loadSlot base n i arr t).1.getD j 0 = m.getD j 0) ∧
    (loadSlot base n i arr t).1.getD m.length 0 = 0 := by
  intro n
  induction n with
  | zero => intro i arr h1 h2; omega
  | succ n ih =>
    intro i arr h1 h2 hl hp
    have hr : eeprom_read_byte (base + i) t = some (m.getD i 0) := by
      unfold eeprom_read_byte
      rw [ti, hcell i h1]
      rfl
    unfold loadSlot
    rw [hr]
    dsimp only
    by_cases hz : m.getD i 0 = 0
    · have hi2 : i = m.length := by
        by_cases c : i < m.length
        · exact absurd hz (hnz _ (getD_mem _ _ c))
        · omega
      rw [if_pos hz]
      refine ⟨rfl, List.length_set _ _ _, ?_, ?_⟩
      · intro j hj
        show (arr.set i (m.getD i 0)).getD j 0 = _
        rw [getD_set_eq _ _ _ _ (by omega), if_neg (by omega)]
        exact hp j (by omega)
      · show (arr.set i (m.getD i 0)).getD m.length 0 = 0
        rw [getD_set_eq _ _ _ _ (by omega), if_pos hi2.symm]
        exact hz
    · have hi2 : i < m.length := by
        by_cases c : i < m.length
        · exact c
        · exact absurd (getD_beyond _ _ (by omega)) hz
      rw [if_neg hz]
      have f := ih (i + 1) (arr.set i (m.getD i 0)) (by omega) (by omega)
        (by rw [List.length_set]; exact hl)
        (by
          intro j hj
          rw [getD_set_eq _ _ _ _ (by omega)]
          by_cases c : j = i
          · rw [if_pos c, c]
          · rw [if_neg c]; exact hp j (by omega))
      refine ⟨f.1, ?_, f.2.2.1, f.2.2.2⟩
      rw [f.2.1, List.length_set]

theorem readBytes_congr (s t : State) (hi : s.i2c_ok = t.i2c_ok) : ∀ (n base : Nat),
    (∀ j, j < n → s.eeprom.getD ((base + j) % 256) 0 = t.eeprom.getD ((base + j) % 256) 0) →
    readBytes base n s = readBytes base n t := by
  intro n
  induction n with
  | zero => intro base _; rfl
  | succ n ih =>
    intro base h
    have h0 : eeprom_read_byte base s = eeprom_read_byte base t := by
      have h00 : s.eeprom.getD (base % 256) 0 = t.eeprom.getD (base % 256) 0 :=
        h 0 (Nat.succ_pos _)
      unfold eeprom_read_byte
      rw [hi, h00]
    have h1 := ih (base + 1) (fun j hj => by
      have := h (j + 1) (Nat.succ_lt_succ hj)
      rw [show base + 1 + j = base + (j + 1) by omega]
      exact this)
    unfold readBytes
    rw [h0, h1]

theorem cstr_set_nul (m : List Nat) (hnz : ∀ c ∈ m, c ≠ 0) (arr : List Nat) (k : Nat)
    (hk : m.length ≤ k) (hlen : k < arr.length)
    (hp : ∀ j, j < m.length → arr.getD j 0 = m.getD j 0) (h0 : arr.getD m.length 0 = 0) :
    cstr (arr.set k 0) = m := by
  apply cstr_eq_of_getD m hnz
  · rw [List.length_set]; omega
  · intro j hj
    rw [getD_set_eq _ _ _ _ hlen, if_neg (by omega)]
    exact hp j hj
  · rw [getD_set_eq _ _ _ _ hlen]
    by_cases c : m.length = k
    · rw [if_pos c]
    · rw [if_neg c]; exact h0

theorem validCallsign_facts (m : List Nat) (h : CLI_ValidateCallsign m = true) :
    m.length ≤ 12 ∧ ∀ c ∈ m, c < 256 := by
  unfold CLI_ValidateCallsign at h
  split at h
  · cases h
  · rename_i hl
    refine ⟨by omega, ?_⟩
    intro c hc
    have := List.all_eq_true.mp h c hc
    simp only [isalnumC, isdigitC, Bool.or_eq_true, Bool.and_eq_true, decide_eq_true_eq] at this
    omega

theorem validCw_bytes (m : List Nat) (h : CLI_ValidateCW m = true) :
    m.length ≤ 20 ∧ ∀ c ∈ m, c < 256 := by
  have w := (validCw_iff m).mp h
  unfold cwWellFormed at w
  refine ⟨w.2.1, ?_⟩
  intro c hc
  have := w.2.2 c hc
  omega

/-- What `CLI_SaveConfig` leaves in the EEPROM when the marker is in place and both
strings are valid: each string and its NUL in its slot, every other cell as before. -/
theorem save_spec (s : State) (hh : s.halted = false) (hi : s.i2c_ok = true)
    (hl : s.eeprom.length = 256)
    (hmk : readBytes MARKER_OFF MARKER_LEN s = some markerText)
    (hc : CLI_ValidateCallsign (cstr s.current_callsign) = true)
    (hw : CLI_ValidateCW (cstr s.current_cw) = true) :
    (CLI_SaveConfig s).halted = false ∧ (CLI_SaveConfig s).i2c_ok = true ∧
    (CLI_SaveConfig s).eeprom.length = 256 ∧
    (CLI_SaveConfig s).current_callsign = s.current_callsign ∧
    (CLI_SaveConfig s).current_cw = s.current_cw ∧
    ∀ a, (CLI_SaveConfig s).eeprom.getD a 0 =
      if 78 ≤ a ∧ a ≤ 78 + (cstr s.current_cw).length then (cstr s.current_cw).getD (a - 78) 0
      else if 64 ≤ a ∧ a ≤ 64 + (cstr s.current_callsign).length then
        (cstr s.current_callsign).getD (a - 64) 0
      else s.eeprom.getD a 0 := by
  have c1 := validCallsign_facts _ hc
  have c2 := validCw_bytes _ hw
  have e1 : CALLSIGN_OFFSET = 64 := rfl
  have e2 : CW_SLOT_OFFSET = 78 := rfl
  have e3 : CALLSIGN_SLOT_LEN = 14 := rfl
  have e4 : CW_SLOT_LEN = 21 := rfl
  unfold CLI_SaveConfig
  rw [hmk]
  dsimp only
  rw [if_neg (fun h => h rfl)]
  have f1 := saveSlot_spec CALLSIGN_OFFSET s.current_callsign c1.2 (by rw [e1]; omega)
    CALLSIGN_SLOT_LEN 0 s hh hi hl (Nat.zero_le _) (by rw [e3]; omega)
  generalize saveSlot CALLSIGN_OFFSET s.current_callsign CALLSIGN_SLOT_LEN 0 s = r1 at f1 ⊢
  rw [if_neg (by rw [f1.1]; decide), f1.2.2.2.2.2.1]
  have f2 := saveSlot_spec CW_SLOT_OFFSET s.current_cw c2.2 (by rw [e2]; omega)
    CW_SLOT_LEN 0 r1.2 f1.2.1 f1.2.2.1 f1.2.2.2.1 (Nat.zero_le _) (by rw [e4]; omega)
  generalize saveSlot CW_SLOT_OFFSET s.current_cw CW_SLOT_LEN 0 r1.2 = r2 at f2 ⊢
  refine ⟨f2.2.1, f2.2.2.1, f2.2.2.2.1, f2.2.2.2.2.1.trans f1.2.2.2.2.1,
    f2.2.2.2.2.2.1.trans f1.2.2.2.2.2.1, ?_⟩
  intro a
  rw [f2.2.2.2.2.2.2 a, f1.2.2.2.2.2.2 a, e1, e2, Nat.add_zero, Nat.add_zero]

/-- What `CLI_LoadConfig` reads back from an EEPROM with the magic and the marker in
place that holds the strings `m1` and `m2`, each with its NUL, in the two slots. -/
theorem load_spec (t : State) (th : t.halted = false) (ti : t.i2c_ok = true)
    (tc : t.current_callsign.length = 14) (tw : t.current_cw.length = 21)
    (bytes : List Nat) (hm : readBytes 0 4 t = some bytes)
    (hmag : magicOf bytes = SAO_MAGIC_LIFE)
    (hmk : readBytes MARKER_OFF MARKER_LEN t = some markerText)
    (m1 m2 : List Nat) (hz1 : ∀ c ∈ m1, c ≠ 0) (hz2 : ∀ c ∈ m2, c ≠ 0)
    (hl1 : m1.length ≤ 12) (hl2 : m2.length ≤ 20)
    (hc1 : ∀ j, j ≤ m1.length → t.eeprom.getD (64 + j) 0 = m1.getD j 0)
    (hc2 : ∀ j, j ≤ m2.length → t.eeprom.getD (78 + j) 0 = m2.getD j 0) :
    cstr (CLI_LoadConfig t).current_callsign = m1 ∧
    cstr (CLI_LoadConfig t).current_cw = m2 := by
  have e1 : CALLSIGN_OFFSET = 64 := rfl
  have e2 : CW_SLOT_OFFSET = 78 := rfl
  have e3 : CALLSIGN_SLOT_LEN = 14 := rfl
  have e4 : CW_SLOT_LEN = 21 := rfl
  have hcond : (!decide (magicOf bytes = SAO_MAGIC_LIFE) ||
      !decide (readBytes MARKER_OFF MARKER_LEN t = some markerText)) = false := by
    rw [hmag, hmk]
    rfl
  unfold CLI_LoadConfig
  rw [hm]
  dsimp only
  rw [hcond, if_neg Bool.false_ne_true]
  have f1 := loadSlot_spec CALLSIGN_OFFSET m1 hz1 t ti
    (fun j hj => by rw [e1, Nat.mod_eq_of_lt (by omega)]; exact hc1 j hj)
    CALLSIGN_SLOT_LEN 0 t.current_callsign (Nat.zero_le _) (by rw [e3]; omega)
    (by rw [tc]; omega) (fun j hj => absurd hj (Nat.not_lt_zero _))
  generalize loadSlot CALLSIGN_OFFSET CALLSIGN_SLOT_LEN 0 t.current_callsign t = r1 at f1 ⊢
  rw [if_neg (by rw [f1.1]; decide)]
  have q2 : (live (fun u => { u with current_callsign := r1.1 }) t).halted = false ∧
      (live (fun u => { u with current_callsign := r1.1 }) t).i2c_ok = true ∧
      (live (fun u => { u with current_callsign := r1.1 }) t).eeprom = t.eeprom ∧
      (live (fun u => { u with current_callsign := r1.1 }) t).current_cw = t.current_cw ∧
      (live (fun u => { u with current_callsign := r1.1 }) t).current_callsign = r1.1 := by
    rw [live_running _ _ th]
    exact ⟨th, ti, rfl, rfl, rfl⟩
  generalize live (fun u => { u with current_callsign := r1.1 }) t = s2 at q2 ⊢
  have q3 : (live (fun u => { u with
        current_callsign := u.current_callsign.set (CALLSIGN_SLOT_LEN - 1) 0 }) s2).halted = false ∧
      (live (fun u => { u with
        current_callsign := u.current_callsign.set (CALLSIGN_SLOT_LEN - 1) 0 }) s2).i2c_ok = true ∧
      (live (fun u => { u with
        current_callsign := u.current_callsign.set (CALLSIGN_SLOT_LEN - 1) 0 }) s2).eeprom = t.eeprom ∧
      (live (fun u => { u with
        current_callsign := u.current_callsign.set (CALLSIGN_SLOT_LEN - 1) 0 }) s2).current_cw = t.current_cw ∧
      (live (fun u => { u with
        current_callsign := u.current_callsign.set (CALLSIGN_SLOT_LEN - 1) 0 }) s2).current_callsign =
        r1.1.set 13 0 := by
    rw [live_running _ _ q2.1]
    exact ⟨q2.1, q2.2.1, q2.2.2.1, q2.2.2.2.1, by rw [← q2.2.2.2.2]; rfl⟩
  generalize live (fun u => { u with
        current_callsign := u.current_callsign.set (CALLSIGN_SLOT_LEN - 1) 0 }) s2 = s3 at q3 ⊢
  have f2 := loadSlot_spec CW_SLOT_OFFSET m2 hz2 s3 q3.2.1
    (fun j hj => by rw [e2, Nat.mod_eq_of_lt (by omega), q3.2.2.1]; exact hc2 j hj)
    CW_SLOT_LEN 0 s3.current_cw (Nat.zero_le _) (by rw [e4]; omega)
    (by rw [q3.2.2.2.1, tw]; omega) (fun j hj => absurd hj (Nat.not_lt_zero _))
  generalize loadSlot CW_SLOT_OFFSET CW_SLOT_LEN 0 s3.current_cw s3 = r2 at f2 ⊢
  rw [if_neg (by rw [f2.1]; decide)]
  have q4 : (live (fun u => { u with current_cw := r2.1 }) s3).halted = false ∧
      (live (fun u => { u with current_cw := r2.1 }) s3).current_callsign = r1.1.set 13 0 ∧
      (live (fun u => { u with current_cw := r2.1 }) s3).current_cw = r2.1 := by
    rw [live_running _ _ q3.1]
    exact ⟨q3.1, q3.2.2.2.2, rfl⟩
  generalize live (fun u => { u with current_cw := r2.1 }) s3 = s4 at q4 ⊢
  have q5 : (live (fun u => { u with
        current_cw := u.current_cw.set (CW_SLOT_LEN - 1) 0 }) s4).current_callsign = r1.1.set 13 0 ∧
      (live (fun u => { u with
        current_cw := u.current_cw.set (CW_SLOT_LEN - 1) 0 }) s4).current_cw = r2.1.set 20 0 := by
    rw [live_running _ _ q4.1]
    exact ⟨q4.2.1, by rw [← q4.2.2]; rfl⟩
  rw [q5.1, q5.2]
  exact ⟨cstr_set_nul m1 hz1 r1.1 13 (by omega) (by rw [f1.2.1, tc]; omega) f1.2.2.1 f1.2.2.2,
    cstr_set_nul m2 hz2 r2.1 20 (by omega) (by rw [f2.2.1, q3.2.2.2.1, tw]; omega)
      f2.2.2.1 f2.2.2.2⟩

/-- C22: on a running board with a working 256-byte EEPROM that holds the `LIFE` magic
and the marker, with a callsign accepted by `CLI_ValidateCallsign` and a CW message
accepted by `CLI_ValidateCW` in RAM, `CLI_SaveConfig` followed by `CLI_LoadConfig`
gives back the same two strings, both in the same session and in any running state `t`
that has the EEPROM content left by the save (such as after a restart); and the marker
(0x36..0x3F), the callsign slot (0x40..0x4D) and the CW slot (0x4E..0x62) follow one
another without overlap. -/
theorem C22_save_load_round_trip (s t : State) (bytes : List Nat)
    (hh : s.halted = false) (hi : s.i2c_ok = true) (hl : s.eeprom.length = 256)
    (hm : readBytes 0 4 s = some bytes) (hmag : magicOf bytes = SAO_MAGIC_LIFE)
    (hmk : readBytes MARKER_OFF MARKER_LEN s = some markerText)
    (hc : CLI_ValidateCallsign (cstr s.current_callsign) = true)
    (hw : CLI_ValidateCW (cstr s.current_cw) = true)
    (sc : s.current_callsign.length = 14) (sw : s.current_cw.length = 21)
    (te : t.eeprom = (CLI_SaveConfig s).eeprom) (th : t.halted = false)
    (ti : t.i2c_ok = true)
    (tc : t.current_callsign.length = 14) (tw : t.current_cw.length = 21) :
    cstr (CLI_LoadConfig (CLI_SaveConfig s)).current_callsign = cstr s.current_callsign ∧
    cstr (CLI_LoadConfig (CLI_SaveConfig s)).current_cw = cstr s.current_cw ∧
    cstr (CLI_LoadConfig t).current_callsign = cstr s.current_callsign ∧
    cstr (CLI_LoadConfig t).current_cw = cstr s.current_cw ∧
    MARKER_OFF = 0x36 ∧ MARKER_OFF + MARKER_LEN - 1 = 0x3F ∧
    CALLSIGN_OFFSET = 0x40 ∧ CALLSIGN_OFFSET + CALLSIGN_SLOT_LEN - 1 = 0x4D ∧
    CW_SLOT_OFFSET = 0x4E ∧ CW_SLOT_OFFSET + CW_SLOT_LEN - 1 = 0x62 := by
  have sv := save_spec s hh hi hl hmk hc hw
  have c1 := validCallsign_facts _ hc
  have c2 := validCw_bytes _ hw
  have e5 : MARKER_OFF = 54 := rfl
  have e6 : MARKER_LEN = 10 := rfl
  have key : ∀ u : State, u.eeprom = (CLI_SaveConfig s).eeprom → u.halted = false →
      u.i2c_ok = true → u.current_callsign.length = 14 → u.current_cw.length = 21 →
      cstr (CLI_LoadConfig u).current_callsign = cstr s.current_callsign ∧
      cstr (CLI_LoadConfig u).current_cw = cstr s.current_cw := by
    intro u ue uh ui uc uw
    have r1 : readBytes 0 4 u = some bytes := by
      rw [← hm]
      apply Eq.symm
      apply readBytes_congr s u (hi.trans ui.symm)
      intro j hj
      rw [ue, sv.2.2.2.2.2 _, if_neg (by omega), if_neg (by omega)]
    have r2 : readBytes MARKER_OFF MARKER_LEN u = some markerText := by
      rw [← hmk]
      apply Eq.symm
      apply readBytes_congr s u (hi.trans ui.symm)
      intro j hj
      rw [e6] at hj
      rw [e5, ue, sv.2.2.2.2.2 _, if_neg (by omega), if_neg (by omega)]
    refine load_spec u uh ui uc uw bytes r1 hmag r2 _ _ (cstr_ne_zero _) (cstr_ne_zero _)
      c1.1 c2.1 ?_ ?_
    · intro j hj
      rw [ue, sv.2.2.2.2.2 _, if_neg (by omega), if_pos (by omega), Nat.add_sub_cancel_left]
    · intro j hj
      rw [ue, sv.2.2.2.2.2 _, if_pos (by omega), Nat.add_sub_cancel_left]
  have k1 := key (CLI_SaveConfig s) rfl sv.1 sv.2.1 (by rw [sv.2.2.2.1]; exact sc)
    (by rw [sv.2.2.2.2.1]; exact sw)
  have k2 := key t te th ti tc tw
  exact ⟨k1.1, k1.2, k2.1, k2.2, rfl, rfl, rfl, rfl, rfl, rfl⟩

set_option maxRecDepth 100000 in
/-- C22 at a concrete input: `OH2ABC` and `CQ TEST` are saved, the board restarts with
its default strings, and the load brings both back. -/
theorem C22_save_load_round_trip_witness :
    CLI_ValidateCallsign (cstr saveExample.current_callsign) = true ∧
    CLI_ValidateCW (cstr saveExample.current_cw) = true ∧
    cstr (CLI_LoadConfig (State.init (CLI_SaveConfig saveExample).eeprom true
      [])).current_callsign = str "OH2ABC" ∧
    cstr (CLI_LoadConfig (State.init (CLI_SaveConfig saveExample).eeprom true
      [])).current_cw = str "CQ TEST" := by
  have h := C22_save_load_round_trip saveExample
    (State.init (CLI_SaveConfig saveExample).eeprom true []) (str "LIFE")
    rfl rfl (by decide) (by decide) (by decide) (by decide) (by decide) (by decide)
    (by decide) (by decide) rfl rfl rfl (by decide) (by decide)
  exact ⟨by decide, by decide, h.2.2.1.trans (by decide), h.2.2.2.1.trans (by decide)⟩

/-! ### C8, C11: the CW pass for every message -/

theorem cstr_nil_head (arr : List Nat) (h : cstr arr = []) : arr.getD 0 0 = 0 := by
  cases arr with
  | nil => rfl
  | cons a rest =>
    by_cases ha : a = 0
    · exact ha
    · have e := cstr_drop_of_char (a :: rest) 0 ha
      rw [List.drop_zero, h] at e
      cases e

theorem idle_timeline (leds : List Bool) :
    ledsAfter leds (waitActs 10000 10) = leds ∧
    timeline (ledTrace leds (waitActs 10000 10)) = List.replicate 100 leds :=
  ⟨rfl, rfl⟩

/-- The CW branch with an empty message, nothing pending or arriving: ten sleeps of
10 ms, then `continue`. -/
theorem Runs_cwIdle {s : State} (h : Quiet s) (he : s.current_cw.getD 0 0 = 0) :
    Runs s (cwStep s).1 (waitActs 10000 10) ∧ (cwStep s).2 = true := by
  unfold cwStep
  rw [if_pos he]
  exact ⟨Runs_btnWait (100 * 1000 / 10) 10 h, rfl⟩

theorem cwEmptyExample_quiet : Quiet cwEmptyExample :=
  ⟨rfl, rfl, rfl, fun _ h => by cases h⟩

theorem sosLitExample_quiet : Quiet sosLitExample :=
  ⟨rfl, rfl, rfl, fun _ h => by cases h⟩

theorem cwHashExample_quiet : Quiet cwHashExample :=
  ⟨rfl, rfl, rfl, fun _ h => by cases h⟩

set_option maxRecDepth 1000000 in
/-- C8 as stated fails. For the empty message the uncancelled pass is the idle wait of
the CW branch, 100 ms with the LEDs as they were and no closing gap, while the reference
sequence of the empty message is the 9-unit gap, 900 ms. And the trace is not determined
by the message alone: for "SOS" started with LED4 lit the pass logs the same calls, but
LED4 stays on until the first dash ends, so the trace is not the reference sequence. -/
theorem C8_counterexample_empty_or_lit :
    (Quiet cwEmptyExample ∧ Quiet sosLitExample) ∧
    cwEmptyExample.led_auto_mode = 3 ∧ cstr cwEmptyExample.current_cw = [] ∧
    cwEmptyExample.leds = allOff ∧
    (cwStep cwEmptyExample).2 = true ∧
    (cwStep cwEmptyExample).1.log.drop cwEmptyExample.log.length = waitActs 10000 10 ∧
    timeline (ledTrace cwEmptyExample.leds
      ((cwStep cwEmptyExample).1.log.drop cwEmptyExample.log.length))
      = List.replicate 100 allOff ∧
    refTimeline (refPass (cstr cwEmptyExample.current_cw)) = List.replicate 900 allOff ∧
    sosLitExample.led_auto_mode = 3 ∧ cstr sosLitExample.current_cw = str "SOS" ∧
    (cwStep sosLitExample).1.log.drop sosLitExample.log.length = passActs (str "SOS") ∧
    timeline (ledTrace sosLitExample.leds
      ((cwStep sosLitExample).1.log.drop sosLitExample.log.length))
      ≠ refTimeline (refPass (cstr sosLitExample.current_cw)) := by
  refine ⟨⟨cwEmptyExample_quiet, sosLitExample_quiet⟩, ?_⟩
  decide

/-- C8, amended: CW output trace. A CW pass that is neither cancelled nor fed serial
input makes no pseudo-random draw. For a non-empty message it logs exactly the calls
determined by the message, whatever the LED outputs at entry, and does not end in
`continue`; when it starts with all LEDs off it shows, millisecond by millisecond,
exactly the reference sequence: each dit LEDs {0,4} on for 1 unit (100 ms), each dash
LEDs {1,2,3} on for 3 units, each element followed by 1 unit all off, each character by
4 further units all off, each space a 9-unit gap, and a closing 9-unit gap, and the LEDs
are off again at the end. For the empty message the pass is ten sleeps of 10 ms with
the LED outputs unchanged, and ends in `continue`. -/
theorem C8_cw_pass_trace (s : State) (hq : Quiet s) (hm : s.led_auto_mode = 3) :
    modeStep s = cwStep s ∧ (cwStep s).1.lcg_state = s.lcg_state ∧
    (cstr s.current_cw ≠ [] →
      (cwStep s).2 = false ∧
      (cwStep s).1.log = s.log ++ passActs (cstr s.current_cw) ∧
      (s.leds = allOff →
        timeline (ledTrace s.leds ((cwStep s).1.log.drop s.log.length))
          = refTimeline (refPass (cstr s.current_cw)) ∧
        (cwStep s).1.leds = allOff)) ∧
    (cstr s.current_cw = [] →
      (cwStep s).2 = true ∧
      (cwStep s).1.log = s.log ++ waitActs 10000 10 ∧
      timeline (ledTrace s.leds ((cwStep s).1.log.drop s.log.length))
        = List.replicate 100 s.leds ∧
      (cwStep s).1.leds = s.leds) := by
  have hl : (cwStep s).1.lcg_state = s.lcg_state := by
    by_cases he : s.current_cw.getD 0 0 = 0
    · exact Runs_lcg (Runs_cwIdle hq he).1
    · exact Runs_lcg (Runs_cwStep hq hm he).1
  refine ⟨modeStep_cw s hm, hl, ?_, ?_⟩
  · intro hne
    obtain ⟨hr, hflag⟩ := Runs_cwStep hq hm (cstr_head_ne _ hne)
    obtain ⟨h1, h2⟩ := shows_pass (cstr s.current_cw)
    refine ⟨hflag, hr.2.1, ?_⟩
    intro hoff
    constructor
    · rw [hr.2.1, List.drop_left, hoff]
      exact h2
    · rw [hr.2.2.1, hoff]
      exact h1
  · intro he
    obtain ⟨hr, hflag⟩ := Runs_cwIdle hq (cstr_nil_head _ he)
    refine ⟨hflag, hr.2.1, ?_, ?_⟩
    · rw [hr.2.1, List.drop_left]
      exact (idle_timeline s.leds).2
    · rw [hr.2.2.1]
      exact (idle_timeline s.leds).1

set_option maxRecDepth 100000 in
/-- C8 at a concrete input: the message "SOS" started with the LEDs off shows dit dit
dit, dash dash dash, dit dit dit with the gaps of the reference. -/
theorem C8_cw_pass_trace_witness :
    Quiet sosExample ∧ sosExample.led_auto_mode = 3 ∧ sosExample.leds = allOff ∧
    cstr sosExample.current_cw ≠ [] ∧
    timeline (ledTrace sosExample.leds ((cwStep sosExample).1.log.drop sosExample.log.length))
      = refTimeline sosReference ∧
    (cwStep sosExample).1.lcg_state = sosExample.lcg_state := by
  have h := C8_cw_pass_trace sosExample sosExample_quiet rfl
  exact ⟨sosExample_quiet, rfl, rfl, by decide,
    ((h.2.2.1 (by decide)).2.2 rfl).1.trans
      (congrArg refTimeline (by decide : refPass (cstr sosExample.current_cw) = sosReference)),
    h.2.1⟩

set_option maxRecDepth 1000000 in
/-- C11 as stated fails for the empty message: the pass over the empty message is the
idle wait (ten sleeps of 10 ms), while the pass over the message that consists of the
unsupported character `#` alone is a full pass, the closing gap of 36 sleeps of 25 ms;
the calls logged and the traces differ. -/
theorem C11_counterexample_empty_message :
    (Quiet cwEmptyExample ∧ Quiet cwHashExample) ∧
    cwEmptyExample.led_auto_mode = 3 ∧ cwHashExample.led_auto_mode = 3 ∧
    cstr cwEmptyExample.current_cw = [] ∧
    cstr cwHashExample.current_cw = ([] : List Nat).take 0 ++ 35 :: ([] : List Nat).drop 0 ∧
    isMorseChar 35 = false ∧ (35 : Nat) ≠ 32 ∧
    (cwStep cwEmptyExample).1.log.drop cwEmptyExample.log.length = waitActs 10000 10 ∧
    (cwStep cwHashExample).1.log.drop cwHashExample.log.length = waitActs 25000 36 ∧
    (cwStep cwHashExample).1.log.drop cwHashExample.log.length
      ≠ (cwStep cwEmptyExample).1.log.drop cwEmptyExample.log.length ∧
    ledTrace allOff ((cwStep cwHashExample).1.log.drop cwHashExample.log.length)
      ≠ ledTrace allOff ((cwStep cwEmptyExample).1.log.drop cwEmptyExample.log.length) := by
  refine ⟨⟨cwEmptyExample_quiet, cwHashExample_quiet⟩, ?_⟩
  decide

/-- C11, amended: unsupported CW characters are skipped in a non-empty message. Let `c`
be a character that is not a letter, digit or space; `c` contributes no call at all,
neither a pulse nor a gap. Take two uncancelled CW passes, one over the message `M` and
one over `M` with `c` inserted at position `i`. If `M` is not empty they log the same
calls, hence show the same output trace from the same LED outputs. If `M` is empty they
differ: the pass over `M` is the idle wait of ten sleeps of 10 ms, the pass over `c`
alone is the closing gap of 36 sleeps of 25 ms. -/
theorem C11_unsupported_char_skipped (s s' : State) (M : List Nat) (c i : Nat)
    (hq : Quiet s) (hm : s.led_auto_mode = 3) (hq' : Quiet s') (hm' : s'.led_auto_mode = 3)
    (hM : cstr s.current_cw = M)
    (hM' : cstr s'.current_cw = M.take i ++ c :: M.drop i)
    (hc : isMorseChar c = false) (hsp : c ≠ 32) :
    charActs c = [] ∧
    (M ≠ [] →
      (cwStep s').1.log.drop s'.log.length = (cwStep s).1.log.drop s.log.length ∧
      ∀ leds, ledTrace leds ((cwStep s').1.log.drop s'.log.length)
        = ledTrace leds ((cwStep s).1.log.drop s.log.length)) ∧
    (M = [] →
      (cwStep s).1.log.drop s.log.length = waitActs 10000 10 ∧
      (cwStep s').1.log.drop s'.log.length = waitActs 25000 36) := by
  have hcs := charActs_unsupported c hc hsp
  have hne0' : s'.current_cw.getD 0 0 ≠ 0 := cstr_head_ne _ (by rw [hM']; simp)
  obtain ⟨hr', -⟩ := Runs_cwStep hq' hm' hne0'
  have hmsg : messageActs (M.take i ++ c :: M.drop i) = messageActs M := by
    rw [messageActs_append]
    show messageActs (M.take i) ++ (charActs c ++ messageActs (M.drop i)) = messageActs M
    rw [hcs, List.nil_append, ← messageActs_append, List.take_append_drop]
  have hlog' : (cwStep s').1.log.drop s'.log.length = messageActs M ++ waitActs 25000 36 := by
    rw [hr'.2.1, List.drop_left, hM']
    unfold passActs
    rw [hmsg]
  refine ⟨hcs, ?_, ?_⟩
  · intro hne
    have hne0 : s.current_cw.getD 0 0 ≠ 0 := cstr_head_ne _ (by rw [hM]; exact hne)
    obtain ⟨hr, -⟩ := Runs_cwStep hq hm hne0
    have hlog : (cwStep s').1.log.drop s'.log.length = (cwStep s).1.log.drop s.log.length := by
      rw [hlog', hr.2.1, List.drop_left, hM]
      rfl
    exact ⟨hlog, fun leds => by rw [hlog]⟩
  · intro he
    have h0 : s.current_cw.getD 0 0 = 0 := cstr_nil_head _ (by rw [hM]; exact he)
    obtain ⟨hr, -⟩ := Runs_cwIdle hq h0
    constructor
    · rw [hr.2.1, List.drop_left]
    · rw [hlog', he]
      rfl

set_option maxRecDepth 100000 in
/-- C11 at a concrete input: "S#OS" logs the same calls as "SOS". -/
theorem C11_unsupported_char_skipped_witness :
    Quiet sosExample ∧ Quiet sosHashExample ∧
    cstr sosExample.current_cw = str "SOS" ∧
    cstr sosHashExample.current_cw = (str "SOS").take 1 ++ 35 :: (str "SOS").drop 1 ∧
    isMorseChar 35 = false ∧
    charActs 35 = [] ∧
    (cwStep sosHashExample).1.log.drop sosHashExample.log.length
      = (cwStep sosExample).1.log.drop sosExample.log.length := by
  have h := C11_unsupported_char_skipped sosExample sosHashExample (str "SOS") 35 1
    sosExample_quiet rfl sosHashExample_quiet rfl (by decide) (by decide) (by decide)
    (by decide)
  exact ⟨sosExample_quiet, sosHashExample_quiet, by decide, by decide, by decide, h.1,
    (h.2.1 (by decide)).1⟩

/-! ### C13: the animation phase state across mode switches -/

theorem passes_keep_icircle (n : Nat) : ∀ s : State, 5 ∉ branchModes n s →
    (mainIteration^[n] s).circle_step = s.circle_step ∧
    (mainIteration^[n] s).circle_forward = s.circle_forward ∧
    (mainIteration^[n] s).direction_counter = s.direction_counter ∧
    (mainIteration^[n] s).speed_step = s.speed_step := by
  induction n with
  | zero => intro s _; exact ⟨rfl, rfl, rfl, rfl⟩
  | succ n ih =>
    intro s h
    unfold branchModes at h
    have h1 : (serviceButton s).led_auto_mode ≠ 5 := fun e => h (e ▸ List.mem_cons_self _ _)
    have h2 : 5 ∉ branchModes n (mainIteration s) := fun m => h (List.mem_cons_of_mem _ m)
    have k := (Tame_mainIteration s).2.1 (decide_eq_true h1)
    have r := ih (mainIteration s) h2
    rw [Function.iterate_succ_apply]
    exact ⟨r.1.trans k.1, r.2.1.trans k.2.1, r.2.2.1.trans k.2.2.1, r.2.2.2.trans k.2.2.2⟩

theorem passes_keep_pick (n : Nat) : ∀ s : State, 1 ∉ branchModes n s →
    2 ∉ branchModes n s → (mainIteration^[n] s).last_blink_idx = s.last_blink_idx := by
  induction n with
  | zero => intro s _ _; rfl
  | succ n ih =>
    intro s h1 h2
    unfold branchModes at h1 h2
    have a1 : (serviceButton s).led_auto_mode ≠ 1 := fun e => h1 (e ▸ List.mem_cons_self _ _)
    have a2 : (serviceButton s).led_auto_mode ≠ 2 := fun e => h2 (e ▸ List.mem_cons_self _ _)
    have k := (Tame_mainIteration s).2.2.1 (decide_eq_true ⟨a1, a2⟩)
    have r := ih (mainIteration s) (fun m => h1 (List.mem_cons_of_mem _ m))
      (fun m => h2 (List.mem_cons_of_mem _ m))
    rw [Function.iterate_succ_apply]
    exact r.trans k

theorem pick_branch_last (t : State) (hh : t.halted = false)
    (hm : t.led_auto_mode = 1 ∨ t.led_auto_mode = 2) :
    (modeStep t).1.last_blink_idx =
      ((pickLed (lcgNext t.lcg_state) t.last_blink_idx : Nat) : Int) := by
  obtain ⟨p1, p2, -, -⟩ := pickStep_running t hh
  have hs := (Keeps_GPIO_SetPin (pickStep t).1 (pickStep t).2).2
  unfold modeStep
  rcases hm with hm | hm
  · rw [if_pos hm, (blinkStep_keeps t).2, hs, p2, p1]
  · rw [if_neg (by rw [hm]; decide), if_pos hm, (fadeStep_keeps t).2, hs, p2, p1]

theorem pass_pick_last (s : State) (hh : (serviceButton s).halted = false)
    (hm : (serviceButton s).led_auto_mode = 1 ∨ (serviceButton s).led_auto_mode = 2) :
    (mainIteration s).last_blink_idx =
      ((pickLed (lcgNext (serviceButton s).lcg_state) s.last_blink_idx : Nat) : Int) := by
  have hb := (@Tame_serviceButton true true s).2.2.1 rfl
  have hp := pick_branch_last (serviceButton s) hh hm
  rw [hb] at hp
  unfold mainIteration
  dsimp only
  split
  · exact hp
  · exact ((@Tame_secondaryService 50000 true true (modeStep (serviceButton s)).1).2.2.1
      rfl).trans hp

set_option maxRecDepth 1000000 in
/-- C13 as stated fails. With the button pressed during every sleep, the first pass runs
ICIRCLE and leaves the speed counter at 1; the next six passes run DISCO, OFF, BLINK,
FADE, CW and STROBO, and after the button block of the pass that re-enters ICIRCLE the
speed counter is still 1, not its initial value 0. Likewise the first BLINK pass
remembers LED4 (index 3); when BLINK is re-entered after passes in the six other modes
the remembered pick is the one the FADE pass left (4), not the initial value -1. -/
theorem C13_counterexample_statics_not_reset :
    icirclePressExample.speed_step = 0 ∧
    (mainIteration icirclePressExample).led_auto_mode = 5 ∧
    (mainIteration icirclePressExample).speed_step = 1 ∧
    branchModes 6 (mainIteration icirclePressExample) = [6, 0, 1, 2, 3, 4] ∧
    (serviceButton (mainIteration^[7] icirclePressExample)).led_auto_mode = 5 ∧
    (serviceButton (mainIteration^[7] icirclePressExample)).speed_step = 1 ∧
    blinkPressExample.last_blink_idx = -1 ∧
    (mainIteration blinkPressExample).led_auto_mode = 1 ∧
    (mainIteration blinkPressExample).last_blink_idx = 3 ∧
    branchModes 6 (mainIteration blinkPressExample) = [2, 3, 4, 5, 6, 0] ∧
    (serviceButton (mainIteration^[7] blinkPressExample)).led_auto_mode = 1 ∧
    (serviceButton (mainIteration^[7] blinkPressExample)).last_blink_idx = 4 := by
  decide

/-- C13, amended: animation phase state is retained across mode switches, not reset. The
button block changes neither the ICIRCLE phase state (ring position, direction,
revolution counter, speed counter) nor the last pick. Over any number of passes of the
main loop none of which runs the ICIRCLE branch, whatever button presses and serial
bytes arrive, the ICIRCLE phase state stays as it was, also after the button block of
the next pass (the one that re-enters ICIRCLE). Over passes none of which runs the BLINK
or the FADE branch the last pick stays as it was; a pass that runs BLINK or FADE with
the core running replaces it by the index 0..4 of the LED it picks, which differs from
the pick before. -/
theorem C13_phase_state_retained (s : State) (n : Nat) :
    ((serviceButton s).circle_step = s.circle_step ∧
      (serviceButton s).circle_forward = s.circle_forward ∧
      (serviceButton s).direction_counter = s.direction_counter ∧
      (serviceButton s).speed_step = s.speed_step ∧
      (serviceButton s).last_blink_idx = s.last_blink_idx) ∧
    (5 ∉ branchModes n s →
      ((mainIteration^[n] s).circle_step = s.circle_step ∧
        (mainIteration^[n] s).circle_forward = s.circle_forward ∧
        (mainIteration^[n] s).direction_counter = s.direction_counter ∧
        (mainIteration^[n] s).speed_step = s.speed_step) ∧
      ((serviceButton (mainIteration^[n] s)).circle_step = s.circle_step ∧
        (serviceButton (mainIteration^[n] s)).circle_forward = s.circle_forward ∧
        (serviceButton (mainIteration^[n] s)).direction_counter = s.direction_counter ∧
        (serviceButton (mainIteration^[n] s)).speed_step = s.speed_step)) ∧
    (1 ∉ branchModes n s → 2 ∉ branchModes n s →
      (mainIteration^[n] s).last_blink_idx = s.last_blink_idx ∧
      (serviceButton (mainIteration^[n] s)).last_blink_idx = s.last_blink_idx) ∧
    ((serviceButton s).halted = false →
      (serviceButton s).led_auto_mode = 1 ∨ (serviceButton s).led_auto_mode = 2 →
      0 ≤ (mainIteration s).last_blink_idx ∧ (mainIteration s).last_blink_idx < 5 ∧
      (mainIteration s).last_blink_idx ≠ s.last_blink_idx) := by
  have sb : ∀ t : State, ((serviceButton t).circle_step = t.circle_step ∧
      (serviceButton t).circle_forward = t.circle_forward ∧
      (serviceButton t).direction_counter = t.direction_counter ∧
      (serviceButton t).speed_step = t.speed_step) ∧
      (serviceButton t).last_blink_idx = t.last_blink_idx := fun t =>
    ⟨(@Tame_serviceButton true true t).2.1 rfl, (@Tame_serviceButton true true t).2.2.1 rfl⟩
  refine ⟨⟨(sb s).1.1, (sb s).1.2.1, (sb s).1.2.2.1, (sb s).1.2.2.2, (sb s).2⟩, ?_, ?_, ?_⟩
  · intro h
    have r := passes_keep_icircle n s h
    have b := (sb (mainIteration^[n] s)).1
    exact ⟨r, b.1.trans r.1, b.2.1.trans r.2.1, b.2.2.1.trans r.2.2.1, b.2.2.2.trans r.2.2.2⟩
  · intro h1 h2
    have r := passes_keep_pick n s h1 h2
    exact ⟨r, ((sb (mainIteration^[n] s)).2).trans r⟩
  · intro hh hm
    rw [pass_pick_last s hh hm]
    generalize lcgNext (serviceButton s).lcg_state = r
    exact ⟨Int.ofNat_nonneg _, by exact_mod_cast pickLed_lt r s.last_blink_idx,
      pickLed_ne r s.last_blink_idx⟩

set_option maxRecDepth 1000000 in
/-- C13 at a concrete input: the six passes after the cancelled ICIRCLE pass of
`icirclePressExample` run the other six modes, and the FADE pass of `blinkPressExample`
replaces the pick 3 left by BLINK. -/
theorem C13_phase_state_retained_witness :
    5 ∉ branchModes 6 (mainIteration icirclePressExample) ∧
    (serviceButton (mainIteration^[6] (mainIteration icirclePressExample))).speed_step
      = (mainIteration icirclePressExample).speed_step ∧
    (serviceButton (mainIteration blinkPressExample)).halted = false ∧
    (serviceButton (mainIteration blinkPressExample)).led_auto_mode = 2 ∧
    (mainIteration (mainIteration blinkPressExample)).last_blink_idx
      ≠ (mainIteration blinkPressExample).last_blink_idx := by
  have h := C13_phase_state_retained (mainIteration icirclePressExample) 6
  have g := C13_phase_state_retained (mainIteration blinkPressExample) 0
  exact ⟨by decide, (h.2.1 (by decide)).2.2.2.2, by decide, by decide,
    (g.2.2.2 (by decide) (Or.inr (by decide))).2.2⟩

/-! ### C20: the stored CW message -/

set_option maxRecDepth 1000000 in
/-- C20 as stated fails: `CLI_LoadConfig` takes the CW slot as stored. With the magic and
the marker in place, a blank CW slot gives the empty message and a slot holding `#1`
gives the message `#1`; neither is a message of 1 to 20 letters, digits and spaces. The
slot can also be changed from the shell: on a board that started with `SRAL`, the line
`eewrite 78 35` puts `#` into the first cell of the slot and `reboot` resets the core;
the message in RAM is still `SRAL` at the reset, and the start-up that follows loads
`#RAL`, which `CLI_ValidateCW` rejects. -/
theorem C20_counterexample_loaded_message :
    cstr (CLI_LoadConfig (State.init eepromBlankCw true [])).current_cw = [] ∧
    cstr (CLI_LoadConfig (State.init eepromHashCw true [])).current_cw = str "#1" ∧
    CLI_ValidateCW [] = false ∧ CLI_ValidateCW (str "#1") = false ∧
    cstr (CLI_Init (State.init eepromSralCw true [])).current_cw = str "SRAL" ∧
    (rebootLines.foldl (fun t c => CLI_ProcessChar c t)
      (CLI_Init (State.init eepromSralCw true []))).halted = true ∧
    cstr (rebootLines.foldl (fun t c => CLI_ProcessChar c t)
      (CLI_Init (State.init eepromSralCw true []))).current_cw = str "SRAL" ∧
    cstr (restart (rebootLines.foldl (fun t c => CLI_ProcessChar c t)
      (CLI_Init (State.init eepromSralCw true [])))).current_cw = str "#RAL" ∧
    CLI_ValidateCW (str "#RAL") = false := by
  decide

/-- C20, amended: within one run of the firmware, from start-up to the next reset of the
core, the CW message stays well-formed (1 to 20 characters, each a letter, a digit or a
space) once it is: it is well-formed in the start-up defaults, and a well-formed message
is still well-formed after any sequence of characters fed to the shell and after any
number of passes of the main loop, up to and including the moment of a reset. A load
from an EEPROM that cannot be read keeps the message, so a start-up on such a board has
the default message. (A start-up on a readable EEPROM takes the CW slot as stored.) -/
theorem C20_cw_message_stays_well_formed (s : State)
    (h : cwWellFormed (cstr s.current_cw)) (cs : List Nat) (n : Nat) :
    cwWellFormed (cstr (cs.foldl (fun t c => CLI_ProcessChar c t) s).current_cw) ∧
    cwWellFormed (cstr (mainIteration^[n] s).current_cw) ∧
    (∀ (e : List Nat) (ok : Bool) (env : List Irq),
      cwWellFormed (cstr (State.init e ok env).current_cw)) ∧
    (s.i2c_ok = false → CLI_LoadConfig s = s) ∧
    (s.i2c_ok = false → cwWellFormed (cstr (restart s).current_cw) ∧
      cstr (restart s).current_cw = str "SRAL") := by
  have hv := (validCw_iff _).mpr h
  have hload : ∀ t : State, t.i2c_ok = false → CLI_LoadConfig t = t := by
    intro t hi
    unfold CLI_LoadConfig
    have : readBytes 0 4 t = none := by
      simp only [readBytes, eeprom_read_byte, hi, Bool.false_eq_true, if_false]
    rw [this]
  refine ⟨(validCw_iff _).mp ((Tame_processChars cs s).2.2.2.1 hv),
    (validCw_iff _).mp ((Tame_mainIterations n s).2.2.2.1 hv), ?_, hload s, ?_⟩
  · intro e ok env
    have : (State.init e ok env).current_cw = strncpy (List.replicate 21 0) (str "SRAL") 21 :=
      rfl
    rw [this]
    exact (validCw_iff _).mp (by decide)
  · intro hi
    have e : (restart s).current_cw = strncpy (List.replicate 21 0) (str "SRAL") 21 := by
      unfold restart CLI_Init
      rw [hload _ (by exact hi)]
      rfl
    rw [e]
    exact ⟨(validCw_iff _).mp (by decide), by decide⟩

set_option maxRecDepth 100000 in
/-- C20 at a concrete input: the line `cw AB` replaces the default message by `AB`. -/
theorem C20_cw_message_stays_well_formed_witness :
    cwWellFormed (cstr (State.init [] true []).current_cw) ∧
    cstr (cwCommandExample.foldl (fun t c => CLI_ProcessChar c t)
      (State.init [] true [])).current_cw = str "AB" ∧
    cwWellFormed (cstr (cwCommandExample.foldl (fun t c => CLI_ProcessChar c t)
      (State.init [] true [])).current_cw) :=
  ⟨(validCw_iff _).mp (by decide), by decide,
    (C20_cw_message_stays_well_formed (State.init [] true [])
      ((validCw_iff _).mp (by decide)) cwCommandExample 0).1⟩

end SaoFw
